import Mathlib

/-!
# csv2rinex: a verification development

Shallow embedding of `src/main.cpp` (GNSS logger CSV to RINEX 3.04 converter).

Conventions of the embedding:

* `long long`, `int` and `unsigned __int64` values are `Int`/`Nat`; C integer
  division and remainder truncate toward zero and are `Int.tdiv`/`Int.tmod`;
  conversions to `unsigned __int64` reduce modulo `2^64`.
* `double` and `long double` values are rationals (`ℚ`). `fl` is the rounding
  of a real number to the nearest `double` (`long double` has the `double`
  format with the compiler the source is written for). The rounding is applied
  where a statement depends on it: in the whole-millisecond receiver time
  `allRxMillis_of` that groups the records into epochs, and in `pr_second_fl`,
  the pseudorange time as the program computes it. The other floating-point
  expressions (`pr_second_raw`, `rollover`, `write_obs`, the seconds field of
  `gpstime2ymdhms`) are taken over exact numbers.
* the `long long` subtraction `time_nano - full_bias_nano` wraps modulo `2^64`
  (`toI64`).
* global arrays (`signals`, `nsignals`) are an explicit registry value that is
  passed through the passes, read row by row as lists (`Registry`); the arrays
  with their fixed layout are `SignalArrays`. `std::vector<rnx_sat*>` is a list
  of satellite records updated in place by index.
* `printf` diagnostics on the console are collected in a list.
-/

namespace Csv2Rinex

/-! ## C library helpers -/

/-- C `round`: nearest integer, halfway cases away from zero. -/
def cRound (x : ℚ) : Int :=
  if 0 ≤ x then ⌊x + 1 / 2⌋ else -⌊-x + 1 / 2⌋

/-- Conversion of a floating value to an integer type: truncation toward zero. -/
def cTrunc (x : ℚ) : Int :=
  if 0 ≤ x then ⌊x⌋ else -⌊-x⌋

/-- C `fmodl x y`: `x - n * y` where `n` is `x / y` truncated toward zero. -/
def fmodl (x y : ℚ) : ℚ :=
  x - (cTrunc (x / y) : ℚ) * y

/-- Conversion to `unsigned __int64`. -/
def toU64 (x : Int) : Int :=
  x % 18446744073709551616

/-- The value of a `long long` expression whose exact value is `x`: reduction
modulo `2^64` into `[-2^63, 2^63)`. -/
def toI64 (x : Int) : Int :=
  (x + 9223372036854775808) % 18446744073709551616 - 9223372036854775808

/-- Nearest integer, ties to even. -/
def roundHalfEven (x : ℚ) : Int :=
  if x - ⌊x⌋ < 1 / 2 then ⌊x⌋
  else if x - ⌊x⌋ > 1 / 2 then ⌊x⌋ + 1
  else if ⌊x⌋ % 2 = 0 then ⌊x⌋ else ⌊x⌋ + 1

/-- The number of binary digits of `n`, for `n ≤ fuel`. -/
def bit_length : Nat → Nat → Nat
  | 0, _ => 0
  | fuel + 1, n => if n = 0 then 0 else bit_length fuel (n / 2) + 1

/-- The binary exponent of a non-zero rational: the `e` with
`2^e ≤ |x| < 2^(e+1)`. -/
def binade (x : ℚ) : Int :=
  let e0 : Int :=
    (bit_length x.num.natAbs x.num.natAbs : Int) - (bit_length x.den x.den : Int)
  if (2 : ℚ) ^ e0 ≤ |x| then e0 else e0 - 1

/-- Rounding to the nearest `double` (53 significant binary digits, ties to
even), as done by every floating-point operation and by the conversion of an
integer to `double`. Overflow and subnormal numbers are left out: no value of
the program comes near `1.8e308` or below `2.2e-308`. -/
def fl (x : ℚ) : ℚ :=
  if x = 0 then 0
  else (roundHalfEven (x / (2 : ℚ) ^ (binade x - 52)) : ℚ) * (2 : ℚ) ^ (binade x - 52)

/-! ## Constants (`#define`s of main.cpp) -/

def CLIGHT : ℚ := 299792458
def LeapSecond : Int := 18
def MAXPRRUNCMPS : ℚ := 10
def MAXTOWUNCNS : Int := 500
def MAX_FRQ : Nat := 5

def SYS_GPS : Int := 1
def SYS_GLO : Int := 3
def SYS_GAL : Int := 6
def SYS_BDS : Int := 5
def SYS_QZS : Int := 4

def STATE_CODE_LOCK : Int := 1
def STATE_TOW_DECODED : Int := 8
def STATE_GLO_STRING_SYNC : Int := 64
def STATE_GLO_TOD_KNOWN : Int := 128
def STATE_GAL_E1C_2ND_CODE_LOCK : Int := 2048

def GPS_ADR_STATE_UNKNOWN : Int := 0
def GPS_ADR_STATE_CYCLE_SLIP : Int := 4
def GPS_ADR_STATE_HALF_CYCLE_RESOLVED : Int := 8
def GPS_ADR_STATE_HALF_CYCLE_REPORTED : Int := 16

def LLI_SLIP : Int := 1
def LLI_HALFC : Int := 2
def LLI_BOCTRK : Int := 4

/-! ## gpstime2ymdhms -/

/-- The array `double time[6]` filled by `gpstime2ymdhms`: the first five
entries hold integers, the sixth the fractional seconds. -/
structure CalTime where
  year : Int
  month : Int
  day : Int
  hour : Int
  minute : Int
  second : ℚ
deriving DecidableEq

/-- The local array `monthDays` after February has been set for `years`. -/
def monthDays (years : Int) : List Int :=
  [31, if Int.tmod years 4 = 0 then 29 else 28, 31, 30, 31, 30, 31, 31, 30, 31, 30, 31]

/-- The loop `while (days > leap + 365)` of `gpstime2ymdhms`, returning
`(days, years)` at exit.  Every iteration lowers `days` by at least 365, so
`fuel = days` iterations always reach the exit test (`yearLoop_spec`). -/
def yearLoop : Nat → Int → Int → Bool → Int × Int
  | 0, days, years, _ => (days, years)
  | fuel + 1, days, years, leap =>
    if days > (if leap then 1 else 0) + 365 then
      yearLoop fuel (days - ((if leap then 1 else 0) + 365)) (years + 1)
        (decide (Int.tmod (years + 1) 4 = 0))
    else (days, years)

/-- The loop `while (days > monthDays[month - 1])` of `gpstime2ymdhms`,
returning `(days, month)` at exit.  The month index starts at 1 and the loop
is entered with twelve iterations available; `monthLoop_inv` shows that the exit
test is reached before they are used up. -/
def monthLoop (md : List Int) : Nat → Int → Int → Int × Int
  | 0, days, month => (days, month)
  | fuel + 1, days, month =>
    if days > md.getD (month - 1).toNat 0 then
      monthLoop md fuel (days - md.getD (month - 1).toNat 0) (month + 1)
    else (days, month)

/-- The function `gpstime2ymdhms(time_nano, full_bias_nano, bias_nano, time)`. -/
def gpstime2ymdhms (time_nano full_bias_nano : Int) (bias_nano : ℚ) : CalTime :=
  let delta_time_nano := toI64 (time_nano - full_bias_nano)
  let delta_time_sec := Int.tdiv delta_time_nano 1000000000
  let delta_time_frac : ℚ :=
    (((delta_time_nano - delta_time_sec * 1000000000 : Int) : ℚ) - bias_nano) / 1000000000
  let days0 := Int.tdiv delta_time_sec 86400 + 6
  let yl := yearLoop days0.toNat days0 1980 true
  let ml := monthLoop (monthDays yl.2) 12 yl.1 1
  let sinceMidnightSeconds := Int.tmod delta_time_sec 86400
  let lastHourSeconds := Int.tmod sinceMidnightSeconds 3600
  { year := yl.2
    month := ml.2
    day := ml.1
    hour := Int.tdiv sinceMidnightSeconds 3600
    minute := Int.tdiv lastHourSeconds 60
    second := ((Int.tmod lastHourSeconds 60 : Int) : ℚ) + delta_time_frac }

/-! ## Reference calendar (proleptic Gregorian), used to state the date claims -/

/-- Gregorian leap-year rule, century exception included. -/
def isLeapGregorian (y : Int) : Bool :=
  decide (y % 4 = 0) && (decide (y % 100 ≠ 0) || decide (y % 400 = 0))

/-- Length of month `m` (1..12) of Gregorian year `y`. -/
def gregorianMonthLength (y : Int) (m : Int) : Int :=
  if m = 2 then (if isLeapGregorian y then 29 else 28)
  else if m = 4 ∨ m = 6 ∨ m = 9 ∨ m = 11 then 30
  else 31

/-- Is `(y, m, d)` a date of the Gregorian calendar. -/
def isGregorianDate (y m d : Int) : Prop :=
  1 ≤ m ∧ m ≤ 12 ∧ 1 ≤ d ∧ d ≤ gregorianMonthLength y m

/-- Days of year `y` that precede month `m`. -/
def gregorianDaysBeforeMonth (y : Int) (m : Int) : Int :=
  ((List.range (m - 1).toNat).map (fun k => gregorianMonthLength y ((k : Int) + 1))).sum

/-- Day number of the Gregorian date `(y, m, d)`, counting 0001-01-01 as day 1
(365 days per year plus one per leap year before `y`, plus the day of year). -/
def gregorianDayNumber (y m d : Int) : Int :=
  365 * (y - 1) + (y - 1) / 4 - (y - 1) / 100 + (y - 1) / 400
    + gregorianDaysBeforeMonth y m + d

/-- The month in which day `t` (counted from 1) of a year falls when February
has `f` days. -/
def monthOfYearDay (t f : Int) : Int :=
  if t ≤ 31 then 1 else if t ≤ 31 + f then 2 else if t ≤ 62 + f then 3
  else if t ≤ 92 + f then 4 else if t ≤ 123 + f then 5 else if t ≤ 153 + f then 6
  else if t ≤ 184 + f then 7 else if t ≤ 215 + f then 8 else if t ≤ 245 + f then 9
  else if t ≤ 276 + f then 10 else if t ≤ 306 + f then 11 else 12

/-- Days from 1 January 1980 to 1 January of `y` when every fourth year is leap. -/
def daysBeforeYear4 (y : Int) : Int := 365 * (y - 1980) + (y - 1977) / 4

/-! ## Data model -/

/-- The fields of `struct gnss_sat` that the conversion reads or writes.
`signal_name` and `sys` are the two derived fields set by the classification
pass; before that pass they hold whatever the record was created with. -/
structure gnss_sat where
  time_nano : Int
  full_bias_nano : Int
  bias_nano : ℚ
  hardware_clock_discountinuity_count : Int
  svid : Int
  time_offset_nano : ℚ
  state : Int
  received_sv_time_nano : Int
  received_sv_time_uncertainty_nano : Int
  cn0_dbhz : ℚ
  pseudorange_rate_meter_per_second : ℚ
  pseudorange_rate_uncertainty_meter_per_second : ℚ
  accumulated_delta_range_state : Int
  accumulated_delta_range_meter : ℚ
  carrier_frequency_hz : ℚ
  constellation_type : Int
  signal_name : String
  sys : Int

instance : Inhabited gnss_sat :=
  ⟨⟨0, 0, 0, 0, 0, 0, 0, 0, 0, 0, 0, 0, 0, 0, 0, 0, "", 0⟩⟩

/-- The struct `rnx_sat`; the arrays of `MAX_FRQ` slots are indexed by slot number. -/
structure rnx_sat where
  sys : Int
  prn : Int
  p : Nat → ℚ
  l : Nat → ℚ
  d : Nat → ℚ
  s : Nat → ℚ
  lli : Nat → Int

/-- The value of `new rnx_sat()`: every member zero. -/
def rnx_sat.zero : rnx_sat :=
  ⟨0, 0, fun _ => 0, fun _ => 0, fun _ => 0, fun _ => 0, fun _ => 0⟩

instance : Inhabited rnx_sat := ⟨rnx_sat.zero⟩

/-- The struct `rnx_epoch`. -/
structure rnx_epoch where
  time : CalTime
  sv : Int
  sats : List rnx_sat

/-- The value built by the constructor `rnx_epoch()`. -/
def rnx_epoch.empty : rnx_epoch :=
  ⟨⟨0, 0, 0, 0, 0, 0⟩, 0, []⟩

instance : Inhabited rnx_epoch := ⟨rnx_epoch.empty⟩

/-! ## Signal registry (`signals`, `nsignals`, `find_signal`, `add_signal`) -/

/-- The globals `signals` and `nsignals` read row by row: row `sys_n` is the
list of the first `nsignals[sys_n]` names of `signals[sys_n]`. The lists
describe the arrays as long as no row holds more than `MAX_FRQ` names, which is
the case throughout the classification pass; `SignalArrays` is the model of
the arrays themselves, where a name beyond `MAX_FRQ` lands in the next row. -/
abbrev Registry := Int → List String

/-- The zero-initialised globals. -/
def Registry.init : Registry := fun _ => []

/-- The array `sys_code`. -/
def sys_code : List Char := ['G', 'R', 'E', 'C', 'J']

/-- The function `sys_code_function`. -/
def sys_code_function (sys : Int) : Int :=
  let sys_n : Int := -1
  let sys_n := if sys = 1 then 0 else sys_n
  let sys_n := if sys = 3 then 1 else sys_n
  let sys_n := if sys = 6 then 2 else sys_n
  let sys_n := if sys = 5 then 3 else sys_n
  let sys_n := if sys = 4 then 4 else sys_n
  sys_n

/-- The `for` loop of `find_signal` over a row, started at index `i`. -/
def find_in_row (sig : String) : List String → Int → Int
  | [], _ => -1
  | s :: rest, i => if s = sig then i else find_in_row sig rest (i + 1)

/-- The function `find_signal`. -/
def find_signal (reg : Registry) (sys : Int) (sig : String) : Int :=
  find_in_row sig (reg (sys_code_function sys)) 0

/-- The function `add_signal`. -/
def add_signal (reg : Registry) (sys : Int) (sig : String) : Registry :=
  if find_signal reg sys sig ≠ -1 then reg
  else Function.update reg (sys_code_function sys) (reg (sys_code_function sys) ++ [sig])

/-! ## Classification pass (first loop of `main`) -/

/-- The four statements of a matching branch: set `sys`, print the signal name,
register it, and normalise the carrier frequency to the resolution `res`. -/
def set_signal (st : Registry × gnss_sat) (sys : Int) (name : String) (res : ℚ) :
    Registry × gnss_sat :=
  (add_signal st.1 sys name,
   { st.2 with sys := sys, signal_name := name,
               carrier_frequency_hz := (cRound (st.2.carrier_frequency_hz / res) : ℚ) * res })

/-- The body of the classification loop for one record. -/
def classify (st : Registry × gnss_sat) : Registry × gnss_sat :=
  let reg := st.1
  let sat := st.2
  if sat.constellation_type = 1 then
    if cRound (sat.carrier_frequency_hz / 10000) = 157542 then
      set_signal (reg, sat) SYS_GPS "L1C" 10000
    else if cRound (sat.carrier_frequency_hz / 10000) = 117645 then
      set_signal (reg, sat) SYS_GPS "L5Q" 10000
    else (reg, sat)
  else if sat.constellation_type = 3 then
    if cRound (sat.carrier_frequency_hz / 10000000) = 160 then
      set_signal (reg, sat) SYS_GLO "L1C" 100
    else (reg, sat)
  else if sat.constellation_type = 5 then
    let st1 :=
      if cRound (sat.carrier_frequency_hz / 1000) = 1561098 then
        set_signal (reg, sat) SYS_BDS "L2I" 1000
      else (reg, sat)
    if cRound (st1.2.carrier_frequency_hz / 1000) = 1176450 then
      set_signal st1 SYS_BDS "L5P" 1000
    else st1
  else if sat.constellation_type = 6 then
    if cRound (sat.carrier_frequency_hz / 10000) = 157542 then
      set_signal (reg, sat) SYS_GAL "L1C" 10000
    else if cRound (sat.carrier_frequency_hz / 10000) = 117645 then
      set_signal (reg, sat) SYS_GAL "L5X" 10000
    else (reg, sat)
  else if sat.constellation_type = 4 then
    let sat := { sat with svid := sat.svid - 192 }
    if cRound (sat.carrier_frequency_hz / 10000) = 157542 then
      set_signal (reg, sat) SYS_QZS "L1C" 10000
    else if cRound (sat.carrier_frequency_hz / 10000) = 117645 then
      set_signal (reg, sat) SYS_QZS "L5Q" 10000
    else (reg, sat)
  else (reg, sat)

/-- The classification loop over the vector `epochs` (one record per entry):
returns the registry and the records with their derived fields set. -/
def classify_pass : Registry → List gnss_sat → Registry × List gnss_sat
  | reg, [] => (reg, [])
  | reg, sat :: rest =>
    let r := classify (reg, sat)
    let r2 := classify_pass r.1 rest
    (r2.1, r.2 :: r2.2)

/-! ## Observation loop (second loop of `main`) -/

def NEAR_ZERO : ℚ := 1 / 10000

/-- The console messages printed by the loop. -/
inductive Diag where
  /-- "Warning: Number of satellites is less than 4 in this epoch". -/
  | fewSatellites
  /-- "Failed to correct week rollover". -/
  | rolloverFailed
  /-- "Week rollover detected and corrected". -/
  | rolloverCorrected
deriving DecidableEq

/-- The variables that live across iterations of the observation loop. -/
structure LoopState where
  allRxMillis_p : Int
  check_clkdiscp : ℚ
  epo_bias : Int
  count : Int
  repoch : rnx_epoch
  rnx : List rnx_epoch
  console : List Diag

/-- The expression `unsigned __int64((time_nano - full_bias_nano) * 1e-6)`: the
`long long` difference is converted to `double`, multiplied by the `double`
nearest to `1e-6`, and the rounded product is truncated. -/
def allRxMillis_of (obs : gnss_sat) : Int :=
  toU64 (cTrunc (fl (fl ((toI64 (obs.time_nano - obs.full_bias_nano) : Int) : ℚ)
    * fl (1 / 1000000))))

/-- One of the two `if` statements on slot `frq` inside the Galileo 4 ms check. -/
def gal_fix_slot (frq : Nat) (cur pre : rnx_sat) : rnx_sat :=
  if cur.p frq ≠ 0 ∧ pre.p frq ≠ 0 ∧
      (|cur.p frq - pre.p frq - 4 / 1000 * CLIGHT| < 1500 ∨
       |cur.p frq - pre.p frq + 4 / 1000 * CLIGHT| < 1500) then
    let sign : ℚ := if cur.p frq - pre.p frq < 0 then -1 else 1
    { cur with p := Function.update cur.p frq (cur.p frq - sign * (4 / 1000) * CLIGHT) }
  else cur

/-- The loop over `k` (satellites of the previous epoch) for one satellite. -/
def gal_fix_sat (pre : List rnx_sat) (cur : rnx_sat) : rnx_sat :=
  pre.foldl (fun c q => if c.prn = q.prn then gal_fix_slot 1 (gal_fix_slot 0 c q) q else c) cur

/-- The loop over `j` (satellites of the epoch being closed). -/
def gal_fix (repoch pre : rnx_epoch) : rnx_epoch :=
  { repoch with
    sats := (repoch.sats.take repoch.sv.toNat).map
        (fun c => if c.sys = SYS_GAL then gal_fix_sat (pre.sats.take pre.sv.toNat) c else c)
      ++ repoch.sats.drop repoch.sv.toNat }

/-- The `if (fabs(allRxMillis - allRxMillis_p) > NEAR_ZERO)` block at the top of
the loop body (after `count++`). -/
def close_epoch (st : LoopState) (obs : gnss_sat) : LoopState :=
  let allRxMillis := allRxMillis_of obs
  if |((toU64 (allRxMillis - st.allRxMillis_p) : Int) : ℚ)| > NEAR_ZERO then
    let repoch :=
      match st.rnx.getLast? with
      | some repoch_pre =>
        if repoch_pre.sv > 0 ∧ st.repoch.sv > 0 ∧
            cRound (|((toU64 (allRxMillis - st.allRxMillis_p) : Int) : ℚ)| / 1000) = 1 then
          gal_fix st.repoch repoch_pre
        else st.repoch
      | none => st.repoch
    let check_clkdisc : ℚ := (obs.hardware_clock_discountinuity_count : ℚ)
    { allRxMillis_p := allRxMillis
      check_clkdiscp :=
        if |check_clkdisc - st.check_clkdiscp| > NEAR_ZERO then check_clkdisc
        else st.check_clkdiscp
      epo_bias :=
        if |check_clkdisc - st.check_clkdiscp| > NEAR_ZERO then st.count else st.epo_bias
      count := st.count
      repoch := rnx_epoch.empty
      rnx := st.rnx ++ [repoch]
      console := if repoch.sv ≤ 4 then st.console ++ [Diag.fewSatellites] else st.console }
  else st

/-- The flag `available` computed from `obs->sys` and `obs->state`. -/
def available (obs : gnss_sat) : Bool :=
  if obs.sys = SYS_GPS ∨ obs.sys = SYS_BDS ∨ obs.sys = SYS_QZS then
    decide (Int.land obs.state STATE_CODE_LOCK ≠ 0 ∧ Int.land obs.state STATE_TOW_DECODED ≠ 0)
  else if obs.sys = SYS_GLO then
    decide (Int.land obs.state STATE_GLO_STRING_SYNC ≠ 0 ∧
      Int.land obs.state STATE_GLO_TOD_KNOWN ≠ 0)
  else if obs.sys = SYS_GAL then
    decide (Int.land obs.state STATE_GAL_E1C_2ND_CODE_LOCK ≠ 0 ∨
      Int.land obs.state STATE_TOW_DECODED ≠ 0)
  else false

/-- The value `WeekNonano` (an `unsigned __int64`). -/
def WeekNonano (obs : gnss_sat) : Int :=
  toU64 ⌊-(obs.full_bias_nano : ℚ) * (1 / 1000000000) / 604800⌋

/-- The value `receive_second` set by the `switch (obs->sys)`; `ref` is the
record `epochs[epo_bias]`. -/
def receive_second (ref obs : gnss_sat) : Int :=
  let time_from_gps_start :=
    obs.time_nano - ref.full_bias_nano + cTrunc obs.time_offset_nano
  if obs.sys = SYS_GPS then
    time_from_gps_start - toU64 (WeekNonano obs * 604800) * 1000000000
  else if obs.sys = SYS_GLO then
    time_from_gps_start
      - Int.tdiv (-obs.full_bias_nano) 86400000000000 * 86400000000000
      + (3 * 3600 - LeapSecond) * 1000000000
  else if obs.sys = SYS_BDS then
    time_from_gps_start - toU64 (WeekNonano obs * 604800) * 1000000000 - 14 * 1000000000
  else if obs.sys = SYS_GAL then
    time_from_gps_start - toU64 (WeekNonano obs * 604800) * 1000000000
  else if obs.sys = SYS_QZS then
    time_from_gps_start - toU64 (WeekNonano obs * 604800) * 1000000000
  else 0

/-- The initial value of `pr_second`, before the rollover checks, over exact
numbers: the nanosecond difference less the reference bias, in seconds. -/
def pr_second_raw (ref obs : gnss_sat) : ℚ :=
  ((receive_second ref obs - obs.received_sv_time_nano : Int) : ℚ) * (1 / 1000000000)
    - ref.bias_nano * (1 / 1000000000)

/-- The initial value of `pr_second` as the program computes it:
`long double(long long(receive_second) - long long(send_second)) * 1e-9l
 - long double(bias_nano * 1e-9l)`, where `receive_second` is held in a
`long double` and every conversion and operation rounds to `double`. -/
def pr_second_fl (ref obs : gnss_sat) : ℚ :=
  fl (fl (fl (((cTrunc (fl ((receive_second ref obs : Int) : ℚ))
        - obs.received_sv_time_nano : Int) : ℚ)) * fl (1 / 1000000000))
    - fl (ref.bias_nano * fl (1 / 1000000000)))

/-- The three rollover `if` statements applied to `pr_second`; returns the new
`pr_second` and the console messages printed. -/
def rollover (sys : Int) (pr_second : ℚ) : ℚ × List Diag :=
  let r1 : ℚ × List Diag :=
    if pr_second > 302400 then
      let delS : ℚ := (cRound (pr_second / 604800) : ℚ) * 604800
      (pr_second - delS,
        if pr_second - delS > 10 then [Diag.rolloverFailed] else [Diag.rolloverCorrected])
    else (pr_second, [])
  let pr2 : ℚ :=
    if (sys = SYS_GPS ∨ sys = SYS_GAL ∨ sys = SYS_BDS ∨ sys = SYS_QZS) ∧ r1.1 > 604800 then
      fmodl r1.1 604800
    else r1.1
  let pr3 : ℚ := if sys = SYS_GLO ∧ pr2 > 86400 then fmodl pr2 86400 else pr2
  (pr3, r1.2)

/-- The assignments to `sat->p/d/l/s[frq]` and `sat->lli[frq]` at the end of the
loop body. -/
def write_obs (obs : gnss_sat) (frq : Nat) (pr_second : ℚ) (sat : rnx_sat) : rnx_sat :=
  let wavl : ℚ := CLIGHT / obs.carrier_frequency_hz
  let wavl_inv : ℚ := 1 / wavl
  let sat : rnx_sat :=
    { sat with
      p := Function.update sat.p frq (pr_second * CLIGHT)
      d := Function.update sat.d frq (-obs.pseudorange_rate_meter_per_second * wavl_inv)
      l := Function.update sat.l frq (obs.accumulated_delta_range_meter * wavl_inv)
      s := Function.update sat.s frq obs.cn0_dbhz }
  let sat : rnx_sat :=
    if Int.land obs.accumulated_delta_range_state GPS_ADR_STATE_UNKNOWN ≠ 0 then
      { sat with l := Function.update sat.l frq 0 }
    else sat
  let sat : rnx_sat :=
    if Int.land obs.accumulated_delta_range_state GPS_ADR_STATE_HALF_CYCLE_REPORTED ≠ 0 ∧
        ¬ Int.land obs.accumulated_delta_range_state GPS_ADR_STATE_HALF_CYCLE_RESOLVED ≠ 0 then
      { sat with lli := Function.update sat.lli frq LLI_HALFC }
    else sat
  if Int.land obs.accumulated_delta_range_state GPS_ADR_STATE_CYCLE_SLIP ≠ 0 then
    { sat with lli := Function.update sat.lli frq LLI_SLIP }
  else sat

/-- The search loop `for (j = 0; j < repoch.sv; j++)`: index of the first
satellite of the epoch with the record's system and PRN. -/
def find_sat (repoch : rnx_epoch) (obs : gnss_sat) : Option Nat :=
  (repoch.sats.take repoch.sv.toNat).findIdx?
    (fun s => decide (s.sys = obs.sys ∧ s.prn = obs.svid))

/-- The loop body from the call of `gpstime2ymdhms` to its end, for the record
`obs` with reference record `ref = epochs[epo_bias]`. -/
def process_obs (reg : Registry) (ref obs : gnss_sat) (st : LoopState) : LoopState :=
  let st : LoopState :=
    { st with repoch := { st.repoch with
        time := gpstime2ymdhms obs.time_nano ref.full_bias_nano ref.bias_nano } }
  if ¬ available obs then st
  else if obs.pseudorange_rate_uncertainty_meter_per_second > MAXPRRUNCMPS ∨
      obs.received_sv_time_uncertainty_nano > MAXTOWUNCNS then st
  else
    let found := find_sat st.repoch obs
    let sat : rnx_sat :=
      match found with
      | some j => st.repoch.sats.getD j default
      | none => { rnx_sat.zero with sys := obs.sys, prn := obs.svid }
    let frq := find_signal reg obs.sys obs.signal_name
    if frq = -1 then st
    else
      let pr := rollover obs.sys (pr_second_raw ref obs)
      let st : LoopState := { st with console := st.console ++ pr.2 }
      if pr.1 > 1 / 2 ∨ pr.1 < 0 then st
      else if obs.sys = SYS_GLO ∧ obs.svid > 80 then st
      else
        let sat := write_obs obs frq.toNat pr.1 sat
        match found with
        | some j => { st with repoch := { st.repoch with sats := st.repoch.sats.set j sat } }
        | none =>
          { st with repoch := { st.repoch with
              sats := st.repoch.sats ++ [sat], sv := st.repoch.sv + 1 } }

/-- One iteration of the observation loop over the classified records `recs`. -/
def step (reg : Registry) (recs : List gnss_sat) (st : LoopState) (obs : gnss_sat) :
    LoopState :=
  let st := close_epoch { st with count := st.count + 1 } obs
  process_obs reg (recs.getD st.epo_bias.toNat default) obs st

/-- The loop variables before the first iteration. The source reads
`epochs.begin()` without a test, so the loop is specified for a log with at
least one record. -/
def LoopState.init (recs : List gnss_sat) : LoopState :=
  { allRxMillis_p := allRxMillis_of (recs.headD default)
    check_clkdiscp := ((recs.headD default).hardware_clock_discountinuity_count : ℚ)
    epo_bias := 0
    count := -1
    repoch := rnx_epoch.empty
    rnx := []
    console := [] }

/-- The observation loop over all records. -/
def main_loop (reg : Registry) (recs : List gnss_sat) : LoopState :=
  recs.foldl (step reg recs) (LoopState.init recs)

/-- The vector `rnx` after the loop and the final `rnx.push_back(repoch)`. -/
def build_rnx (reg : Registry) (recs : List gnss_sat) : List rnx_epoch :=
  (main_loop reg recs).rnx ++ [(main_loop reg recs).repoch]

/-- Both passes of `main` over the parsed records: the registry and the vector
`rnx` from which the output file is printed. -/
def convert (raw : List gnss_sat) : Registry × List rnx_epoch :=
  let c := classify_pass Registry.init raw
  (c.1, build_rnx c.1 c.2)

/-! ## RINEX encoder (`print_rnx_epoch`, `print_rnx_header`)

The `printf` conversions are those of the C library; they are modelled on
exact rationals, with ties of `%f` rounded to the even digit. -/

/-- Left padding of a text to a minimum width. -/
def padLeft (width : Nat) (c : Char) (s : String) : String :=
  String.mk (List.leftpad width c s.data)

/-- Right padding of a text to a minimum width. -/
def padRight (width : Nat) (c : Char) (s : String) : String :=
  String.mk (s.data ++ List.replicate (width - s.data.length) c)

/-- The digits of `|x|` rounded to `prec` decimals, with a minus sign for
negative `x`: the conversion `%.Plf` without padding. -/
def fmt_f_body (prec : Nat) (x : ℚ) : String :=
  let scaled : Nat := (roundHalfEven (|x| * (10 : ℚ) ^ prec)).toNat
  (if x < 0 then "-" else "") ++ Nat.repr (scaled / 10 ^ prec) ++ "." ++
    padLeft prec '0' (Nat.repr (scaled % 10 ^ prec))

/-- The conversion `%W.Plf`. -/
def fmt_f (width prec : Nat) (x : ℚ) : String :=
  padLeft width ' ' (fmt_f_body prec x)

/-- The conversion `%Wd`. -/
def fmt_d (width : Nat) (n : Int) : String :=
  padLeft width ' ' ((if n < 0 then "-" else "") ++ Nat.repr n.natAbs)

/-- The conversion `%0Wd`. -/
def fmt_0d (width : Nat) (n : Int) : String :=
  if n < 0 then "-" ++ padLeft (width - 1) '0' (Nat.repr n.natAbs)
  else padLeft width '0' (Nat.repr n.natAbs)

/-- The text left in a buffer of `size` bytes by `snprintf`. -/
def snprintf (size : Nat) (s : String) : String :=
  String.mk (s.data.take (size - 1))

/-- The run of 16 blanks printed for an absent pseudorange, Doppler or strength. -/
def blank16 : String := "                "

/-- The run of 14 blanks printed for an absent carrier phase. -/
def blank14 : String := "              "

/-- The pseudorange field of slot `i`. -/
def print_p (sat : rnx_sat) (i : Nat) : String :=
  if sat.p i ≠ 0 then fmt_f 14 3 (sat.p i) ++ "  " else blank16

/-- The carrier-phase field of slot `i`, with its LLI digit. -/
def print_l (sat : rnx_sat) (i : Nat) : String :=
  if sat.l i ≠ 0 then
    let lli : Int :=
      Int.land (sat.lli i) (Int.lor (Int.lor LLI_SLIP LLI_HALFC) LLI_BOCTRK) % 256
    padLeft 14 ' ' (snprintf 15 (fmt_f 13 3 (sat.l i) ++ fmt_d 1 lli))
  else blank14

/-- The Doppler field of slot `i`. -/
def print_d (sat : rnx_sat) (i : Nat) : String :=
  if sat.d i ≠ 0 then fmt_f 14 3 (sat.d i) ++ "  " else blank16

/-- The signal-strength field of slot `i`. -/
def print_s (sat : rnx_sat) (i : Nat) : String :=
  if sat.s i ≠ 0 then fmt_f 14 3 (sat.s i) ++ "  " else blank16

/-- The body of the loop over the signal slots for one satellite. -/
def print_slot (sat : rnx_sat) (i : Nat) : String :=
  print_p sat i ++ print_l sat i ++ print_d sat i ++ print_s sat i

/-- The line printed for one satellite (without its end-of-line character). -/
def print_sat (reg : Registry) (sat : rnx_sat) : String :=
  let sys_n := sys_code_function sat.sys
  String.mk [sys_code.getD sys_n.toNat ' '] ++ fmt_0d 2 sat.prn ++
    String.join ((List.range (reg sys_n).length).map (print_slot sat))

/-- The epoch line `> YYYY MM DD hh mm ss.sssssss  0 NN`. -/
def print_epoch_line (e : rnx_epoch) : String :=
  "> " ++ fmt_0d 4 e.time.year ++ " " ++ fmt_0d 2 e.time.month ++ " " ++
    fmt_0d 2 e.time.day ++ " " ++ fmt_0d 2 e.time.hour ++ " " ++
    fmt_0d 2 e.time.minute ++ " " ++ fmt_f 10 7 e.time.second ++ "  0 " ++ fmt_d 2 e.sv

/-- The function `print_rnx_epoch`: the lines written for one epoch. -/
def print_rnx_epoch (reg : Registry) (e : rnx_epoch) : List String :=
  print_epoch_line e :: e.sats.map (print_sat reg)

def RNX_VER : String :=
  "     3.04           OBSERVATION DATA    M: Mixed            RINEX VERSION / TYPE"
def RNX_PGM : String :=
  "UofC CSV2RINEX convertor                                    PGM / RUN BY / DATE "
def RNX_APP : String :=
  "                                                            APPROX POSITION XYZ "
def RNX_ANT : String :=
  "        0.0000        0.0000        0.0000                  ANTENNA: DELTA H/E/N"
def RNX_END : String :=
  "                                                            END OF HEADER       "

/-- The four conversions `C%-2s L%-2s D%-2s S%-2s` for one signal name; the
argument `signals[i][k] + 1` is the name without its first character. -/
def header_obs_types (name : String) : String :=
  let code := padRight 2 ' ' (String.mk (name.data.drop 1))
  "C" ++ code ++ " L" ++ code ++ " D" ++ code ++ " S" ++ code

/-- The `switch (nsignals[i])` of `print_rnx_header` for row `i`. -/
def header_sys_line (reg : Registry) (i : Nat) : List String :=
  match reg i with
  | [a] =>
    [String.mk [sys_code.getD i ' '] ++ "    " ++ fmt_d 0 4 ++ " " ++ header_obs_types a ++
      "                                      SYS / # / OBS TYPES "]
  | [a, b] =>
    [String.mk [sys_code.getD i ' '] ++ "    " ++ fmt_d 0 8 ++ " " ++ header_obs_types a ++
      " " ++ header_obs_types b ++ "                      SYS / # / OBS TYPES "]
  | _ => []

/-- The function `print_rnx_header`: the header lines. -/
def print_rnx_header (reg : Registry) : List String :=
  [RNX_VER, RNX_PGM, RNX_APP, RNX_ANT] ++
    (List.range 5).flatMap (header_sys_line reg) ++ [RNX_END]

/-- The lines of the output file: the header, then every epoch of `rnx` with
`sv > 0`. -/
def print_file (reg : Registry) (rnx : List rnx_epoch) : List String :=
  print_rnx_header reg ++
    (rnx.filter (fun e => decide (e.sv > 0))).flatMap (print_rnx_epoch reg)

/-! ## Auxiliary definitions used in the statements -/

/-- The satellite list of the current epoch after a record that reaches the
assignments at the end of the loop body: the record of its satellite is updated
in place, or a new record is appended. -/
def stored_sats (reg : Registry) (ref obs : gnss_sat) (st : LoopState) : List rnx_sat :=
  match find_sat st.repoch obs with
  | some j =>
    st.repoch.sats.set j (write_obs obs (find_signal reg obs.sys obs.signal_name).toNat
      (rollover obs.sys (pr_second_raw ref obs)).1 (st.repoch.sats.getD j default))
  | none =>
    st.repoch.sats ++ [write_obs obs (find_signal reg obs.sys obs.signal_name).toNat
      (rollover obs.sys (pr_second_raw ref obs)).1
      { rnx_sat.zero with sys := obs.sys, prn := obs.svid }]

/-- The tests of the classification `switch` read as a table: the system,
signal name and frequency resolution of the branch that a constellation code
and carrier frequency select, if any (`classify_eq_signal_of` relates the
table to `classify`). -/
def signal_of (constellation_type : Int) (carrier_frequency_hz : ℚ) :
    Option (Int × String × ℚ) :=
  if constellation_type = 1 then
    if cRound (carrier_frequency_hz / 10000) = 157542 then some (SYS_GPS, "L1C", 10000)
    else if cRound (carrier_frequency_hz / 10000) = 117645 then some (SYS_GPS, "L5Q", 10000)
    else none
  else if constellation_type = 3 then
    if cRound (carrier_frequency_hz / 10000000) = 160 then some (SYS_GLO, "L1C", 100)
    else none
  else if constellation_type = 5 then
    if cRound (carrier_frequency_hz / 1000) = 1561098 then some (SYS_BDS, "L2I", 1000)
    else if cRound (carrier_frequency_hz / 1000) = 1176450 then some (SYS_BDS, "L5P", 1000)
    else none
  else if constellation_type = 6 then
    if cRound (carrier_frequency_hz / 10000) = 157542 then some (SYS_GAL, "L1C", 10000)
    else if cRound (carrier_frequency_hz / 10000) = 117645 then some (SYS_GAL, "L5X", 10000)
    else none
  else if constellation_type = 4 then
    if cRound (carrier_frequency_hz / 10000) = 157542 then some (SYS_QZS, "L1C", 10000)
    else if cRound (carrier_frequency_hz / 10000) = 117645 then some (SYS_QZS, "L5Q", 10000)
    else none
  else none

/-- The record as the classification `switch` leaves it apart from a matching
branch: the QZSS case first lowers `svid` by 192. -/
def qzs_shift (sat : gnss_sat) : gnss_sat :=
  if sat.constellation_type = 4 then { sat with svid := sat.svid - 192 } else sat

/-- The signal names that the records of a log are classified to for the
constellation `sys`, in record order (with repetitions). -/
def classified_ids (sys : Int) (recs : List gnss_sat) : List String :=
  recs.filterMap (fun sat =>
    match signal_of sat.constellation_type sat.carrier_frequency_hz with
    | some (s, name, _) => if s = sys then some name else none
    | none => none)

/-- The signal names that the records of a log contribute to registry row `i`,
in record order (with repetitions). -/
def row_ids (i : Int) (recs : List gnss_sat) : List String :=
  recs.filterMap (fun sat =>
    match signal_of sat.constellation_type sat.carrier_frequency_hz with
    | some (s, name, _) => if sys_code_function s = i then some name else none
    | none => none)

/-- Appending to a row, in order, every name of a list that the row does not
hold yet. -/
def addAll (row : List String) (ids : List String) : List String :=
  ids.foldl (fun r x => if x ∈ r then r else r ++ [x]) row

/-! ## Example inputs -/

/-- A record as parsed from a `Raw,` line of a log: receiver clock `time_nano`
with full bias -1.3e18 ns, the given satellite, tracking state, transmit time,
constellation and carrier frequency, and unremarkable values elsewhere. -/
def rawRecord (time_nano svid state received_sv_time_nano constellation_type : Int)
    (carrier_frequency_hz : ℚ) : gnss_sat :=
  { time_nano := time_nano
    full_bias_nano := -1300000000000000000
    bias_nano := 0
    hardware_clock_discountinuity_count := 0
    svid := svid
    time_offset_nano := 0
    state := state
    received_sv_time_nano := received_sv_time_nano
    received_sv_time_uncertainty_nano := 20
    cn0_dbhz := 40
    pseudorange_rate_meter_per_second := 100
    pseudorange_rate_uncertainty_meter_per_second := 1 / 10
    accumulated_delta_range_state := 1
    accumulated_delta_range_meter := 1000
    carrier_frequency_hz := carrier_frequency_hz
    constellation_type := constellation_type
    signal_name := ""
    sys := 0 }

/-- A GPS L1 record of satellite 1 whose signal travel time is 70 ms, classified
against the empty registry. -/
def exGps : Registry × gnss_sat :=
  classify (Registry.init, rawRecord 5000000000 1 9 284804930000000 1 1575420000)

/-- A GLONASS record whose carrier frequency 1604999999 Hz rounds to 160 at
10 MHz resolution and to 1605000000 Hz at 100 Hz resolution. -/
def rawGloEdge : gnss_sat := rawRecord 5000000000 1 192 36386930000000 3 1604999999

/-- A GPS L1 record of satellite 7 whose accumulated-delta-range state is 0
(unknown) and whose accumulated delta range is 1000 m, classified against the
empty registry. -/
def exAdrUnknown : Registry × gnss_sat :=
  classify (Registry.init,
    { rawRecord 5000000000 7 9 284804930000000 1 1575420000 with
      accumulated_delta_range_state := 0 })

/-- A log of two epochs one second apart, five satellites each (GPS 1 to 4 and
Galileo 5); the travel time of the Galileo signal is 70 ms in the first epoch
and 74 ms in the second, the others stay at 70 ms. -/
def logTwoEpochs : List gnss_sat :=
  [ rawRecord 5000000000 1 9 284804930000000 1 1575420000,
    rawRecord 5000000000 2 9 284804930000000 1 1575420000,
    rawRecord 5000000000 3 9 284804930000000 1 1575420000,
    rawRecord 5000000000 4 9 284804930000000 1 1575420000,
    rawRecord 5000000000 5 8 284804930000000 6 1575420000,
    rawRecord 6000000000 1 9 284805930000000 1 1575420000,
    rawRecord 6000000000 2 9 284805930000000 1 1575420000,
    rawRecord 6000000000 3 9 284805930000000 1 1575420000,
    rawRecord 6000000000 4 9 284805930000000 1 1575420000,
    rawRecord 6000000000 5 8 284805926000000 6 1575420000 ]

/-- A satellite record of GPS satellite 1 whose slot 0 holds no pseudorange, the
carrier phase 12345.678 cycles with LLI 0, and no Doppler or signal strength. -/
def exSatPhaseOnly : rnx_sat :=
  { rnx_sat.zero with
    sys := 1, prn := 1, l := fun i => if i = 0 then 12345678 / 1000 else 0 }

/-- The log `logTwoEpochs` followed by one GPS record a second later, which
closes its second epoch inside the loop. -/
def logThreeEpochs : List gnss_sat :=
  logTwoEpochs ++ [rawRecord 7000000000 1 9 284806930000000 1 1575420000]

/-! ## Further auxiliary definitions and example inputs -/

/-- Does an output line begin with the epoch marker `>`. -/
def is_epoch_line (line : String) : Bool :=
  line.data.head? == some '>'

/-- The epoch that `close_epoch` pushes to `rnx` when it closes the current
epoch: the current epoch, after the Galileo 4 ms check when that check runs. -/
def closed_epoch (st : LoopState) (obs : gnss_sat) : rnx_epoch :=
  match st.rnx.getLast? with
  | some repoch_pre =>
    if repoch_pre.sv > 0 ∧ st.repoch.sv > 0 ∧
        cRound (|((toU64 (allRxMillis_of obs - st.allRxMillis_p) : Int) : ℚ)| / 1000) = 1 then
      gal_fix st.repoch repoch_pre
    else st.repoch
  | none => st.repoch

/-- Four GPS L1 records of one epoch (satellites 1 to 4, travel time 70 ms) at
receiver clock `time_nano`, `sow` being the second of the week. -/
def fourGps (time_nano sow : Int) : List gnss_sat :=
  [ rawRecord time_nano 1 9 (sow * 1000000000 - 70000000) 1 1575420000,
    rawRecord time_nano 2 9 (sow * 1000000000 - 70000000) 1 1575420000,
    rawRecord time_nano 3 9 (sow * 1000000000 - 70000000) 1 1575420000,
    rawRecord time_nano 4 9 (sow * 1000000000 - 70000000) 1 1575420000 ]

/-- A log of an epoch with exactly four satellites followed, one second later,
by an epoch with five. -/
def logFourThenFive : List gnss_sat :=
  fourGps 5000000000 284805 ++ fourGps 6000000000 284806 ++
    [rawRecord 6000000000 5 9 284805930000000 1 1575420000]

/-- A log of an epoch with five satellites followed, one second later, by an
epoch with a single satellite. -/
def logFiveThenOne : List gnss_sat :=
  fourGps 5000000000 284805 ++
    [rawRecord 5000000000 5 9 284804930000000 1 1575420000,
     rawRecord 6000000000 1 9 284805930000000 1 1575420000]

/-- The signal names that the classification table can give to the records of
registry row `i`. -/
def table_names (i : Int) : List String :=
  if i = 0 then ["L1C", "L5Q"] else if i = 1 then ["L1C"]
  else if i = 2 then ["L1C", "L5X"] else if i = 3 then ["L2I", "L5P"]
  else if i = 4 then ["L1C", "L5Q"] else []

/-- Modelled from the spec: the four observation codes of one registered signal,
each the letter C, L, D or S followed by the band and tracking code of the
signal (its name without the leading letter), each preceded by a blank. -/
def spec_obs_types (name : String) : String :=
  let code := String.mk (name.data.drop 1)
  " C" ++ code ++ " L" ++ code ++ " D" ++ code ++ " S" ++ code

/-- Modelled from the spec: the `SYS / # / OBS TYPES` line of the constellation
with code character `c` and registered signals `names`: the character, four
blanks, the count 4 × (number of signals), the codes of every signal in registry
order, blanks up to column 60 and the label. -/
def spec_sys_line (c : Char) (names : List String) : String :=
  padRight 60 ' ' (String.mk [c] ++ "    " ++ Nat.repr (4 * names.length) ++
    String.join (names.map spec_obs_types)) ++ "SYS / # / OBS TYPES "

/-- Modelled from the spec: the header for a registry: the four fixed lines, one
line for every constellation row 0..4 that holds a signal, the closing line. -/
def spec_header (reg : Registry) : List String :=
  [RNX_VER, RNX_PGM, RNX_APP, RNX_ANT] ++
    ((List.range 5).filter (fun i : Nat => decide (reg (i : Int) ≠ []))).map
      (fun i => spec_sys_line (sys_code.getD i ' ') (reg i)) ++ [RNX_END]

/-- Everything of a satellite record except the pseudoranges of slots 0 and 1 is
the same in `c` and `c2`. -/
def unchanged_outside_p01 (c c2 : rnx_sat) : Prop :=
  c2.sys = c.sys ∧ c2.prn = c.prn ∧ c2.l = c.l ∧ c2.d = c.d ∧ c2.s = c.s ∧
    c2.lli = c.lli ∧ ∀ frq, 2 ≤ frq → c2.p frq = c.p frq

/-- Three epochs at receiver times 5 s, 10 s and 11 s: Galileo satellite 5 with
signal travel time 70 ms, Galileo satellite 5 with 74 ms, GPS satellite 1. -/
def logGapFiveSeconds : List gnss_sat :=
  [ rawRecord 5000000000 5 8 284804930000000 6 1575420000,
    rawRecord 10000000000 5 8 284809926000000 6 1575420000,
    rawRecord 11000000000 1 9 284810930000000 1 1575420000 ]

/-- Three epochs at receiver times 5 s, 6 s and 7 s: GPS satellite 5 with signal
travel time 70 ms, Galileo satellite 5 with 74 ms, GPS satellite 1. -/
def logGpsThenGalileo : List gnss_sat :=
  [ rawRecord 5000000000 5 9 284804930000000 1 1575420000,
    rawRecord 6000000000 5 8 284805926000000 6 1575420000,
    rawRecord 7000000000 1 9 284806930000000 1 1575420000 ]

/-- The log `logTwoEpochs` (epochs at 5 s and 6 s) followed by one GPS record at
receiver time 11 s. -/
def logNextLate : List gnss_sat :=
  logTwoEpochs ++ [rawRecord 11000000000 1 9 284810930000000 1 1575420000]

/-- The system, the PRN and the members of slot 0 and slot 1 of a satellite
record (pseudorange, phase, Doppler, strength, LLI), as one list. -/
def sat_summary (s : rnx_sat) : List ℚ :=
  [(s.sys : ℚ), (s.prn : ℚ), s.p 0, s.l 0, s.d 0, s.s 0, (s.lli 0 : ℚ),
    s.p 1, s.l 1, s.d 1, s.s 1, (s.lli 1 : ℚ)]

/-- The constant `MAX_SYS`. -/
def MAX_SYS : Nat := 10

/-- The globals `char signals[MAX_SYS][MAX_FRQ][5]` and `int nsignals[MAX_SYS]`
as the arrays they are. `cells c` is the string held by the `c`-th group of five
characters of `signals`, so that `signals[r][i]` is the cell `MAX_FRQ * r + i`,
also for `i ≥ MAX_FRQ`, where the cell belongs to a later row. -/
structure SignalArrays where
  cells : Nat → String
  nsignals : Nat → Nat

/-- The zero-initialised globals. -/
def SignalArrays.init : SignalArrays := ⟨fun _ => "", fun _ => 0⟩

/-- The names `signals[r][0]`, ..., `signals[r][nsignals[r] - 1]` that the loop
of `find_signal` reads for row `r`. -/
def SignalArrays.row (t : SignalArrays) (r : Nat) : List String :=
  (List.range (t.nsignals r)).map (fun i => t.cells (MAX_FRQ * r + i))

/-- The function `find_signal` on the arrays. The result is `none` when the row
index is -1 or the loop would read past the end of `signals`. -/
def find_signal_arr (t : SignalArrays) (sys : Int) (sig : String) : Option Int :=
  if 0 ≤ sys_code_function sys ∧
      MAX_FRQ * (sys_code_function sys).toNat + t.nsignals (sys_code_function sys).toNat
        ≤ MAX_SYS * MAX_FRQ then
    some (find_in_row sig (t.row (sys_code_function sys).toNat) 0)
  else none

/-- The function `add_signal` on the arrays: `strcpy` into the cell
`signals[sys_n][nsignals[sys_n]]`, then `nsignals[sys_n]++`, without a test of
the count against `MAX_FRQ`. The result is `none` when the cell lies past the
end of `signals` or the name does not fit its five characters. -/
def add_signal_arr (t : SignalArrays) (sys : Int) (sig : String) : Option SignalArrays :=
  match find_signal_arr t sys sig with
  | none => none
  | some i =>
    if i ≠ -1 then some t
    else if MAX_FRQ * (sys_code_function sys).toNat + t.nsignals (sys_code_function sys).toNat
          < MAX_SYS * MAX_FRQ ∧ sig.length < 5 then
      some
        { cells := Function.update t.cells
            (MAX_FRQ * (sys_code_function sys).toNat + t.nsignals (sys_code_function sys).toNat)
            sig
          nsignals := Function.update t.nsignals (sys_code_function sys).toNat
            (t.nsignals (sys_code_function sys).toNat + 1) }
    else none

/-- The rows of the arrays as a registry: the view under which `find_signal`
and `add_signal` on lists describe the arrays, as long as no row holds more
than `MAX_FRQ` names. -/
def SignalArrays.toRegistry (t : SignalArrays) : Registry :=
  fun i => if 0 ≤ i then t.row i.toNat else []

/-- A sequence of `add_signal` calls on the arrays. -/
def add_all_arr : List (Int × String) → SignalArrays → Option SignalArrays
  | [], t => some t
  | (sys, sig) :: rest, t => (add_signal_arr t sys sig).bind (add_all_arr rest)

/-- The arrays after registering L1C for GLONASS and five names for GPS. -/
def arraysFive : Option SignalArrays :=
  add_all_arr [(SYS_GLO, "L1C"), (SYS_GPS, "L1C"), (SYS_GPS, "L5Q"), (SYS_GPS, "L2X"),
    (SYS_GPS, "L1W"), (SYS_GPS, "L2W")] SignalArrays.init

/-! ## Definitions for the reference record and the discarded records -/

/-- The loop variables after the first `n` iterations of the observation loop. -/
def loop_upto (reg : Registry) (recs : List gnss_sat) (n : Nat) : LoopState :=
  (recs.take n).foldl (step reg recs) (LoopState.init recs)

/-- The largest index `j` with `1 ≤ j ≤ i` and `P j`, or 0 when there is none. -/
def last_index (P : Nat → Bool) : Nat → Nat
  | 0 => 0
  | i + 1 => if P (i + 1) then i + 1 else last_index P i

/-- Stated from the specification: record `i` is the first record of an epoch
when it is the first record of the log or its receiver time in whole
milliseconds differs from that of the record before it. -/
def spec_epoch_start (recs : List gnss_sat) (i : Nat) : Bool :=
  decide (i = 0) ||
    decide (allRxMillis_of (recs.getD i default) ≠ allRxMillis_of (recs.getD (i - 1) default))

/-- Stated from the specification: the index of the first record of the epoch
that record `i` belongs to. -/
def spec_epoch_first (recs : List gnss_sat) (i : Nat) : Nat :=
  last_index (spec_epoch_start recs) i

/-- Stated from the specification: record `i` is the first record of an epoch,
not the first epoch, and its hardware-clock-discontinuity count differs from
that of the first record of the preceding epoch. -/
def spec_reanchor (recs : List gnss_sat) (i : Nat) : Bool :=
  decide (0 < i) && spec_epoch_start recs i &&
    decide ((recs.getD i default).hardware_clock_discountinuity_count
      ≠ (recs.getD (spec_epoch_first recs (i - 1)) default).hardware_clock_discountinuity_count)

/-- Stated from the specification: the index of the reference record when
record `n` is processed: the first record of the most recent epoch, up to the
one of record `n`, at which the count changed, or 0. -/
def spec_epo_bias (recs : List gnss_sat) (n : Nat) : Nat :=
  last_index (spec_reanchor recs) n

/-- A GPS record of satellite `svid` at receiver time `time_nano` with signal
travel time 70 ms and the given hardware-clock-discontinuity count. -/
def clockRecord (time_nano svid sow count : Int) : gnss_sat :=
  { rawRecord time_nano svid 9 (sow * 1000000000 - 70000000) 1 1575420000 with
    hardware_clock_discountinuity_count := count }

/-- Four records: two at receiver time 5 s with counts 0 and 1, one at 6 s with
count 1 and one at 7 s with count 1. -/
def logClockReset : List gnss_sat :=
  [ clockRecord 5000000000 1 284805 0, clockRecord 5000000000 2 284805 1,
    clockRecord 6000000000 1 284806 1, clockRecord 7000000000 1 284807 1 ]

/-- A GPS record with pseudorange-rate uncertainty `prr` and received-time
uncertainty `tow`, accepted by every other test of the loop. -/
def uncertainRecord (prr : ℚ) (tow : Int) : gnss_sat :=
  { rawRecord 5000000000 1 9 284804930000000 1 1575420000 with
    pseudorange_rate_uncertainty_meter_per_second := prr
    received_sv_time_uncertainty_nano := tow }

/-- Five records at receiver time 5 s: an accepted GPS record of satellite 1,
then a GPS record on 1500000000 Hz (no row of the classification table), a
GLONASS record with satellite number 93, a GPS record with pseudorange-rate
uncertainty 11 m/s and a GPS record with received-time uncertainty 501 ns. -/
def logWithDiscards : List gnss_sat :=
  [ uncertainRecord (1 / 10) 20,
    rawRecord 5000000000 2 9 284804930000000 1 1500000000,
    rawRecord 5000000000 93 192 36386930000000 3 1602000000,
    { uncertainRecord 11 20 with svid := 3 },
    { uncertainRecord (1 / 10) 501 with svid := 4 } ]

/-- A classified GPS L1 record received `k` weeks and 5 s after the week start
of its full bias, whose signal travel time is `k` weeks and `travel_nano`
nanoseconds: its exact uncorrected pseudorange time is
`604800 k + travel_nano / 1e9` seconds. -/
def rolloverRecord (k travel_nano : Int) : gnss_sat :=
  (classify (Registry.init,
    rawRecord (5000000000 + k * 604800000000000) 1 9 (284805000000000 - travel_nano) 1
      1575420000)).2

/-! ## Calendar walk of gpstime2ymdhms -/

theorem yearLoop_spec (fuel : Nat) : ∀ (days years : Int) (leap : Bool),
    1980 ≤ years → 1 ≤ days → days ≤ fuel → (leap = true ↔ years % 4 = 0) →
    years ≤ (yearLoop fuel days years leap).2 ∧
    1 ≤ (yearLoop fuel days years leap).1 ∧
    (yearLoop fuel days years leap).1
      ≤ 365 + (if (yearLoop fuel days years leap).2 % 4 = 0 then 1 else 0) ∧
    (yearLoop fuel days years leap).1 + daysBeforeYear4 (yearLoop fuel days years leap).2
      = days + daysBeforeYear4 years := by
  induction fuel with
  | zero => intro days years leap _ hd hf; omega
  | succ n ih =>
    intro days years leap hy hd hf hl
    have hleap : (if leap then (1 : Int) else 0) = if years % 4 = 0 then 1 else 0 := by
      by_cases h4 : years % 4 = 0
      · simp [h4, hl.mpr h4]
      · have : leap = false := by
          cases leap with
          | false => rfl
          | true => exact absurd (hl.mp rfl) h4
        simp [h4, this]
    rw [yearLoop, hleap]
    by_cases h : days > (if years % 4 = 0 then 1 else 0) + 365
    · rw [if_pos h]
      have hm : Int.tmod (years + 1) 4 = (years + 1) % 4 :=
        Int.tmod_eq_emod (by omega) (by norm_num)
      have hstep := ih (days - ((if years % 4 = 0 then 1 else 0) + 365)) (years + 1)
        (decide (Int.tmod (years + 1) 4 = 0)) (by omega) (by omega)
        (by push_cast at hf; split_ifs at h ⊢ <;> omega) (by simp [hm])
      obtain ⟨h1, h2, h3, h4⟩ := hstep
      refine ⟨by omega, h2, h3, ?_⟩
      rw [h4]
      unfold daysBeforeYear4
      split_ifs <;> omega
    · rw [if_neg h]
      refine ⟨le_refl _, hd, ?_, rfl⟩
      simp only
      omega

theorem monthLoop_inv (md : List Int) (feb : Int)
    (hmd : md = [31, feb, 31, 30, 31, 30, 31, 31, 30, 31, 30, 31]) (fuel : Nat) :
    ∀ (days month : Int), 1 ≤ month → month ≤ 12 → 1 ≤ days →
    days + (md.take (month - 1).toNat).sum ≤ 337 + feb → 12 - month < fuel →
    month ≤ (monthLoop md fuel days month).2 ∧
    (monthLoop md fuel days month).2 ≤ 12 ∧
    1 ≤ (monthLoop md fuel days month).1 ∧
    (monthLoop md fuel days month).1 ≤ md.getD ((monthLoop md fuel days month).2 - 1).toNat 0 ∧
    (md.take ((monthLoop md fuel days month).2 - 1).toNat).sum + (monthLoop md fuel days month).1
      = (md.take (month - 1).toNat).sum + days := by
  induction fuel with
  | zero => intro days month _ h12 _ _ hf; omega
  | succ n ih =>
    intro days month hm1 hm12 hd hrem hf
    rw [monthLoop]
    by_cases h : days > md.getD (month - 1).toNat 0
    · rw [if_pos h]
      have hlt : month < 12 := by
        by_contra hc
        have : month = 12 := by omega
        subst this
        subst hmd
        simp at h hrem
        omega
      have hsum : (md.take (month + 1 - 1).toNat).sum
          = (md.take (month - 1).toNat).sum + md.getD (month - 1).toNat 0 := by
        subst hmd
        interval_cases month <;> simp <;> ring
      obtain ⟨a1, a2, a3, a4, a5⟩ := ih (days - md.getD (month - 1).toNat 0) (month + 1)
        (by omega) (by omega) (by omega) (by rw [hsum]; omega) (by omega)
      refine ⟨by omega, a2, a3, a4, ?_⟩
      rw [a5, hsum]; ring
    · rw [if_neg h]
      exact ⟨le_refl _, hm12, hd, by simpa using h, rfl⟩

/-- In 1980..2099 the Gregorian month lengths are the entries of `monthDays`. -/
theorem gregorianMonthLength_eq (y m : Int) (hy : 1980 ≤ y) (hy2 : y ≤ 2099)
    (hm : 1 ≤ m) (hm2 : m ≤ 12) :
    gregorianMonthLength y m = (monthDays y).getD (m - 1).toNat 0 := by
  have h4 : Int.tmod y 4 = y % 4 := Int.tmod_eq_emod (by omega) (by norm_num)
  have hl : isLeapGregorian y = decide (y % 4 = 0) := by
    unfold isLeapGregorian
    by_cases h : y % 4 = 0
    · have : y % 100 ≠ 0 ∨ y % 400 = 0 := by omega
      rcases this with h' | h' <;> simp [h, h']
    · simp [h]
  unfold gregorianMonthLength monthDays
  rw [hl, h4]
  interval_cases m <;> simp

theorem gregorianDaysBeforeMonth_eq (y m : Int) (hy : 1980 ≤ y) (hy2 : y ≤ 2099)
    (hm : 1 ≤ m) (hm2 : m ≤ 12) :
    gregorianDaysBeforeMonth y m = ((monthDays y).take (m - 1).toNat).sum := by
  have e : ∀ k : Int, 1 ≤ k → k ≤ 12 →
      gregorianMonthLength y k = (monthDays y).getD (k - 1).toNat 0 :=
    fun k h1 h2 => gregorianMonthLength_eq y k hy hy2 h1 h2
  unfold gregorianDaysBeforeMonth
  interval_cases m <;>
    simp [List.range_succ, e] <;> simp [monthDays]

theorem gregorianDayNumber_epoch : gregorianDayNumber 1980 1 6 = 722820 := by
  decide

theorem gregorianDayNumber_last : gregorianDayNumber 2099 12 31 = 722820 + 43824 := by
  decide

theorem gregorianFebruary (y : Int) :
    gregorianMonthLength y 2 = 28 ∨ gregorianMonthLength y 2 = 29 := by
  unfold gregorianMonthLength
  simp only [if_true]
  split_ifs
  · exact Or.inr rfl
  · exact Or.inl rfl

theorem gregorianDaysBeforeMonth_table (y : Int) :
    gregorianDaysBeforeMonth y 1 = 0 ∧ gregorianDaysBeforeMonth y 2 = 31 ∧
    gregorianDaysBeforeMonth y 3 = 31 + gregorianMonthLength y 2 ∧
    gregorianDaysBeforeMonth y 4 = 62 + gregorianMonthLength y 2 ∧
    gregorianDaysBeforeMonth y 5 = 92 + gregorianMonthLength y 2 ∧
    gregorianDaysBeforeMonth y 6 = 123 + gregorianMonthLength y 2 ∧
    gregorianDaysBeforeMonth y 7 = 153 + gregorianMonthLength y 2 ∧
    gregorianDaysBeforeMonth y 8 = 184 + gregorianMonthLength y 2 ∧
    gregorianDaysBeforeMonth y 9 = 215 + gregorianMonthLength y 2 ∧
    gregorianDaysBeforeMonth y 10 = 245 + gregorianMonthLength y 2 ∧
    gregorianDaysBeforeMonth y 11 = 276 + gregorianMonthLength y 2 ∧
    gregorianDaysBeforeMonth y 12 = 306 + gregorianMonthLength y 2 := by
  refine ⟨?_, ?_, ?_, ?_, ?_, ?_, ?_, ?_, ?_, ?_, ?_, ?_⟩ <;>
    simp [gregorianDaysBeforeMonth, List.range_succ] <;>
    simp [gregorianMonthLength] <;> ring

theorem gregorianMonthLength_table (y : Int) :
    gregorianMonthLength y 1 = 31 ∧ gregorianMonthLength y 3 = 31 ∧
    gregorianMonthLength y 4 = 30 ∧ gregorianMonthLength y 5 = 31 ∧
    gregorianMonthLength y 6 = 30 ∧ gregorianMonthLength y 7 = 31 ∧
    gregorianMonthLength y 8 = 31 ∧ gregorianMonthLength y 9 = 30 ∧
    gregorianMonthLength y 10 = 31 ∧ gregorianMonthLength y 11 = 30 ∧
    gregorianMonthLength y 12 = 31 := by
  refine ⟨?_, ?_, ?_, ?_, ?_, ?_, ?_, ?_, ?_, ?_, ?_⟩ <;> simp [gregorianMonthLength]

theorem gregorianDayOfYear_month (y m d : Int) (h : isGregorianDate y m d) :
    1 ≤ gregorianDaysBeforeMonth y m + d ∧
    gregorianDaysBeforeMonth y m + d ≤ 337 + gregorianMonthLength y 2 ∧
    m = monthOfYearDay (gregorianDaysBeforeMonth y m + d) (gregorianMonthLength y 2) := by
  obtain ⟨h1, h2, h3, h4⟩ := h
  have hf := gregorianFebruary y
  have hm : m = 1 ∨ m = 2 ∨ m = 3 ∨ m = 4 ∨ m = 5 ∨ m = 6 ∨ m = 7 ∨ m = 8 ∨ m = 9 ∨
      m = 10 ∨ m = 11 ∨ m = 12 := by omega
  clear h1 h2
  unfold monthOfYearDay
  rcases hm with rfl | rfl | rfl | rfl | rfl | rfl | rfl | rfl | rfl | rfl | rfl | rfl
  · rw [(gregorianDaysBeforeMonth_table y).1]
    rw [(gregorianMonthLength_table y).1] at h4
    generalize gregorianMonthLength y 2 = f at *
    refine ⟨by omega, by omega, ?_⟩
    rw [if_pos (by omega)]
  · rw [(gregorianDaysBeforeMonth_table y).2.1]
    generalize gregorianMonthLength y 2 = f at *
    refine ⟨by omega, by omega, ?_⟩
    repeat (first | rw [if_pos (by omega)] | rw [if_neg (by omega)])
  · rw [(gregorianDaysBeforeMonth_table y).2.2.1]
    rw [(gregorianMonthLength_table y).2.1] at h4
    generalize gregorianMonthLength y 2 = f at *
    refine ⟨by omega, by omega, ?_⟩
    repeat (first | rw [if_pos (by omega)] | rw [if_neg (by omega)])
  · rw [(gregorianDaysBeforeMonth_table y).2.2.2.1]
    rw [(gregorianMonthLength_table y).2.2.1] at h4
    generalize gregorianMonthLength y 2 = f at *
    refine ⟨by omega, by omega, ?_⟩
    repeat (first | rw [if_pos (by omega)] | rw [if_neg (by omega)])
  · rw [(gregorianDaysBeforeMonth_table y).2.2.2.2.1]
    rw [(gregorianMonthLength_table y).2.2.2.1] at h4
    generalize gregorianMonthLength y 2 = f at *
    refine ⟨by omega, by omega, ?_⟩
    repeat (first | rw [if_pos (by omega)] | rw [if_neg (by omega)])
  · rw [(gregorianDaysBeforeMonth_table y).2.2.2.2.2.1]
    rw [(gregorianMonthLength_table y).2.2.2.2.1] at h4
    generalize gregorianMonthLength y 2 = f at *
    refine ⟨by omega, by omega, ?_⟩
    repeat (first | rw [if_pos (by omega)] | rw [if_neg (by omega)])
  · rw [(gregorianDaysBeforeMonth_table y).2.2.2.2.2.2.1]
    rw [(gregorianMonthLength_table y).2.2.2.2.2.1] at h4
    generalize gregorianMonthLength y 2 = f at *
    refine ⟨by omega, by omega, ?_⟩
    repeat (first | rw [if_pos (by omega)] | rw [if_neg (by omega)])
  · rw [(gregorianDaysBeforeMonth_table y).2.2.2.2.2.2.2.1]
    rw [(gregorianMonthLength_table y).2.2.2.2.2.2.1] at h4
    generalize gregorianMonthLength y 2 = f at *
    refine ⟨by omega, by omega, ?_⟩
    repeat (first | rw [if_pos (by omega)] | rw [if_neg (by omega)])
  · rw [(gregorianDaysBeforeMonth_table y).2.2.2.2.2.2.2.2.1]
    rw [(gregorianMonthLength_table y).2.2.2.2.2.2.2.1] at h4
    generalize gregorianMonthLength y 2 = f at *
    refine ⟨by omega, by omega, ?_⟩
    repeat (first | rw [if_pos (by omega)] | rw [if_neg (by omega)])
  · rw [(gregorianDaysBeforeMonth_table y).2.2.2.2.2.2.2.2.2.1]
    rw [(gregorianMonthLength_table y).2.2.2.2.2.2.2.2.1] at h4
    generalize gregorianMonthLength y 2 = f at *
    refine ⟨by omega, by omega, ?_⟩
    repeat (first | rw [if_pos (by omega)] | rw [if_neg (by omega)])
  · rw [(gregorianDaysBeforeMonth_table y).2.2.2.2.2.2.2.2.2.2.1]
    rw [(gregorianMonthLength_table y).2.2.2.2.2.2.2.2.2.1] at h4
    generalize gregorianMonthLength y 2 = f at *
    refine ⟨by omega, by omega, ?_⟩
    repeat (first | rw [if_pos (by omega)] | rw [if_neg (by omega)])
  · rw [(gregorianDaysBeforeMonth_table y).2.2.2.2.2.2.2.2.2.2.2]
    rw [(gregorianMonthLength_table y).2.2.2.2.2.2.2.2.2.2] at h4
    generalize gregorianMonthLength y 2 = f at *
    refine ⟨by omega, by omega, ?_⟩
    repeat (first | rw [if_pos (by omega)] | rw [if_neg (by omega)])

theorem gregorianYearStart_lt (y1 y2 : Int) (h : y1 < y2) :
    365 * (y1 - 1) + (y1 - 1) / 4 - (y1 - 1) / 100 + (y1 - 1) / 400
      + 337 + gregorianMonthLength y1 2
    ≤ 365 * (y2 - 1) + (y2 - 1) / 4 - (y2 - 1) / 100 + (y2 - 1) / 400 := by
  unfold gregorianMonthLength isLeapGregorian
  by_cases c4 : y1 % 4 = 0 <;> by_cases c100 : y1 % 100 = 0 <;>
    by_cases c400 : y1 % 400 = 0 <;> simp [c4, c100, c400] <;> omega

theorem gregorianDayNumber_inj (y1 m1 d1 y2 m2 d2 : Int) (h1 : isGregorianDate y1 m1 d1)
    (h2 : isGregorianDate y2 m2 d2)
    (h : gregorianDayNumber y1 m1 d1 = gregorianDayNumber y2 m2 d2) :
    y1 = y2 ∧ m1 = m2 ∧ d1 = d2 := by
  obtain ⟨p1, p2, p3⟩ := gregorianDayOfYear_month y1 m1 d1 h1
  obtain ⟨q1, q2, q3⟩ := gregorianDayOfYear_month y2 m2 d2 h2
  unfold gregorianDayNumber at h
  have hy : y1 = y2 := by
    rcases lt_trichotomy y1 y2 with c | c | c
    · have := gregorianYearStart_lt y1 y2 c
      generalize gregorianMonthLength y1 2 = f1 at *
      generalize gregorianMonthLength y2 2 = f2 at *
      generalize gregorianDaysBeforeMonth y1 m1 = b1 at *
      generalize gregorianDaysBeforeMonth y2 m2 = b2 at *
      omega
    · exact c
    · have := gregorianYearStart_lt y2 y1 c
      generalize gregorianMonthLength y1 2 = f1 at *
      generalize gregorianMonthLength y2 2 = f2 at *
      generalize gregorianDaysBeforeMonth y1 m1 = b1 at *
      generalize gregorianDaysBeforeMonth y2 m2 = b2 at *
      omega
  subst hy
  have ht : gregorianDaysBeforeMonth y1 m1 + d1 = gregorianDaysBeforeMonth y1 m2 + d2 := by
    generalize gregorianDaysBeforeMonth y1 m1 = b1 at *
    generalize gregorianDaysBeforeMonth y1 m2 = b2 at *
    omega
  have hm : m1 = m2 := by rw [p3, q3, ht]
  subst hm
  exact ⟨rfl, rfl, by linarith⟩

theorem gpstime2ymdhms_date (time_nano full_bias_nano : Int) (bias_nano : ℚ)
    (h0 : 0 ≤ time_nano - full_bias_nano)
    (hmax : gregorianDayNumber 1980 1 6 + (time_nano - full_bias_nano) / 86400000000000
      ≤ gregorianDayNumber 2099 12 31) :
    isGregorianDate (gpstime2ymdhms time_nano full_bias_nano bias_nano).year
        (gpstime2ymdhms time_nano full_bias_nano bias_nano).month
        (gpstime2ymdhms time_nano full_bias_nano bias_nano).day ∧
      gregorianDayNumber (gpstime2ymdhms time_nano full_bias_nano bias_nano).year
        (gpstime2ymdhms time_nano full_bias_nano bias_nano).month
        (gpstime2ymdhms time_nano full_bias_nano bias_nano).day
        = gregorianDayNumber 1980 1 6 + (time_nano - full_bias_nano) / 86400000000000 := by
  rw [gregorianDayNumber_epoch, gregorianDayNumber_last] at hmax
  set delta := time_nano - full_bias_nano with hdelta
  have hw : toI64 delta = delta := by
    unfold toI64
    omega
  have hsec : Int.tdiv delta 1000000000 = delta / 1000000000 :=
    Int.tdiv_eq_ediv h0 (by norm_num)
  have hday : Int.tdiv (delta / 1000000000) 86400 = delta / 86400000000000 := by
    rw [Int.tdiv_eq_ediv (by omega) (by norm_num)]; omega
  set n := delta / 86400000000000 with hn
  have hn0 : 0 ≤ n := by omega
  obtain ⟨y1, y2, y3, y4⟩ := yearLoop_spec (n + 6).toNat (n + 6) 1980 true (le_refl _)
    (by omega) (by omega) (by decide)
  set yl := yearLoop (n + 6).toNat (n + 6) 1980 true with hyl
  have hy99 : yl.2 ≤ 2099 := by
    unfold daysBeforeYear4 at y4
    omega
  have hfeb : (monthDays yl.2) = [31, if yl.2 % 4 = 0 then 29 else 28,
      31, 30, 31, 30, 31, 31, 30, 31, 30, 31] := by
    unfold monthDays
    rw [Int.tmod_eq_emod (by omega) (by norm_num)]
  obtain ⟨m1, m2, m3, m4, m5⟩ := monthLoop_inv (monthDays yl.2) _ hfeb 12 yl.1 1
    (le_refl _) (by norm_num) y2 (by simp; split_ifs at y3 ⊢ <;> omega) (by norm_num)
  set ml := monthLoop (monthDays yl.2) 12 yl.1 1 with hml
  have hyear : (gpstime2ymdhms time_nano full_bias_nano bias_nano).year = yl.2 := by
    simp only [gpstime2ymdhms, ← hdelta, hw, hsec, hday, ← hn, ← hyl]
  have hmonth : (gpstime2ymdhms time_nano full_bias_nano bias_nano).month = ml.2 := by
    simp only [gpstime2ymdhms, ← hdelta, hw, hsec, hday, ← hn, ← hyl, ← hml]
  have hdayf : (gpstime2ymdhms time_nano full_bias_nano bias_nano).day = ml.1 := by
    simp only [gpstime2ymdhms, ← hdelta, hw, hsec, hday, ← hn, ← hyl, ← hml]
  refine ⟨?_, ?_⟩
  · rw [hyear, hmonth, hdayf]
    refine ⟨m1, m2, m3, ?_⟩
    rw [gregorianMonthLength_eq yl.2 ml.2 y1 hy99 m1 m2]
    exact m4
  · rw [hyear, hmonth, hdayf, gregorianDayNumber_epoch]
    unfold gregorianDayNumber
    rw [gregorianDaysBeforeMonth_eq yl.2 ml.2 y1 hy99 m1 m2]
    unfold daysBeforeYear4 at y4
    simp only [sub_self, Int.toNat_zero, List.take_zero, List.sum_nil, zero_add] at m5
    omega

/-- C1. For every `time_nano` and reference `full_bias_nano` with
`delta = time_nano - full_bias_nano ≥ 0` whose date is on or before 2099-12-31,
`gpstime2ymdhms` returns as (year, month, day) the Gregorian calendar date whose
day number is that of 1980-01-06 plus `floor(delta / 86400e9)` (it is a date of
the calendar, it has that day number, and no other date has); and `delta = 0`
with `bias_nano = 0` yields 1980-01-06 00:00:00. -/
theorem C1_gpstime2ymdhms_calendar_date (time_nano full_bias_nano : Int) (bias_nano : ℚ)
    (h0 : 0 ≤ time_nano - full_bias_nano)
    (hmax : gregorianDayNumber 1980 1 6 + (time_nano - full_bias_nano) / 86400000000000
      ≤ gregorianDayNumber 2099 12 31) :
    isGregorianDate (gpstime2ymdhms time_nano full_bias_nano bias_nano).year
        (gpstime2ymdhms time_nano full_bias_nano bias_nano).month
        (gpstime2ymdhms time_nano full_bias_nano bias_nano).day ∧
      gregorianDayNumber (gpstime2ymdhms time_nano full_bias_nano bias_nano).year
        (gpstime2ymdhms time_nano full_bias_nano bias_nano).month
        (gpstime2ymdhms time_nano full_bias_nano bias_nano).day
        = gregorianDayNumber 1980 1 6 + (time_nano - full_bias_nano) / 86400000000000 ∧
      (∀ y m d : Int, isGregorianDate y m d →
        gregorianDayNumber y m d
          = gregorianDayNumber 1980 1 6 + (time_nano - full_bias_nano) / 86400000000000 →
        y = (gpstime2ymdhms time_nano full_bias_nano bias_nano).year ∧
        m = (gpstime2ymdhms time_nano full_bias_nano bias_nano).month ∧
        d = (gpstime2ymdhms time_nano full_bias_nano bias_nano).day) ∧
      (time_nano - full_bias_nano = 0 → bias_nano = 0 →
        gpstime2ymdhms time_nano full_bias_nano bias_nano = ⟨1980, 1, 6, 0, 0, 0⟩) := by
  have hdate := gpstime2ymdhms_date time_nano full_bias_nano bias_nano h0 hmax
  refine ⟨hdate.1, hdate.2, ?_, ?_⟩
  · intro y m d hv hn
    exact gregorianDayNumber_inj _ _ _ _ _ _ hv hdate.1 (hn.trans hdate.2.symm)
  · intro hz hb
    subst hb
    simp only [gpstime2ymdhms, hz]
    decide!

theorem C1_gpstime2ymdhms_calendar_date_witness :
    isGregorianDate (gpstime2ymdhms 1393000000000000000 0 0).year
        (gpstime2ymdhms 1393000000000000000 0 0).month
        (gpstime2ymdhms 1393000000000000000 0 0).day ∧
      gregorianDayNumber (gpstime2ymdhms 1393000000000000000 0 0).year
        (gpstime2ymdhms 1393000000000000000 0 0).month
        (gpstime2ymdhms 1393000000000000000 0 0).day
        = gregorianDayNumber 1980 1 6 + (1393000000000000000 - 0) / 86400000000000 :=
  ⟨(C1_gpstime2ymdhms_calendar_date 1393000000000000000 0 0 (by decide) (by decide)).1,
   (C1_gpstime2ymdhms_calendar_date 1393000000000000000 0 0 (by decide) (by decide)).2.1⟩

/-! ## Bit tests -/

theorem land_zero (x : Int) : Int.land x 0 = 0 := by
  cases x with
  | ofNat m => show ((m &&& 0 : Nat) : Int) = 0; simp
  | negSucc m =>
    show ((Nat.ldiff 0 m : Nat) : Int) = 0
    have : Nat.ldiff 0 m = 0 := by
      apply Nat.eq_of_testBit_eq
      intro i
      simp [Nat.testBit_ldiff]
    simp [this]

theorem land_two_pow_ne_zero (x : Int) (k : Nat) :
    Int.land x ((2 ^ k : Nat) : Int) ≠ 0 ↔ x.testBit k = true := by
  cases x with
  | ofNat m =>
    show ((m &&& 2 ^ k : Nat) : Int) ≠ 0 ↔ m.testBit k = true
    rw [Nat.and_two_pow]
    cases h : m.testBit k <;> simp
  | negSucc m =>
    show ((Nat.ldiff (2 ^ k) m : Nat) : Int) ≠ 0 ↔ (!m.testBit k) = true
    cases h : m.testBit k
    · have : (Nat.ldiff (2 ^ k) m).testBit k = true := by
        simp [Nat.testBit_ldiff, h]
      have hne : Nat.ldiff (2 ^ k) m ≠ 0 := by
        intro h0
        rw [h0] at this
        simp at this
      simp [hne]
    · have : Nat.ldiff (2 ^ k) m = 0 := by
        apply Nat.eq_of_testBit_eq
        intro i
        simp only [Nat.testBit_ldiff, Nat.testBit_two_pow, Nat.zero_testBit]
        by_cases hik : k = i
        · subst hik; simp [h]
        · simp [hik]
      simp [this]

/-! ## The writes of one accepted record -/

theorem write_obs_l (obs : gnss_sat) (frq : Nat) (pr : ℚ) (sat : rnx_sat) :
    (write_obs obs frq pr sat).l frq
      = obs.accumulated_delta_range_meter * (1 / (CLIGHT / obs.carrier_frequency_hz)) := by
  unfold write_obs
  simp only [GPS_ADR_STATE_UNKNOWN, land_zero, ne_eq, not_true_eq_false, if_false]
  split_ifs <;> simp

theorem find_sat_time (e : rnx_epoch) (t : CalTime) (obs : gnss_sat) :
    find_sat { e with time := t } obs = find_sat e obs := rfl

theorem process_obs_accept (reg : Registry) (ref obs : gnss_sat) (st : LoopState)
    (hav : available obs = true)
    (hprr : ¬ obs.pseudorange_rate_uncertainty_meter_per_second > MAXPRRUNCMPS)
    (htow : ¬ obs.received_sv_time_uncertainty_nano > MAXTOWUNCNS)
    (hfrq : find_signal reg obs.sys obs.signal_name ≠ -1)
    (h0 : 0 ≤ (rollover obs.sys (pr_second_raw ref obs)).1)
    (h1 : (rollover obs.sys (pr_second_raw ref obs)).1 ≤ 1 / 2)
    (hglo : ¬ (obs.sys = SYS_GLO ∧ obs.svid > 80)) :
    (process_obs reg ref obs st).repoch.sats = stored_sats reg ref obs st := by
  unfold process_obs stored_sats
  have hw : ¬ ((rollover obs.sys (pr_second_raw ref obs)).1 > 1 / 2 ∨
      (rollover obs.sys (pr_second_raw ref obs)).1 < 0) := by
    rintro (h | h)
    · exact absurd h1 (not_le.mpr h)
    · exact absurd h0 (not_le.mpr h)
  simp only [hav, not_true_eq_false, if_false, hprr, htow, or_self, hfrq, hw, hglo]
  rw [find_sat_time]
  cases find_sat st.repoch obs <;> rfl

theorem process_obs_reject (reg : Registry) (ref obs : gnss_sat) (st : LoopState)
    (h : available obs = false ∨
      obs.pseudorange_rate_uncertainty_meter_per_second > MAXPRRUNCMPS ∨
      obs.received_sv_time_uncertainty_nano > MAXTOWUNCNS ∨
      find_signal reg obs.sys obs.signal_name = -1 ∨
      (rollover obs.sys (pr_second_raw ref obs)).1 > 1 / 2 ∨
      (rollover obs.sys (pr_second_raw ref obs)).1 < 0 ∨
      (obs.sys = SYS_GLO ∧ obs.svid > 80)) :
    (process_obs reg ref obs st).repoch.sats = st.repoch.sats ∧
    (process_obs reg ref obs st).repoch.sv = st.repoch.sv ∧
    (process_obs reg ref obs st).rnx = st.rnx := by
  unfold process_obs
  simp only
  rcases h with h | h | h | h | h | h | h <;>
    split_ifs <;> first
      | exact ⟨rfl, rfl, rfl⟩
      | (exfalso; simp_all)

/-! ## Rounding helpers -/

theorem cRound_nonneg_bounds (x : ℚ) (hx : 0 ≤ x) :
    (cRound x : ℚ) ≤ x + 1 / 2 ∧ x - 1 / 2 < (cRound x : ℚ) := by
  unfold cRound
  rw [if_pos hx]
  constructor
  · exact Int.floor_le _
  · have := Int.lt_floor_add_one (x + 1 / 2)
    linarith

theorem cRound_int_add (k : Int) (e : ℚ) (he0 : -(1 / 2) ≤ e) (he1 : e < 1 / 2)
    (hpos : 0 ≤ (k : ℚ) + e) : cRound ((k : ℚ) + e) = k := by
  unfold cRound
  rw [if_pos hpos, Int.floor_eq_iff]
  constructor <;> linarith

theorem fmodl_pos (x y : ℚ) (hx : 0 ≤ x) (hy : 0 < y) :
    fmodl x y = x - (⌊x / y⌋ : ℚ) * y ∧ 0 ≤ fmodl x y ∧ fmodl x y < y := by
  have hq : 0 ≤ x / y := div_nonneg hx hy.le
  unfold fmodl cTrunc
  rw [if_pos hq]
  refine ⟨rfl, ?_, ?_⟩
  · have h1 : (⌊x / y⌋ : ℚ) ≤ x / y := Int.floor_le _
    have h2 : (⌊x / y⌋ : ℚ) * y ≤ x / y * y := mul_le_mul_of_nonneg_right h1 hy.le
    rw [div_mul_cancel₀ x hy.ne'] at h2
    linarith
  · have h1 : x / y < (⌊x / y⌋ : ℚ) + 1 := Int.lt_floor_add_one _
    have h2 : x / y * y < ((⌊x / y⌋ : ℚ) + 1) * y := mul_lt_mul_of_pos_right h1 hy
    rw [div_mul_cancel₀ x hy.ne'] at h2
    linarith

/-! ## Rollover step -/

theorem rollover_week (sys : Int) (pr : ℚ) (h : pr > 302400) (hsys : sys ≠ SYS_GLO) :
    (rollover sys pr).1 = pr - (cRound (pr / 604800) : ℚ) * 604800 ∧
    |(rollover sys pr).1| ≤ 302400 := by
  have hq : 0 ≤ pr / 604800 := by positivity
  obtain ⟨b1, b2⟩ := cRound_nonneg_bounds (pr / 604800) hq
  have e : pr / 604800 * 604800 = pr := by field_simp
  have hlo : -302400 ≤ pr - (cRound (pr / 604800) : ℚ) * 604800 := by nlinarith
  have hhi : pr - (cRound (pr / 604800) : ℚ) * 604800 ≤ 302400 := by nlinarith
  have hval : (rollover sys pr).1 = pr - (cRound (pr / 604800) : ℚ) * 604800 := by
    unfold rollover
    simp only [h, if_true, hsys, false_and, if_false]
    rw [if_neg]
    rintro ⟨_, h2⟩
    linarith
  rw [hval]
  exact ⟨rfl, abs_le.mpr ⟨hlo, hhi⟩⟩

theorem rollover_small (sys : Int) (pr : ℚ) (h : pr ≤ 302400)
    (hsys : sys = SYS_GLO → pr ≤ 86400) : (rollover sys pr).1 = pr := by
  unfold rollover
  have h1 : ¬ pr > 302400 := not_lt.mpr h
  have hin : (if (sys = SYS_GPS ∨ sys = SYS_GAL ∨ sys = SYS_BDS ∨ sys = SYS_QZS) ∧
      pr > 604800 then fmodl pr 604800 else pr) = pr :=
    if_neg (by rintro ⟨_, h2⟩; linarith)
  simp only [h1, if_false, hin]
  rw [if_neg]
  rintro ⟨hs, h2⟩
  exact absurd (hsys hs) (not_le.mpr h2)

theorem rollover_glo_day (pr : ℚ) (h1 : 86400 < pr) (h2 : pr ≤ 302400) :
    (rollover SYS_GLO pr).1 = pr - (⌊pr / 86400⌋ : ℚ) * 86400 ∧
    0 ≤ (rollover SYS_GLO pr).1 ∧ (rollover SYS_GLO pr).1 < 86400 := by
  have hval : (rollover SYS_GLO pr).1 = fmodl pr 86400 := by
    unfold rollover
    have h3 : ¬ pr > 302400 := not_lt.mpr h2
    have hin : (if (SYS_GLO = SYS_GPS ∨ SYS_GLO = SYS_GAL ∨ SYS_GLO = SYS_BDS ∨
        SYS_GLO = SYS_QZS) ∧ pr > 604800 then fmodl pr 604800 else pr) = pr :=
      if_neg (by rintro ⟨_, h4⟩; linarith)
    simp only [h3, if_false, hin]
    rw [if_pos ⟨trivial, h1⟩]
  rw [hval]
  exact fmodl_pos pr 86400 (by linarith) (by norm_num)

/-- C4 (as stated, refuted). The GPS value `-604800 + 0.2`, whose absolute value
exceeds half a week, is left as it is by the rollover step (it does not become
0.2 and is not within half a week of zero), and the GLONASS value
`4 × 86400 + 0.2` becomes `-259199.8`, not 0.2. -/
theorem C4_counterexample_negative_and_glonass :
    (rollover SYS_GPS (-604800 + 1 / 5)).1 = -604800 + 1 / 5 ∧
    ¬ |(rollover SYS_GPS (-604800 + 1 / 5)).1| ≤ 302400 ∧
    (rollover SYS_GLO (4 * 86400 + 1 / 5)).1 = -259200 + 1 / 5 := by
  decide!

/-- C4 (amended). The rollover step corrects positive values only. For a record
that is not GLONASS, a value above 302400 s (half of 604800 s) has the nearest
integer multiple of 604800 s subtracted and then lies within 302400 s of zero;
a value of at most 302400 s, negative values included, is left unchanged. For
a GLONASS record, a value above 86400 s and at most 302400 s is reduced by a
whole number of days to a value in [0, 86400); a value of at most 86400 s,
negative values included, is left unchanged. -/
theorem C4_rollover_by_design (sys : Int) (pr : ℚ) :
    (sys ≠ SYS_GLO → pr > 302400 →
      ∃ n : Int, |pr / 604800 - (n : ℚ)| ≤ 1 / 2 ∧
        (rollover sys pr).1 = pr - (n : ℚ) * 604800 ∧ |(rollover sys pr).1| ≤ 302400) ∧
    (sys ≠ SYS_GLO → pr ≤ 302400 → (rollover sys pr).1 = pr) ∧
    (sys = SYS_GLO → 86400 < pr → pr ≤ 302400 →
      ∃ m : Int, (rollover sys pr).1 = pr - (m : ℚ) * 86400 ∧
        0 ≤ (rollover sys pr).1 ∧ (rollover sys pr).1 < 86400) ∧
    (sys = SYS_GLO → pr ≤ 86400 → (rollover sys pr).1 = pr) := by
  refine ⟨?_, ?_, ?_, ?_⟩
  · intro hs hp
    obtain ⟨b1, b2⟩ := cRound_nonneg_bounds (pr / 604800) (by positivity)
    obtain ⟨r1, r2⟩ := rollover_week sys pr hp hs
    exact ⟨cRound (pr / 604800), abs_le.mpr ⟨by linarith, by linarith⟩, r1, r2⟩
  · intro hs hp
    exact rollover_small sys pr hp (fun h => absurd h hs)
  · intro hs h1 h2
    subst hs
    obtain ⟨r1, r2, r3⟩ := rollover_glo_day pr h1 h2
    exact ⟨⌊pr / 86400⌋, r1, r2, r3⟩
  · intro _ hp
    exact rollover_small sys pr (by linarith) (fun _ => hp)

theorem C4_rollover_by_design_witness :
    (∃ n : Int, |(604800 + 1 / 5 : ℚ) / 604800 - (n : ℚ)| ≤ 1 / 2 ∧
        (rollover SYS_GPS (604800 + 1 / 5)).1 = (604800 + 1 / 5 : ℚ) - (n : ℚ) * 604800 ∧
        |(rollover SYS_GPS (604800 + 1 / 5)).1| ≤ 302400) ∧
    (∃ m : Int, (rollover SYS_GLO (2 * 86400 + 1 / 5)).1
          = (2 * 86400 + 1 / 5 : ℚ) - (m : ℚ) * 86400 ∧
        0 ≤ (rollover SYS_GLO (2 * 86400 + 1 / 5)).1 ∧
        (rollover SYS_GLO (2 * 86400 + 1 / 5)).1 < 86400) :=
  ⟨(C4_rollover_by_design SYS_GPS (604800 + 1 / 5)).1 (by decide) (by norm_num),
   (C4_rollover_by_design SYS_GLO (2 * 86400 + 1 / 5)).2.2.1 rfl (by norm_num)
     (by norm_num)⟩

/-! ## C5: validity gate -/

theorem land_mask_iff (x : Int) (m : Int) (k : Nat) (hm : m = ((2 ^ k : Nat) : Int)) :
    Int.land x m ≠ 0 ↔ x.testBit k = true := by
  rw [hm]
  exact land_two_pow_ne_zero x k

/-- C5. A GPS, BeiDou or QZSS record passes the validity gate exactly when bit
0 (mask 1, code lock) and bit 3 (mask 8, time of week decoded) of its tracking
state are both set; a GLONASS record exactly when bit 6 (mask 64, string sync)
and bit 7 (mask 128, time of day known) are both set; a Galileo record exactly
when bit 11 (mask 2048, E1C second code lock) or bit 3 (mask 8) is set. A record
that fails the gate leaves the satellite list and satellite count of the
current epoch, and the list of closed epochs, as they were. -/
theorem C5_validity_gate (obs : gnss_sat) :
    ((obs.sys = SYS_GPS ∨ obs.sys = SYS_BDS ∨ obs.sys = SYS_QZS) →
      (available obs = true ↔ obs.state.testBit 0 = true ∧ obs.state.testBit 3 = true)) ∧
    (obs.sys = SYS_GLO →
      (available obs = true ↔ obs.state.testBit 6 = true ∧ obs.state.testBit 7 = true)) ∧
    (obs.sys = SYS_GAL →
      (available obs = true ↔ obs.state.testBit 11 = true ∨ obs.state.testBit 3 = true)) ∧
    (available obs = false → ∀ (reg : Registry) (ref : gnss_sat) (st : LoopState),
      (process_obs reg ref obs st).repoch.sats = st.repoch.sats ∧
      (process_obs reg ref obs st).repoch.sv = st.repoch.sv ∧
      (process_obs reg ref obs st).rnx = st.rnx) := by
  have b0 := land_mask_iff obs.state STATE_CODE_LOCK 0 (by decide)
  have b3 := land_mask_iff obs.state STATE_TOW_DECODED 3 (by decide)
  have b6 := land_mask_iff obs.state STATE_GLO_STRING_SYNC 6 (by decide)
  have b7 := land_mask_iff obs.state STATE_GLO_TOD_KNOWN 7 (by decide)
  have b11 := land_mask_iff obs.state STATE_GAL_E1C_2ND_CODE_LOCK 11 (by decide)
  refine ⟨?_, ?_, ?_, ?_⟩
  · intro hs
    unfold available
    rw [if_pos hs, decide_eq_true_eq, b0, b3]
  · intro hs
    have h1 : ¬ (obs.sys = SYS_GPS ∨ obs.sys = SYS_BDS ∨ obs.sys = SYS_QZS) := by
      rw [hs]; decide
    unfold available
    rw [if_neg h1, if_pos hs, decide_eq_true_eq, b6, b7]
  · intro hs
    have h1 : ¬ (obs.sys = SYS_GPS ∨ obs.sys = SYS_BDS ∨ obs.sys = SYS_QZS) := by
      rw [hs]; decide
    have h2 : ¬ obs.sys = SYS_GLO := by rw [hs]; decide
    unfold available
    rw [if_neg h1, if_neg h2, if_pos hs, decide_eq_true_eq, b11, b3]
  · intro hav reg ref st
    exact process_obs_reject reg ref obs st (Or.inl hav)

/-! ## C6: carrier phase and the unknown state -/

/-- C6 (code disagrees). Whatever the accumulated-delta-range state, also 0,
the carrier-phase slot written for an accepted record is
`accumulated_delta_range_meter / wavelength`: the test
`state & GPS_ADR_STATE_UNKNOWN` masks with 0 and never holds. The record
`exAdrUnknown` (state 0, 1000 m) is stored with phase 5255.035 cycles and
printed as such, not as blanks. -/
theorem C6_unknown_state_phase_not_zeroed :
    (∀ (obs : gnss_sat) (frq : Nat) (pr : ℚ) (sat : rnx_sat),
      (write_obs obs frq pr sat).l frq
        = obs.accumulated_delta_range_meter * (1 / (CLIGHT / obs.carrier_frequency_hz))) ∧
    exAdrUnknown.2.accumulated_delta_range_state = 0 ∧
    (process_obs exAdrUnknown.1 exAdrUnknown.2 exAdrUnknown.2
        (LoopState.init [])).repoch.sats.length = 1 ∧
    ((process_obs exAdrUnknown.1 exAdrUnknown.2 exAdrUnknown.2
        (LoopState.init [])).repoch.sats.getD 0 default).l 0
      = 1000 * 1575420000 / 299792458 ∧
    print_l ((process_obs exAdrUnknown.1 exAdrUnknown.2 exAdrUnknown.2
        (LoopState.init [])).repoch.sats.getD 0 default) 0 = "     5255.0350" := by
  refine ⟨write_obs_l, ?_, ?_, ?_, ?_⟩ <;> decide!

/-! ## Registry rows -/

theorem find_in_row_mem (sig : String) : ∀ (row : List String) (i : Int),
    sig ∈ row → find_in_row sig row i = i + (row.indexOf sig : Int) := by
  intro row
  induction row with
  | nil => intro i h; simp at h
  | cons s rest ih =>
    intro i h
    by_cases hs : s = sig
    · subst hs
      simp [find_in_row]
    · have hr : sig ∈ rest := by
        rcases List.mem_cons.mp h with h | h
        · exact absurd h.symm hs
        · exact h
      rw [find_in_row, if_neg hs, ih (i + 1) hr, List.indexOf_cons_ne _ hs]
      push_cast
      ring

theorem find_in_row_not_mem (sig : String) : ∀ (row : List String) (i : Int),
    sig ∉ row → find_in_row sig row i = -1 := by
  intro row
  induction row with
  | nil => intro i _; rfl
  | cons s rest ih =>
    intro i h
    have hs : ¬ s = sig := fun e => h (by simp [e])
    have hr : sig ∉ rest := fun e => h (List.mem_cons_of_mem _ e)
    rw [find_in_row, if_neg hs, ih (i + 1) hr]

theorem find_signal_ne_iff (reg : Registry) (sys : Int) (sig : String) :
    find_signal reg sys sig ≠ -1 ↔ sig ∈ reg (sys_code_function sys) := by
  unfold find_signal
  by_cases h : sig ∈ reg (sys_code_function sys)
  · rw [find_in_row_mem sig _ 0 h]
    simp only [h, iff_true]
    omega
  · rw [find_in_row_not_mem sig _ 0 h]
    simp [h]

theorem find_signal_mem (reg : Registry) (sys : Int) (sig : String)
    (h : sig ∈ reg (sys_code_function sys)) :
    find_signal reg sys sig = ((reg (sys_code_function sys)).indexOf sig : Int) := by
  unfold find_signal
  rw [find_in_row_mem sig _ 0 h]
  simp

theorem add_signal_row (reg : Registry) (sys : Int) (sig : String) (i : Int) :
    add_signal reg sys sig i =
      if i = sys_code_function sys then
        (if sig ∈ reg i then reg i else reg i ++ [sig])
      else reg i := by
  unfold add_signal
  by_cases hm : sig ∈ reg (sys_code_function sys)
  · rw [if_pos ((find_signal_ne_iff reg sys sig).mpr hm)]
    by_cases hi : i = sys_code_function sys
    · subst hi; simp [hm]
    · simp [hi]
  · rw [if_neg (fun h => hm ((find_signal_ne_iff reg sys sig).mp h))]
    by_cases hi : i = sys_code_function sys
    · subst hi; simp [hm]
    · simp [hi, Function.update_noteq hi]

theorem add_signal_idem (reg : Registry) (sys : Int) (sig : String) :
    add_signal (add_signal reg sys sig) sys sig = add_signal reg sys sig := by
  funext i
  rw [add_signal_row (add_signal reg sys sig), add_signal_row reg]
  by_cases hi : i = sys_code_function sys
  · simp only [hi, if_true]
    by_cases hm : sig ∈ reg (sys_code_function sys)
    · simp [hm]
    · simp [hm]
  · simp [hi]


/-! ## Classification against the table -/

theorem cRound_intCast (n : Int) : cRound (n : ℚ) = n := by
  unfold cRound
  by_cases h : (0 : ℚ) ≤ (n : ℚ)
  · rw [if_pos h, Int.floor_eq_iff]
    constructor <;> linarith
  · rw [if_neg h]
    have : ⌊-(n : ℚ) + 1 / 2⌋ = -n := by
      rw [Int.floor_eq_iff]
      push_cast
      constructor <;> linarith
    rw [this, neg_neg]

theorem cRound_normalised (f res : ℚ) (hres : res ≠ 0) :
    cRound ((cRound (f / res) : ℚ) * res / res) = cRound (f / res) := by
  rw [mul_div_assoc, div_self hres, mul_one, cRound_intCast]

theorem qzs_shift_ne (sat : gnss_sat) (h : ¬ sat.constellation_type = 4) :
    qzs_shift sat = sat := by
  unfold qzs_shift
  rw [if_neg h]

theorem classify_eq_signal_of (reg : Registry) (sat : gnss_sat) :
    classify (reg, sat) =
      match signal_of sat.constellation_type sat.carrier_frequency_hz with
      | some (sys, name, res) => set_signal (reg, qzs_shift sat) sys name res
      | none => (reg, qzs_shift sat) := by
  by_cases h1 : sat.constellation_type = 1
  · rw [qzs_shift_ne sat (by rw [h1]; decide)]
    unfold classify signal_of
    simp only [if_pos h1]
    split_ifs <;> rfl
  by_cases h3 : sat.constellation_type = 3
  · rw [qzs_shift_ne sat (by rw [h3]; decide)]
    unfold classify signal_of
    simp only [if_neg h1, if_pos h3]
    split_ifs <;> rfl
  by_cases h5 : sat.constellation_type = 5
  · rw [qzs_shift_ne sat (by rw [h5]; decide)]
    unfold classify signal_of
    simp only [if_neg h1, if_neg h3, if_pos h5]
    by_cases ha : cRound (sat.carrier_frequency_hz / 1000) = 1561098
    · have hb : ¬ cRound ((set_signal (reg, sat) SYS_BDS "L2I" 1000).2.carrier_frequency_hz
          / 1000) = 1176450 := by
        show ¬ cRound ((cRound (sat.carrier_frequency_hz / 1000) : ℚ) * 1000 / 1000) = 1176450
        rw [cRound_normalised _ _ (by norm_num), ha]
        decide
      simp only [if_pos ha, if_neg hb]
    · simp only [if_neg ha]
      split_ifs <;> rfl
  by_cases h6 : sat.constellation_type = 6
  · rw [qzs_shift_ne sat (by rw [h6]; decide)]
    unfold classify signal_of
    simp only [if_neg h1, if_neg h3, if_neg h5, if_pos h6]
    split_ifs <;> rfl
  by_cases h4 : sat.constellation_type = 4
  · unfold classify signal_of qzs_shift
    simp only [if_neg h1, if_neg h3, if_neg h5, if_neg h6, if_pos h4]
    split_ifs <;> rfl
  · rw [qzs_shift_ne sat h4]
    unfold classify signal_of
    simp only [if_neg h1, if_neg h3, if_neg h5, if_neg h6, if_neg h4]

theorem signal_of_res_ne_zero (c : Int) (f : ℚ) (sys : Int) (name : String) (res : ℚ)
    (h : signal_of c f = some (sys, name, res)) : res ≠ 0 := by
  unfold signal_of at h
  split_ifs at h <;> simp at h <;> (rw [← h.2.2]; norm_num)

theorem signal_of_normalised (c : Int) (f : ℚ) (sys : Int) (name : String) (res : ℚ)
    (h : signal_of c f = some (sys, name, res)) (hc : c ≠ 3) :
    signal_of c ((cRound (f / res) : ℚ) * res) = some (sys, name, res) := by
  unfold signal_of at h ⊢
  split_ifs at h with a1 a2 a3 a4 a5 a6 a7 a8 a9 a10 a11 a12 <;>
    simp at h <;> obtain ⟨rfl, rfl, rfl⟩ := h <;>
    simp only [cRound_normalised _ _ (show (10000 : ℚ) ≠ 0 by norm_num),
      cRound_normalised _ _ (show (1000 : ℚ) ≠ 0 by norm_num)] <;>
    simp [*]

/-! ## C8: classification is idempotent -/

theorem cRound_eq_pos (x : ℚ) (n : Int) (hn : 0 < n) (h : cRound x = n) :
    (n : ℚ) - 1 / 2 ≤ x ∧ x < (n : ℚ) + 1 / 2 := by
  unfold cRound at h
  by_cases hx : 0 ≤ x
  · rw [if_pos hx, Int.floor_eq_iff] at h
    constructor <;> linarith [h.1, h.2]
  · rw [if_neg hx] at h
    have h0 : 0 ≤ ⌊-x + 1 / 2⌋ := Int.floor_nonneg.mpr (by linarith [not_le.mp hx])
    omega

theorem cRound_eq_of_bounds (x : ℚ) (n : Int) (hx : 0 ≤ x) (h1 : (n : ℚ) - 1 / 2 ≤ x)
    (h2 : x < (n : ℚ) + 1 / 2) : cRound x = n := by
  unfold cRound
  rw [if_pos hx, Int.floor_eq_iff]
  constructor <;> linarith

theorem glo_normalised (f : ℚ) (h : cRound (f / 10000000) = 160) (hf : f < 1604999950) :
    cRound ((cRound (f / 100) : ℚ) * 100 / 10000000) = 160 := by
  obtain ⟨l1, _⟩ := cRound_eq_pos _ 160 (by norm_num) h
  have hf0 : (1595000000 : ℚ) ≤ f := by
    have : (160 : ℚ) - 1 / 2 ≤ f / 10000000 := by exact_mod_cast l1
    rw [le_div_iff₀ (by norm_num)] at this
    linarith
  obtain ⟨b1, b2⟩ := cRound_nonneg_bounds (f / 100) (by positivity)
  have e : f / 100 * 100 = f := by field_simp
  have hn1 : (15950000 : ℚ) - 1 / 2 < (cRound (f / 100) : ℚ) := by nlinarith
  have hn2 : (cRound (f / 100) : ℚ) < 16050000 := by nlinarith
  have hn1' : (15950000 : Int) ≤ cRound (f / 100) := by
    by_contra hc
    have : cRound (f / 100) ≤ 15949999 := by omega
    have : (cRound (f / 100) : ℚ) ≤ 15949999 := by exact_mod_cast this
    linarith
  have hn1q : (15950000 : ℚ) ≤ (cRound (f / 100) : ℚ) := by exact_mod_cast hn1'
  apply cRound_eq_of_bounds
  · positivity
  · push_cast
    rw [le_div_iff₀ (by norm_num)]
    linarith
  · push_cast
    rw [div_lt_iff₀ (by norm_num)]
    linarith

theorem qzs_shift_freq (sat : gnss_sat) (f : ℚ) :
    qzs_shift { sat with carrier_frequency_hz := f }
      = { qzs_shift sat with carrier_frequency_hz := f } := by
  unfold qzs_shift
  split_ifs <;> rfl

theorem classify_again (reg : Registry) (sat : gnss_sat) :
    classify ((classify (reg, sat)).1, sat) = classify (reg, sat) := by
  rw [classify_eq_signal_of reg sat, classify_eq_signal_of _ sat]
  cases h : signal_of sat.constellation_type sat.carrier_frequency_hz with
  | none => rfl
  | some v =>
    obtain ⟨sys, name, res⟩ := v
    simp only [set_signal, add_signal_idem]

theorem classify_normalised (reg : Registry) (sat : gnss_sat)
    (hglo : sat.constellation_type = 3 → sat.carrier_frequency_hz < 1604999950) :
    classify ((classify (reg, sat)).1,
        { sat with carrier_frequency_hz := (classify (reg, sat)).2.carrier_frequency_hz })
      = classify (reg, sat) := by
  rw [classify_eq_signal_of reg sat]
  cases h : signal_of sat.constellation_type sat.carrier_frequency_hz with
  | none =>
    have hq : (qzs_shift sat).carrier_frequency_hz = sat.carrier_frequency_hz := by
      unfold qzs_shift; split_ifs <;> rfl
    simp only [hq]
    have := classify_eq_signal_of reg sat
    rw [h] at this
    exact this
  | some v =>
    obtain ⟨sys, name, res⟩ := v
    have hres := signal_of_res_ne_zero _ _ _ _ _ h
    have hq : (qzs_shift sat).carrier_frequency_hz = sat.carrier_frequency_hz := by
      unfold qzs_shift; split_ifs <;> rfl
    have h2 : signal_of sat.constellation_type
        ((cRound (sat.carrier_frequency_hz / res) : ℚ) * res) = some (sys, name, res) := by
      by_cases hc : sat.constellation_type = 3
      · have hf := hglo hc
        unfold signal_of at h ⊢
        rw [hc] at h ⊢
        simp only [show ¬ (3 : Int) = 1 by decide, if_false, if_true] at h ⊢
        split_ifs at h with a
        simp only [Option.some.injEq, Prod.mk.injEq] at h
        obtain ⟨rfl, rfl, rfl⟩ := h
        rw [if_pos (glo_normalised _ a hf)]
      · exact signal_of_normalised _ _ _ _ _ h hc
    simp only [set_signal, hq]
    rw [classify_eq_signal_of]
    simp only [h2, set_signal, qzs_shift_freq, add_signal_idem,
      cRound_normalised _ _ hres]

/-- C8 (as stated, refuted). The GLONASS record `rawGloEdge` with carrier
frequency 1604999999 Hz is classified L1C and its frequency is normalised to
1605000000 Hz; a record with that normalised frequency is not classified at
all (its signal name stays empty and its system stays 0). -/
theorem C8_counterexample_glonass_normalised :
    (classify (Registry.init, rawGloEdge)).2.signal_name = "L1C" ∧
    (classify (Registry.init, rawGloEdge)).2.carrier_frequency_hz = 1605000000 ∧
    (classify ((classify (Registry.init, rawGloEdge)).1,
      { rawGloEdge with carrier_frequency_hz := 1605000000 })).2.signal_name = "" ∧
    (classify ((classify (Registry.init, rawGloEdge)).1,
      { rawGloEdge with carrier_frequency_hz := 1605000000 })).2.sys = 0 := by
  decide!

/-- C8 (amended). For every registry state and every record, classifying the
same record again against the registry left by the first classification gives
the same result (same signal name, system, frequency) and the same registry;
`add_signal` of a name already in its row is a no-op; and classifying the
record with the frequency as normalised by the first classification gives the
same result and registry too, provided that, for a GLONASS record, the
frequency is below 1604999950 Hz (so that its normalised value still rounds to
160 at 10 MHz resolution). -/
theorem C8_classify_idempotent (reg : Registry) (sat : gnss_sat) :
    classify ((classify (reg, sat)).1, sat) = classify (reg, sat) ∧
    (∀ (sys : Int) (sig : String), sig ∈ reg (sys_code_function sys) →
      add_signal reg sys sig = reg) ∧
    ((sat.constellation_type = 3 → sat.carrier_frequency_hz < 1604999950) →
      classify ((classify (reg, sat)).1,
          { sat with carrier_frequency_hz := (classify (reg, sat)).2.carrier_frequency_hz })
        = classify (reg, sat)) := by
  refine ⟨classify_again reg sat, ?_, classify_normalised reg sat⟩
  intro sys sig hm
  unfold add_signal
  rw [if_pos ((find_signal_ne_iff reg sys sig).mpr hm)]

/-! ## C9: the registry is in first-seen order -/

theorem addAll_nil (row : List String) : addAll row [] = row := rfl

theorem addAll_cons (row : List String) (x : String) (ids : List String) :
    addAll row (x :: ids) = addAll (if x ∈ row then row else row ++ [x]) ids := rfl

theorem addAll_append (row a b : List String) :
    addAll row (a ++ b) = addAll (addAll row a) b := by
  unfold addAll
  rw [List.foldl_append]

theorem addAll_prefix (ids : List String) : ∀ row : List String,
    ∃ t, addAll row ids = row ++ t := by
  induction ids with
  | nil => intro row; exact ⟨[], by simp [addAll_nil]⟩
  | cons x ids ih =>
    intro row
    rw [addAll_cons]
    by_cases h : x ∈ row
    · rw [if_pos h]; exact ih row
    · rw [if_neg h]
      obtain ⟨t, ht⟩ := ih (row ++ [x])
      exact ⟨x :: t, by rw [ht]; simp⟩

theorem addAll_mem (ids : List String) : ∀ (row : List String) (y : String),
    y ∈ addAll row ids ↔ y ∈ row ∨ y ∈ ids := by
  induction ids with
  | nil => intro row y; simp [addAll_nil]
  | cons x ids ih =>
    intro row y
    rw [addAll_cons, ih]
    by_cases h : x ∈ row
    · rw [if_pos h]
      constructor
      · rintro (a | a)
        · exact Or.inl a
        · exact Or.inr (List.mem_cons_of_mem _ a)
      · rintro (a | a)
        · exact Or.inl a
        · rcases List.mem_cons.mp a with e | e
          · exact Or.inl (e ▸ h)
          · exact Or.inr e
    · rw [if_neg h]
      simp only [List.mem_append, List.mem_singleton, List.mem_cons]
      tauto

theorem addAll_of_subset (ids : List String) : ∀ row : List String,
    (∀ x ∈ ids, x ∈ row) → addAll row ids = row := by
  induction ids with
  | nil => intro row _; rfl
  | cons x ids ih =>
    intro row h
    rw [addAll_cons, if_pos (h x (List.mem_cons_self _ _))]
    exact ih row (fun y hy => h y (List.mem_cons_of_mem _ hy))

/-- Invariant of the registration loop: a row built from the names `pre` seen so
far has no duplicates, holds exactly the names of `pre`, and is ordered by first
occurrence in the whole sequence `pre ++ ids`; it stays so after `ids`. -/
theorem addAll_inv (ids : List String) : ∀ (row pre : List String),
    row.Nodup → (∀ y, y ∈ row ↔ y ∈ pre) →
    row.Pairwise (fun a b => (pre ++ ids).indexOf a < (pre ++ ids).indexOf b) →
    (addAll row ids).Nodup ∧
    (addAll row ids).Pairwise
      (fun a b => (pre ++ ids).indexOf a < (pre ++ ids).indexOf b) := by
  induction ids with
  | nil => intro row pre h1 _ h3; exact ⟨h1, h3⟩
  | cons x ids ih =>
    intro row pre h1 h2 h3
    rw [addAll_cons]
    have hassoc : pre ++ x :: ids = (pre ++ [x]) ++ ids := by simp
    by_cases h : x ∈ row
    · rw [if_pos h]
      rw [hassoc] at h3 ⊢
      refine ih row (pre ++ [x]) h1 ?_ h3
      intro y
      rw [h2 y]
      simp only [List.mem_append, List.mem_singleton]
      constructor
      · exact Or.inl
      · rintro (a | a)
        · exact a
        · rw [a]; exact (h2 x).mp h
    · rw [if_neg h]
      rw [hassoc]
      refine ih (row ++ [x]) (pre ++ [x]) ?_ ?_ ?_
      · rw [List.nodup_append]
        refine ⟨h1, List.nodup_singleton _, ?_⟩
        intro a ha hb
        rw [List.mem_singleton] at hb
        exact h (hb ▸ ha)
      · intro y
        simp only [List.mem_append, List.mem_singleton, h2 y]
      · rw [← hassoc, List.pairwise_append]
        refine ⟨h3, List.pairwise_singleton _ _, ?_⟩
        intro a ha b hb
        rw [List.mem_singleton] at hb
        subst hb
        have hap : a ∈ pre := (h2 a).mp ha
        have hbp : b ∉ pre := fun e => h ((h2 b).mpr e)
        rw [List.indexOf_append_of_mem hap, List.indexOf_append_of_not_mem hbp,
          List.indexOf_cons_self]
        have := List.indexOf_lt_length.mpr hap
        omega

theorem addAll_nodup (ids : List String) : (addAll [] ids).Nodup :=
  (addAll_inv ids [] [] List.nodup_nil (fun _ => Iff.rfl) List.Pairwise.nil).1

theorem addAll_index (ids : List String) (id : String) (h : id ∈ ids) :
    (addAll [] ids).indexOf id = (ids.take (ids.indexOf id)).toFinset.card := by
  have hk : ids.indexOf id < ids.length := List.indexOf_lt_length.mpr h
  have hsplit : ids = ids.take (ids.indexOf id) ++ id :: ids.drop (ids.indexOf id + 1) := by
    have h1 := (List.take_append_drop (ids.indexOf id) ids).symm
    have h2 : ids.drop (ids.indexOf id) = id :: ids.drop (ids.indexOf id + 1) := by
      rw [List.drop_eq_getElem_cons hk]
      congr 1
      exact List.indexOf_get hk
    rw [h2] at h1
    exact h1
  have hnot : id ∉ ids.take (ids.indexOf id) := by
    intro hm
    have h1 := List.indexOf_lt_length.mpr hm
    have h2 : (ids.take (ids.indexOf id) ++ id :: ids.drop (ids.indexOf id + 1)).indexOf id
        = (ids.take (ids.indexOf id)).indexOf id := List.indexOf_append_of_mem hm
    rw [← hsplit] at h2
    rw [List.length_take] at h1
    omega
  set a := ids.take (ids.indexOf id) with ha
  have hna : id ∉ addAll [] a := by
    rw [addAll_mem]
    simp [hnot]
  have hrow : addAll [] ids = addAll (addAll [] a ++ [id]) (ids.drop (ids.indexOf id + 1)) := by
    conv_lhs => rw [hsplit]
    rw [addAll_append, addAll_cons, if_neg hna]
  obtain ⟨t, ht⟩ := addAll_prefix (ids.drop (ids.indexOf id + 1)) (addAll [] a ++ [id])
  rw [hrow, ht, List.append_assoc, List.indexOf_append_of_not_mem hna]
  simp only [List.singleton_append, List.indexOf_cons_self, add_zero]
  rw [List.card_toFinset]
  apply List.Perm.length_eq
  rw [List.perm_ext_iff_of_nodup (addAll_nodup a) (List.nodup_dedup a)]
  intro y
  rw [addAll_mem, List.mem_dedup]
  simp

theorem classify_pass_row : ∀ (recs : List gnss_sat) (reg : Registry) (i : Int),
    (classify_pass reg recs).1 i = addAll (reg i) (row_ids i recs) := by
  intro recs
  induction recs with
  | nil => intro reg i; rfl
  | cons sat rest ih =>
    intro reg i
    show (classify_pass (classify (reg, sat)).1 rest).1 i = _
    rw [ih, classify_eq_signal_of]
    unfold row_ids
    rw [List.filterMap_cons]
    cases h : signal_of sat.constellation_type sat.carrier_frequency_hz with
    | none => rfl
    | some v =>
      obtain ⟨s, name, res⟩ := v
      simp only [set_signal]
      rw [add_signal_row]
      by_cases hi : sys_code_function s = i
      · simp only [hi, if_true]
        rw [addAll_cons]
      · have hi' : ¬ i = sys_code_function s := fun e => hi e.symm
        simp only [hi, hi', if_false]

theorem signal_of_sys (c : Int) (f : ℚ) (s : Int) (name : String) (res : ℚ)
    (h : signal_of c f = some (s, name, res)) :
    s = 1 ∨ s = 3 ∨ s = 5 ∨ s = 6 ∨ s = 4 := by
  unfold signal_of at h
  split_ifs at h <;> simp at h <;> (rw [← h.1]; decide)

theorem sys_code_function_cases (sys : Int) :
    (sys = 1 ∧ sys_code_function sys = 0) ∨ (sys = 3 ∧ sys_code_function sys = 1) ∨
    (sys = 6 ∧ sys_code_function sys = 2) ∨ (sys = 5 ∧ sys_code_function sys = 3) ∨
    (sys = 4 ∧ sys_code_function sys = 4) ∨
    ((sys ≠ 1 ∧ sys ≠ 3 ∧ sys ≠ 6 ∧ sys ≠ 5 ∧ sys ≠ 4) ∧ sys_code_function sys = -1) := by
  by_cases h1 : sys = 1
  · subst h1; exact Or.inl ⟨rfl, by decide⟩
  by_cases h3 : sys = 3
  · subst h3; exact Or.inr (Or.inl ⟨rfl, by decide⟩)
  by_cases h6 : sys = 6
  · subst h6; exact Or.inr (Or.inr (Or.inl ⟨rfl, by decide⟩))
  by_cases h5 : sys = 5
  · subst h5; exact Or.inr (Or.inr (Or.inr (Or.inl ⟨rfl, by decide⟩)))
  by_cases h4 : sys = 4
  · subst h4; exact Or.inr (Or.inr (Or.inr (Or.inr (Or.inl ⟨rfl, by decide⟩))))
  · refine Or.inr (Or.inr (Or.inr (Or.inr (Or.inr ⟨⟨h1, h3, h6, h5, h4⟩, ?_⟩))))
    unfold sys_code_function
    simp only [if_neg h1, if_neg h3, if_neg h6, if_neg h5, if_neg h4]

theorem sys_code_function_inj (s sys : Int) (hs : s = 1 ∨ s = 3 ∨ s = 5 ∨ s = 6 ∨ s = 4) :
    sys_code_function s = sys_code_function sys ↔ s = sys := by
  rcases sys_code_function_cases s with h | h | h | h | h | h <;>
  rcases sys_code_function_cases sys with g | g | g | g | g | g <;>
  rw [h.2, g.2] <;> constructor <;> intro <;> omega

theorem row_ids_eq (sys : Int) (recs : List gnss_sat) :
    row_ids (sys_code_function sys) recs = classified_ids sys recs := by
  unfold row_ids classified_ids
  congr 1
  funext sat
  cases h : signal_of sat.constellation_type sat.carrier_frequency_hz with
  | none => rfl
  | some v =>
    obtain ⟨s, name, res⟩ := v
    simp only
    by_cases e : s = sys
    · simp [e]
    · have : ¬ sys_code_function s = sys_code_function sys :=
        fun h2 => e ((sys_code_function_inj s sys (signal_of_sys _ _ _ _ _ h)).mp h2)
      simp [e, this]

theorem mem_row_ids (i : Int) (recs : List gnss_sat) (x : String) :
    x ∈ row_ids i recs ↔ ∃ sat ∈ recs, ∃ s res,
      signal_of sat.constellation_type sat.carrier_frequency_hz = some (s, x, res) ∧
      sys_code_function s = i := by
  unfold row_ids
  rw [List.mem_filterMap]
  constructor
  · rintro ⟨sat, hm, hf⟩
    refine ⟨sat, hm, ?_⟩
    cases h : signal_of sat.constellation_type sat.carrier_frequency_hz with
    | none => rw [h] at hf; simp at hf
    | some v =>
      obtain ⟨s, name, res⟩ := v
      rw [h] at hf
      simp only at hf
      split_ifs at hf with hi
      simp only [Option.some.injEq] at hf
      subst hf
      exact ⟨s, res, rfl, hi⟩
  · rintro ⟨sat, hm, s, res, hs, hi⟩
    exact ⟨sat, hm, by rw [hs]; simp [hi]⟩

theorem mem_classified_ids (sys : Int) (recs : List gnss_sat) (x : String) :
    x ∈ classified_ids sys recs ↔ ∃ sat ∈ recs, ∃ res,
      signal_of sat.constellation_type sat.carrier_frequency_hz = some (sys, x, res) := by
  unfold classified_ids
  rw [List.mem_filterMap]
  constructor
  · rintro ⟨sat, hm, hf⟩
    refine ⟨sat, hm, ?_⟩
    cases h : signal_of sat.constellation_type sat.carrier_frequency_hz with
    | none => rw [h] at hf; simp at hf
    | some v =>
      obtain ⟨s, name, res⟩ := v
      rw [h] at hf
      simp only at hf
      split_ifs at hf with hi
      simp only [Option.some.injEq] at hf
      subst hf
      subst hi
      exact ⟨res, rfl⟩
  · rintro ⟨sat, hm, res, hs⟩
    exact ⟨sat, hm, by rw [hs]; simp⟩

theorem classify_pass_suffix (pre suf : List gnss_sat)
    (h : ∀ (s : Int) (x : String), x ∈ classified_ids s suf → x ∈ classified_ids s pre) :
    (classify_pass Registry.init (pre ++ suf)).1 = (classify_pass Registry.init pre).1 := by
  funext i
  rw [classify_pass_row, classify_pass_row]
  have happ : row_ids i (pre ++ suf) = row_ids i pre ++ row_ids i suf := by
    unfold row_ids
    rw [List.filterMap_append]
  rw [happ, addAll_append]
  apply addAll_of_subset
  intro x hx
  rw [addAll_mem]
  right
  rw [mem_row_ids] at hx ⊢
  obtain ⟨sat, hm, s, res, hs, hi⟩ := hx
  have h1 : x ∈ classified_ids s suf := (mem_classified_ids s suf x).mpr ⟨sat, hm, res, hs⟩
  obtain ⟨sat2, hm2, res2, hs2⟩ := (mem_classified_ids s pre x).mp (h s x h1)
  exact ⟨sat2, hm2, s, res2, hs2, hi⟩

/-- C9. After the classification pass over any sequence of records, started
from the empty registry, the row of each constellation has no duplicates, holds
exactly the signal names classified for that constellation, and lists them in
order of first occurrence; `find_signal` returns for a classified name the
number of distinct names of that constellation that occur before its first
occurrence; and permuting records that come after a point where every name they
are classified to has already occurred leaves the registry unchanged. -/
theorem C9_registry_first_seen_order (recs : List gnss_sat) :
    (∀ sys : Int,
      ((classify_pass Registry.init recs).1 (sys_code_function sys)).Nodup ∧
      (∀ x, x ∈ (classify_pass Registry.init recs).1 (sys_code_function sys)
        ↔ x ∈ classified_ids sys recs) ∧
      ((classify_pass Registry.init recs).1 (sys_code_function sys)).Pairwise
        (fun a b => (classified_ids sys recs).indexOf a < (classified_ids sys recs).indexOf b) ∧
      (∀ id ∈ classified_ids sys recs,
        find_signal (classify_pass Registry.init recs).1 sys id
          = (((classified_ids sys recs).take
              ((classified_ids sys recs).indexOf id)).toFinset.card : Int))) ∧
    (∀ pre suf suf' : List gnss_sat, recs = pre ++ suf → suf.Perm suf' →
      (∀ (s : Int) (x : String), x ∈ classified_ids s suf → x ∈ classified_ids s pre) →
      (classify_pass Registry.init (pre ++ suf')).1 = (classify_pass Registry.init recs).1) := by
  constructor
  · intro sys
    have hrow : (classify_pass Registry.init recs).1 (sys_code_function sys)
        = addAll [] (classified_ids sys recs) := by
      rw [classify_pass_row, row_ids_eq]
      rfl
    rw [hrow]
    obtain ⟨n1, n2⟩ := addAll_inv (classified_ids sys recs) [] [] List.nodup_nil
      (fun _ => Iff.rfl) List.Pairwise.nil
    refine ⟨n1, ?_, ?_, ?_⟩
    · intro x
      rw [addAll_mem]
      simp
    · simpa using n2
    · intro id hid
      have hm : id ∈ (classify_pass Registry.init recs).1 (sys_code_function sys) := by
        rw [hrow, addAll_mem]
        exact Or.inr hid
      rw [find_signal_mem _ _ _ hm, hrow, addAll_index _ _ hid]
  · intro pre suf suf' hrecs hperm hsub
    rw [hrecs, classify_pass_suffix pre suf hsub]
    apply classify_pass_suffix
    intro s x hx
    apply hsub s x
    rw [mem_classified_ids] at hx ⊢
    obtain ⟨sat, hm, res, hs⟩ := hx
    exact ⟨sat, hperm.symm.subset hm, res, hs⟩

/-! ## C7: the Galileo 4 ms check and the last epoch -/

/-- C7 (code disagrees). The log `logTwoEpochs` consists of two epochs one
second apart with five satellites each; Galileo satellite 5 has pseudorange
0.070 × c in the first and 0.074 × c in the second. The first epoch is pushed
inside the loop while `rnx` is still empty and the second by the statement
after the loop, so the 4 ms check never runs: the output keeps the two
pseudoranges 0.004 × c = 1199169.832 m apart. When one more record follows a
second later (`logThreeEpochs`), the second epoch is closed inside the loop and
its Galileo pseudorange is brought back to that of the first. -/
theorem C7_last_epoch_not_corrected :
    (convert logTwoEpochs).2.length = 2 ∧
    (((convert logTwoEpochs).2.getD 0 default).sats.getD 4 default).sys = SYS_GAL ∧
    (((convert logTwoEpochs).2.getD 0 default).sats.getD 4 default).prn = 5 ∧
    (((convert logTwoEpochs).2.getD 1 default).sats.getD 4 default).sys = SYS_GAL ∧
    (((convert logTwoEpochs).2.getD 1 default).sats.getD 4 default).prn = 5 ∧
    (((convert logTwoEpochs).2.getD 0 default).sats.getD 4 default).p 0 = 70 / 1000 * CLIGHT ∧
    (((convert logTwoEpochs).2.getD 1 default).sats.getD 4 default).p 0 = 74 / 1000 * CLIGHT ∧
    ¬ |(((convert logTwoEpochs).2.getD 1 default).sats.getD 4 default).p 0
        - (((convert logTwoEpochs).2.getD 0 default).sats.getD 4 default).p 0| ≤ 1 ∧
    (print_file (convert logTwoEpochs).1 (convert logTwoEpochs).2).drop 7 =
      ["> 2021 03 17 07 06 45.0000000  0  5",
       "G01  20985472.060       5255.0350      -525.504          40.000  ",
       "G02  20985472.060       5255.0350      -525.504          40.000  ",
       "G03  20985472.060       5255.0350      -525.504          40.000  ",
       "G04  20985472.060       5255.0350      -525.504          40.000  ",
       "E05  20985472.060       5255.0350      -525.504          40.000  ",
       "> 2021 03 17 07 06 46.0000000  0  5",
       "G01  20985472.060       5255.0350      -525.504          40.000  ",
       "G02  20985472.060       5255.0350      -525.504          40.000  ",
       "G03  20985472.060       5255.0350      -525.504          40.000  ",
       "G04  20985472.060       5255.0350      -525.504          40.000  ",
       "E05  22184641.892       5255.0350      -525.504          40.000  "] ∧
    (((convert logThreeEpochs).2.getD 1 default).sats.getD 4 default).p 0
      = 70 / 1000 * CLIGHT := by
  decide!

/-! ## C10: unobserved fields are blank -/

theorem padLeft_length (w : Nat) (c : Char) (s : String) :
    (padLeft w c s).length = max w s.length := by
  unfold padLeft
  show (List.leftpad w c s.data).length = _
  rw [List.leftpad_length]
  rfl

theorem roundHalfEven_le (y : ℚ) : roundHalfEven y ≤ ⌊y⌋ + 1 := by
  unfold roundHalfEven
  split_ifs <;> omega

theorem fmt_f_14_3_length (x : ℚ) (hx : |x| < 999999999) : (fmt_f 14 3 x).length = 14 := by
  unfold fmt_f
  rw [padLeft_length]
  apply max_eq_left
  unfold fmt_f_body
  have hy : |x| * (10 : ℚ) ^ 3 < 999999999000 := by
    have : (10 : ℚ) ^ 3 = 1000 := by norm_num
    rw [this]
    linarith
  have hfl : ⌊|x| * (10 : ℚ) ^ 3⌋ < 999999999000 := by
    rw [Int.floor_lt]
    exact_mod_cast hy
  have hr := roundHalfEven_le (|x| * (10 : ℚ) ^ 3)
  have hs : (roundHalfEven (|x| * (10 : ℚ) ^ 3)).toNat ≤ 999999999000 := by omega
  generalize (roundHalfEven (|x| * (10 : ℚ) ^ 3)).toNat = scaled at hs ⊢
  have hip : scaled / 10 ^ 3 < 10 ^ 9 := by
    norm_num
    omega
  have hfp : scaled % 10 ^ 3 < 10 ^ 3 :=
    Nat.mod_lt _ (by norm_num)
  have l1 := Nat.repr_length _ 9 (by norm_num) hip
  have l2 := Nat.repr_length _ 3 (by norm_num) hfp
  have l3 : (if x < 0 then "-" else "").length ≤ 1 := by
    split_ifs <;> decide
  simp only [String.length_append, padLeft_length]
  have l4 : ".".length = 1 := by decide
  rw [l4, max_eq_left l2]
  omega

theorem print_l_length (sat : rnx_sat) (i : Nat) (h : sat.l i ≠ 0) :
    (print_l sat i).length = 14 := by
  unfold print_l
  rw [if_pos h]
  simp only
  rw [padLeft_length]
  apply max_eq_left
  unfold snprintf
  show (List.take (15 - 1) _).length ≤ 14
  rw [List.length_take]
  omega

/-- C10. For every satellite record and slot, `print_rnx_epoch` renders a
pseudorange, Doppler or signal strength equal to 0 as 16 blanks and a carrier
phase equal to 0 as 14 blanks; these are the widths of the populated fields (16
for a value below 999999999 in absolute value, 14 for a phase with its LLI
digit). The record `exSatPhaseOnly` (pseudorange 0, phase 12345.678) gives a
blank pseudorange field followed by the phase field `    12345.6780`. -/
theorem C10_unobserved_fields_blank (sat : rnx_sat) (i : Nat) :
    (sat.p i = 0 → print_p sat i = blank16) ∧
    (sat.l i = 0 → print_l sat i = blank14) ∧
    (sat.d i = 0 → print_d sat i = blank16) ∧
    (sat.s i = 0 → print_s sat i = blank16) ∧
    blank16.data = List.replicate 16 ' ' ∧ blank14.data = List.replicate 14 ' ' ∧
    (sat.p i ≠ 0 → |sat.p i| < 999999999 → (print_p sat i).length = blank16.length) ∧
    (sat.l i ≠ 0 → (print_l sat i).length = blank14.length) ∧
    (sat.d i ≠ 0 → |sat.d i| < 999999999 → (print_d sat i).length = blank16.length) ∧
    (sat.s i ≠ 0 → |sat.s i| < 999999999 → (print_s sat i).length = blank16.length) ∧
    exSatPhaseOnly.p 0 = 0 ∧ exSatPhaseOnly.l 0 = 12345678 / 1000 ∧
    print_slot exSatPhaseOnly 0
      = "                " ++ "    12345.6780" ++ "                " ++ "                " ∧
    print_sat exGps.1 exSatPhaseOnly
      = "G01                    12345.6780                                " := by
  have hb16 : blank16.length = 16 := by decide
  have hb14 : blank14.length = 14 := by decide
  have h2 : "  ".length = 2 := by decide
  refine ⟨?_, ?_, ?_, ?_, by decide, by decide, ?_, ?_, ?_, ?_, by decide!, by decide!,
    by decide!, by decide!⟩
  · intro h; unfold print_p; rw [if_neg (not_not.mpr h)]
  · intro h; unfold print_l; rw [if_neg (not_not.mpr h)]
  · intro h; unfold print_d; rw [if_neg (not_not.mpr h)]
  · intro h; unfold print_s; rw [if_neg (not_not.mpr h)]
  · intro h hx
    unfold print_p
    rw [if_pos h, String.length_append, fmt_f_14_3_length _ hx, h2, hb16]
  · intro h
    rw [print_l_length sat i h, hb14]
  · intro h hx
    unfold print_d
    rw [if_pos h, String.length_append, fmt_f_14_3_length _ hx, h2, hb16]
  · intro h hx
    unfold print_s
    rw [if_pos h, String.length_append, fmt_f_14_3_length _ hx, h2, hb16]

/-! ## C19: time of day returned by gpstime2ymdhms -/

theorem toI64_of_range (x : Int) (h0 : 0 ≤ x) (h1 : x < 9223372036854775808) :
    toI64 x = x := by
  unfold toI64
  omega

theorem gpstime2ymdhms_time_fields (time_nano full_bias_nano : Int) (bias_nano : ℚ)
    (h0 : 0 ≤ time_nano - full_bias_nano)
    (h1 : time_nano - full_bias_nano < 9223372036854775808) :
    (gpstime2ymdhms time_nano full_bias_nano bias_nano).hour
      = (time_nano - full_bias_nano) / 1000000000 % 86400 / 3600 ∧
    (gpstime2ymdhms time_nano full_bias_nano bias_nano).minute
      = (time_nano - full_bias_nano) / 1000000000 % 86400 % 3600 / 60 ∧
    (gpstime2ymdhms time_nano full_bias_nano bias_nano).second
      = (((time_nano - full_bias_nano) / 1000000000 % 60 : Int) : ℚ)
        + ((((time_nano - full_bias_nano) % 1000000000 : Int) : ℚ) - bias_nano) / 1000000000 := by
  set delta := time_nano - full_bias_nano with hdelta
  have hw : toI64 delta = delta := toI64_of_range delta h0 h1
  have hsec : Int.tdiv delta 1000000000 = delta / 1000000000 :=
    Int.tdiv_eq_ediv h0 (by norm_num)
  have hs0 : 0 ≤ delta / 1000000000 := by omega
  have hmid : Int.tmod (delta / 1000000000) 86400 = delta / 1000000000 % 86400 :=
    Int.tmod_eq_emod hs0 (by norm_num)
  have hm0 : 0 ≤ delta / 1000000000 % 86400 := by omega
  have hhour : Int.tdiv (delta / 1000000000 % 86400) 3600 = delta / 1000000000 % 86400 / 3600 :=
    Int.tdiv_eq_ediv hm0 (by norm_num)
  have hlast : Int.tmod (delta / 1000000000 % 86400) 3600 = delta / 1000000000 % 86400 % 3600 :=
    Int.tmod_eq_emod hm0 (by norm_num)
  have hl0 : 0 ≤ delta / 1000000000 % 86400 % 3600 := by omega
  have hmin : Int.tdiv (delta / 1000000000 % 86400 % 3600) 60
      = delta / 1000000000 % 86400 % 3600 / 60 := Int.tdiv_eq_ediv hl0 (by norm_num)
  have hsecs : Int.tmod (delta / 1000000000 % 86400 % 3600) 60
      = delta / 1000000000 % 86400 % 3600 % 60 := Int.tmod_eq_emod hl0 (by norm_num)
  have e1 : (gpstime2ymdhms time_nano full_bias_nano bias_nano).hour
      = delta / 1000000000 % 86400 / 3600 := by
    simp only [gpstime2ymdhms, ← hdelta, hw, hsec, hmid, hhour]
  have e2 : (gpstime2ymdhms time_nano full_bias_nano bias_nano).minute
      = delta / 1000000000 % 86400 % 3600 / 60 := by
    simp only [gpstime2ymdhms, ← hdelta, hw, hsec, hmid, hlast, hmin]
  have e3 : (gpstime2ymdhms time_nano full_bias_nano bias_nano).second
      = ((delta / 1000000000 % 86400 % 3600 % 60 : Int) : ℚ)
        + (((delta - delta / 1000000000 * 1000000000 : Int) : ℚ) - bias_nano) / 1000000000 := by
    simp only [gpstime2ymdhms, ← hdelta, hw, hsec, hmid, hlast, hsecs]
  have k1 : delta / 1000000000 % 86400 % 3600 % 60 = delta / 1000000000 % 60 := by omega
  have k2 : delta - delta / 1000000000 * 1000000000 = delta % 1000000000 := by omega
  rw [e1, e2, e3, k1, k2]
  exact ⟨rfl, rfl, rfl⟩

/-- C19 (as stated, refuted). For `time_nano = 9e18` and
`full_bias_nano = -1e18`, both `long long` values, the difference 1e19 is not
negative but exceeds `2^63 - 1`: the `long long` subtraction wraps to
-8446744073709551616, and `gpstime2ymdhms` returns hour -5 and minute -47. -/
theorem C19_counterexample_overflow :
    0 ≤ (9000000000000000000 : Int) - (-1000000000000000000) ∧
    (9000000000000000000 : Int) < 9223372036854775808 ∧
    -9223372036854775808 ≤ (-1000000000000000000 : Int) ∧
    toI64 (9000000000000000000 - (-1000000000000000000)) = -8446744073709551616 ∧
    (gpstime2ymdhms 9000000000000000000 (-1000000000000000000) 0).hour = -5 ∧
    (gpstime2ymdhms 9000000000000000000 (-1000000000000000000) 0).minute = -47 := by
  refine ⟨?_, ?_, ?_, ?_, ?_, ?_⟩ <;> decide!

/-- C19 (amended). For `delta = time_nano - full_bias_nano` with
`0 ≤ delta < 2^63` (the `long long` subtraction does not overflow),
`gpstime2ymdhms` returns an hour in [0, 23] and a minute in [0, 59]; the seconds
field is `delta_sec mod 60 + ((delta mod 1e9) - bias_nano) / 1e9` with
`delta_sec = delta / 1e9` rounded down; and
`3600 hour + 60 minute + seconds = ((delta mod 86400e9) - bias_nano) / 1e9`. -/
theorem C19_gpstime2ymdhms_time_of_day (time_nano full_bias_nano : Int) (bias_nano : ℚ)
    (h0 : 0 ≤ time_nano - full_bias_nano)
    (h1 : time_nano - full_bias_nano < 9223372036854775808) :
    0 ≤ (gpstime2ymdhms time_nano full_bias_nano bias_nano).hour ∧
    (gpstime2ymdhms time_nano full_bias_nano bias_nano).hour ≤ 23 ∧
    0 ≤ (gpstime2ymdhms time_nano full_bias_nano bias_nano).minute ∧
    (gpstime2ymdhms time_nano full_bias_nano bias_nano).minute ≤ 59 ∧
    (gpstime2ymdhms time_nano full_bias_nano bias_nano).second
      = (((time_nano - full_bias_nano) / 1000000000 % 60 : Int) : ℚ)
        + ((((time_nano - full_bias_nano) % 1000000000 : Int) : ℚ) - bias_nano) / 1000000000 ∧
    3600 * ((gpstime2ymdhms time_nano full_bias_nano bias_nano).hour : ℚ)
      + 60 * ((gpstime2ymdhms time_nano full_bias_nano bias_nano).minute : ℚ)
      + (gpstime2ymdhms time_nano full_bias_nano bias_nano).second
      = ((((time_nano - full_bias_nano) % 86400000000000 : Int) : ℚ) - bias_nano)
        / 1000000000 := by
  obtain ⟨e1, e2, e3⟩ := gpstime2ymdhms_time_fields time_nano full_bias_nano bias_nano h0 h1
  generalize time_nano - full_bias_nano = delta at *
  have k3 : delta % 86400000000000
      = (3600 * (delta / 1000000000 % 86400 / 3600)
          + 60 * (delta / 1000000000 % 86400 % 3600 / 60)
          + delta / 1000000000 % 60) * 1000000000 + delta % 1000000000 := by omega
  rw [e1, e2, e3]
  refine ⟨by omega, by omega, by omega, by omega, rfl, ?_⟩
  rw [k3]
  push_cast
  ring

theorem C19_gpstime2ymdhms_time_of_day_witness :
    0 ≤ (gpstime2ymdhms 1393000000000000000 0 (1 / 2)).hour ∧
    (gpstime2ymdhms 1393000000000000000 0 (1 / 2)).hour ≤ 23 :=
  ⟨(C19_gpstime2ymdhms_time_of_day 1393000000000000000 0 (1 / 2) (by decide) (by decide)).1,
   (C19_gpstime2ymdhms_time_of_day 1393000000000000000 0 (1 / 2) (by decide) (by decide)).2.1⟩

/-! ## C15: loss-of-lock indicator -/

/-- C15. For the writes of an accepted record with accumulated-delta-range
state `a` into slot `frq`: if bit 2 of `a` (mask 4, cycle slip) is set, the LLI
of the slot is 1 (`LLI_SLIP`), whatever bits 3 and 4 are; if bit 2 is clear,
bit 4 (mask 16, half cycle reported) is set and bit 3 (mask 8, half cycle
resolved) is clear, the LLI is 2 (`LLI_HALFC`); otherwise the LLI keeps the
value it had, which is 0 in the record of a satellite first seen in the epoch.
The LLI of every other slot is left as it was. -/
theorem C15_loss_of_lock_indicator (obs : gnss_sat) (frq : Nat) (pr : ℚ) (sat : rnx_sat) :
    (obs.accumulated_delta_range_state.testBit 2 = true →
      (write_obs obs frq pr sat).lli frq = LLI_SLIP) ∧
    (obs.accumulated_delta_range_state.testBit 2 = false →
      obs.accumulated_delta_range_state.testBit 4 = true →
      obs.accumulated_delta_range_state.testBit 3 = false →
      (write_obs obs frq pr sat).lli frq = LLI_HALFC) ∧
    (obs.accumulated_delta_range_state.testBit 2 = false →
      ¬ (obs.accumulated_delta_range_state.testBit 4 = true ∧
        obs.accumulated_delta_range_state.testBit 3 = false) →
      (write_obs obs frq pr sat).lli frq = sat.lli frq) ∧
    (write_obs obs frq pr { rnx_sat.zero with sys := obs.sys, prn := obs.svid }).lli frq
      = (if obs.accumulated_delta_range_state.testBit 2 = true then 1
         else if obs.accumulated_delta_range_state.testBit 4 = true ∧
           obs.accumulated_delta_range_state.testBit 3 = false then 2 else 0) ∧
    (∀ k, k ≠ frq → (write_obs obs frq pr sat).lli k = sat.lli k) ∧
    LLI_SLIP = 1 ∧ LLI_HALFC = 2 := by
  have b2 := land_mask_iff obs.accumulated_delta_range_state GPS_ADR_STATE_CYCLE_SLIP 2
    (by decide)
  have b3 := land_mask_iff obs.accumulated_delta_range_state
    GPS_ADR_STATE_HALF_CYCLE_RESOLVED 3 (by decide)
  have b4 := land_mask_iff obs.accumulated_delta_range_state
    GPS_ADR_STATE_HALF_CYCLE_REPORTED 4 (by decide)
  have key : ∀ s : rnx_sat, (write_obs obs frq pr s).lli
      = if obs.accumulated_delta_range_state.testBit 2 = true then
          Function.update s.lli frq LLI_SLIP
        else if obs.accumulated_delta_range_state.testBit 4 = true ∧
            obs.accumulated_delta_range_state.testBit 3 = false then
          Function.update s.lli frq LLI_HALFC
        else s.lli := by
    intro s
    unfold write_obs
    simp only [b2, b3, b4, GPS_ADR_STATE_UNKNOWN, land_zero, ne_eq, not_true_eq_false,
      if_false, Bool.not_eq_true]
    by_cases c2 : obs.accumulated_delta_range_state.testBit 2 = true
    · simp only [c2, if_true]
      split_ifs <;> simp
    · simp only [c2, if_false]
      split_ifs <;> simp
  refine ⟨?_, ?_, ?_, ?_, ?_, rfl, rfl⟩
  · intro h
    rw [key, if_pos h, Function.update_same]
  · intro h2 h4 h3
    rw [key, if_neg (by simp [h2]), if_pos ⟨h4, h3⟩, Function.update_same]
  · intro h2 h
    rw [key, if_neg (by simp [h2]), if_neg h]
  · rw [key]
    split_ifs <;> simp [rnx_sat.zero, LLI_SLIP, LLI_HALFC]
  · intro k hk
    rw [key]
    split_ifs <;> simp [Function.update_noteq hk]

/-! ## C11: epochs in the output -/

theorem sys_code_getD (n : Nat) : sys_code.getD n ' ' ≠ '>' := by
  unfold sys_code
  rcases n with _ | _ | _ | _ | _ | _ | n <;> simp

theorem is_epoch_line_print_sat (reg : Registry) (sat : rnx_sat) :
    is_epoch_line (print_sat reg sat) = false := by
  unfold is_epoch_line print_sat
  simp only [String.data_append, List.singleton_append, List.cons_append, List.head?_cons]
  have := sys_code_getD (sys_code_function sat.sys).toNat
  simpa using this

theorem is_epoch_line_print_epoch_line (e : rnx_epoch) :
    is_epoch_line (print_epoch_line e) = true := by
  unfold is_epoch_line print_epoch_line
  simp only [String.data_append]
  rfl

theorem is_epoch_line_header (reg : Registry) :
    ∀ l ∈ print_rnx_header reg, is_epoch_line l = false := by
  intro l hl
  unfold print_rnx_header at hl
  simp only [List.mem_append, List.mem_cons, List.mem_singleton, List.mem_flatMap,
    List.mem_range, List.not_mem_nil, or_false] at hl
  rcases hl with (h | h) | h
  · rcases h with h | h | h | h <;> subst h <;> decide
  · obtain ⟨i, _, hi⟩ := h
    unfold header_sys_line at hi
    split at hi
    · simp only [List.mem_singleton] at hi
      subst hi
      unfold is_epoch_line
      simp only [String.data_append, List.singleton_append, List.cons_append, List.head?_cons]
      have := sys_code_getD i
      simpa using this
    · simp only [List.mem_singleton] at hi
      subst hi
      unfold is_epoch_line
      simp only [String.data_append, List.singleton_append, List.cons_append, List.head?_cons]
      have := sys_code_getD i
      simpa using this
    · simp at hi
  · subst h; decide

theorem countP_print_rnx_epoch (reg : Registry) (e : rnx_epoch) :
    (print_rnx_epoch reg e).countP is_epoch_line = 1 := by
  unfold print_rnx_epoch
  rw [List.countP_cons_of_pos _ _ (is_epoch_line_print_epoch_line e)]
  have : (e.sats.map (print_sat reg)).countP is_epoch_line = 0 := by
    rw [List.countP_eq_zero]
    intro l hl
    rw [List.mem_map] at hl
    obtain ⟨s, _, rfl⟩ := hl
    simp [is_epoch_line_print_sat]
  rw [this]

/-- C11. The lines of the output after the header are, in the order in which
the epochs were built, the blocks (epoch line, then one line per satellite) of
exactly the epochs with satellite count above 0: an epoch with count 0 adds
nothing, an epoch with positive count adds its block after those of the
epochs before it, and the number of epoch lines in the output is the number of
epochs with positive count. -/
theorem C11_output_epochs (reg : Registry) (rnx : List rnx_epoch) :
    print_file reg rnx = print_rnx_header reg ++
      ((rnx.filter (fun e => decide (e.sv > 0))).map
        (fun e => print_epoch_line e :: e.sats.map (print_sat reg))).flatten ∧
    (∀ e : rnx_epoch, ¬ e.sv > 0 → ∀ a b : List rnx_epoch,
      print_file reg (a ++ e :: b) = print_file reg (a ++ b)) ∧
    (∀ e : rnx_epoch, e.sv > 0 →
      print_file reg (rnx ++ [e]) = print_file reg rnx ++ print_rnx_epoch reg e) ∧
    (print_file reg rnx).countP is_epoch_line
      = (rnx.filter (fun e => decide (e.sv > 0))).length := by
  refine ⟨?_, ?_, ?_, ?_⟩
  · unfold print_file
    rw [List.flatMap_def]
    rfl
  · intro e he a b
    unfold print_file
    rw [List.filter_append, List.filter_append, List.filter_cons_of_neg (by simpa using he)]
  · intro e he
    unfold print_file
    rw [List.filter_append, List.flatMap_append, List.append_assoc]
    simp [he]
  · unfold print_file
    rw [List.countP_append, List.countP_flatMap]
    have h1 : (print_rnx_header reg).countP is_epoch_line = 0 := by
      rw [List.countP_eq_zero]
      intro l hl
      simp [is_epoch_line_header reg l hl]
    have h2 : (List.countP is_epoch_line ∘ print_rnx_epoch reg) = fun _ => 1 := by
      funext e
      exact countP_print_rnx_epoch reg e
    rw [h1, h2]
    simp

/-! ## Closing an epoch -/

theorem near_zero_iff (n : Int) : |(n : ℚ)| > NEAR_ZERO ↔ n ≠ 0 := by
  unfold NEAR_ZERO
  constructor
  · intro h hn
    subst hn
    norm_num at h
  · intro hn
    have h1 : (1 : ℚ) ≤ |(n : ℚ)| := by
      rw [← Int.cast_abs]
      have : (1 : Int) ≤ |n| := Int.one_le_abs hn
      exact_mod_cast this
    linarith

theorem close_epoch_same (st : LoopState) (obs : gnss_sat)
    (h : toU64 (allRxMillis_of obs - st.allRxMillis_p) = 0) : close_epoch st obs = st := by
  unfold close_epoch
  simp only
  rw [if_neg]
  rw [near_zero_iff]
  exact not_not.mpr h

theorem close_epoch_new (st : LoopState) (obs : gnss_sat)
    (h : toU64 (allRxMillis_of obs - st.allRxMillis_p) ≠ 0) :
    (close_epoch st obs).rnx = st.rnx ++ [closed_epoch st obs] ∧
    (close_epoch st obs).repoch = rnx_epoch.empty ∧
    (close_epoch st obs).allRxMillis_p = allRxMillis_of obs ∧
    (close_epoch st obs).count = st.count ∧
    (close_epoch st obs).console =
      if (closed_epoch st obs).sv ≤ 4 then st.console ++ [Diag.fewSatellites]
      else st.console := by
  unfold close_epoch
  simp only
  rw [if_pos ((near_zero_iff _).mpr h)]
  exact ⟨rfl, rfl, rfl, rfl, rfl⟩

theorem closed_epoch_sv (st : LoopState) (obs : gnss_sat) :
    (closed_epoch st obs).sv = st.repoch.sv := by
  unfold closed_epoch
  split
  · split_ifs <;> rfl
  · rfl

/-! ## C12: sparse-epoch warning -/

/-- C12 (code disagrees). When the loop closes an epoch it prints the warning
exactly when the satellite count is at most 4 (`repoch.sv <= 4`), so also for an
epoch with exactly 4 satellites; the epoch pushed after the loop gets no test at
all. For `logFourThenFive` (epochs of 4 and 5 satellites) the console holds one
warning, and for `logFiveThenOne` (epochs of 5 and 1 satellites) it holds
none. -/
theorem C12_sparse_epoch_warning :
    (∀ (st : LoopState) (obs : gnss_sat),
      toU64 (allRxMillis_of obs - st.allRxMillis_p) ≠ 0 →
      (close_epoch st obs).console =
        if st.repoch.sv ≤ 4 then st.console ++ [Diag.fewSatellites] else st.console) ∧
    ((convert logFourThenFive).2.map (fun e => e.sv) = [4, 5] ∧
      (main_loop (classify_pass Registry.init logFourThenFive).1
        (classify_pass Registry.init logFourThenFive).2).console = [Diag.fewSatellites]) ∧
    ((convert logFiveThenOne).2.map (fun e => e.sv) = [5, 1] ∧
      (main_loop (classify_pass Registry.init logFiveThenOne).1
        (classify_pass Registry.init logFiveThenOne).2).console = []) := by
  refine ⟨?_, ?_, ?_⟩
  · intro st obs h
    rw [(close_epoch_new st obs h).2.2.2.2, closed_epoch_sv]
  · decide!
  · decide!

/-! ## Rounding to double precision -/

theorem bit_length_zero (fuel : Nat) : bit_length fuel 0 = 0 := by
  cases fuel with
  | zero => rfl
  | succ f => simp [bit_length]

theorem bit_length_spec : ∀ (fuel n : Nat), 0 < n → n ≤ fuel →
    1 ≤ bit_length fuel n ∧ 2 ^ (bit_length fuel n - 1) ≤ n ∧ n < 2 ^ bit_length fuel n := by
  intro fuel
  induction fuel with
  | zero => intro n h0 h1; omega
  | succ f ih =>
    intro n h0 h1
    have hn : n ≠ 0 := by omega
    rw [bit_length, if_neg hn]
    by_cases h2 : n / 2 = 0
    · rw [h2, bit_length_zero]
      have : n = 1 := by omega
      subst this
      simp
    · obtain ⟨b1, b2, b3⟩ := ih (n / 2) (by omega) (by omega)
      have e : 2 ^ bit_length f (n / 2) = 2 * 2 ^ (bit_length f (n / 2) - 1) := by
        rw [← pow_succ']
        congr 1
        omega
      refine ⟨by omega, ?_, ?_⟩
      · rw [Nat.add_sub_cancel, e]
        omega
      · rw [pow_succ]
        omega

theorem roundHalfEven_err (y : ℚ) : |((roundHalfEven y : Int) : ℚ) - y| ≤ 1 / 2 := by
  have h1 := Int.floor_le y
  have h2 := Int.lt_floor_add_one y
  unfold roundHalfEven
  rw [abs_le]
  split_ifs <;> push_cast <;> constructor <;> linarith

theorem binade_le (x : ℚ) (hx : x ≠ 0) : (2 : ℚ) ^ binade x ≤ |x| := by
  unfold binade
  simp only
  split_ifs with h
  · exact h
  · have hnum : x.num ≠ 0 := Rat.num_ne_zero.mpr hx
    have hn0 : 0 < x.num.natAbs := Int.natAbs_pos.mpr hnum
    have hd0 : 0 < x.den := x.den_pos
    obtain ⟨n1, n2, _⟩ := bit_length_spec x.num.natAbs x.num.natAbs hn0 (le_refl _)
    obtain ⟨_, _, d3⟩ := bit_length_spec x.den x.den hd0 (le_refl _)
    have habs : |x| = (x.num.natAbs : ℚ) / (x.den : ℚ) := by
      conv_lhs => rw [← Rat.num_div_den x]
      rw [abs_div, Nat.abs_cast, Nat.cast_natAbs, Int.cast_abs]
    rw [habs]
    have e : ((bit_length x.num.natAbs x.num.natAbs : Nat) : Int)
          - ((bit_length x.den x.den : Nat) : Int) - 1
        = ((bit_length x.num.natAbs x.num.natAbs - 1 : Nat) : Int)
          - ((bit_length x.den x.den : Nat) : Int) := by
      omega
    rw [e, zpow_sub₀ (by norm_num : (2 : ℚ) ≠ 0), zpow_natCast, zpow_natCast]
    have hq1 : ((2 : ℚ) ^ (bit_length x.num.natAbs x.num.natAbs - 1))
        ≤ (x.num.natAbs : ℚ) := by exact_mod_cast n2
    have hq2 : (x.den : ℚ) ≤ (2 : ℚ) ^ bit_length x.den x.den := by
      exact_mod_cast le_of_lt d3
    have hdq : (0 : ℚ) < (x.den : ℚ) := by exact_mod_cast hd0
    have hpq : (0 : ℚ) < (2 : ℚ) ^ bit_length x.den x.den := by positivity
    rw [div_le_div_iff₀ hpq hdq]
    have hnq : (0 : ℚ) ≤ (x.num.natAbs : ℚ) := by positivity
    have hpn : (0 : ℚ) ≤ (2 : ℚ) ^ (bit_length x.num.natAbs x.num.natAbs - 1) := by positivity
    calc (2 : ℚ) ^ (bit_length x.num.natAbs x.num.natAbs - 1) * (x.den : ℚ)
        ≤ (x.num.natAbs : ℚ) * (x.den : ℚ) := mul_le_mul_of_nonneg_right hq1 (le_of_lt hdq)
      _ ≤ (x.num.natAbs : ℚ) * (2 : ℚ) ^ bit_length x.den x.den :=
          mul_le_mul_of_nonneg_left hq2 hnq

/-- The relative error of the rounding to `double` is at most `2^-53`. -/
theorem fl_err (x : ℚ) : |fl x - x| ≤ |x| / 9007199254740992 := by
  unfold fl
  by_cases hx : x = 0
  · rw [if_pos hx, hx]
    simp
  · rw [if_neg hx]
    have hu : (0 : ℚ) < (2 : ℚ) ^ (binade x - 52) := by positivity
    have hr := roundHalfEven_err (x / (2 : ℚ) ^ (binade x - 52))
    have hb := binade_le x hx
    have e1 : ((roundHalfEven (x / (2 : ℚ) ^ (binade x - 52)) : Int) : ℚ)
          * (2 : ℚ) ^ (binade x - 52) - x
        = (((roundHalfEven (x / (2 : ℚ) ^ (binade x - 52)) : Int) : ℚ)
            - x / (2 : ℚ) ^ (binade x - 52)) * (2 : ℚ) ^ (binade x - 52) := by
      field_simp
    rw [e1, abs_mul, abs_of_pos hu]
    have e2 : (2 : ℚ) ^ (binade x - 52) = (2 : ℚ) ^ binade x / 4503599627370496 := by
      rw [zpow_sub₀ (by norm_num : (2 : ℚ) ≠ 0)]
      norm_num
    calc |((roundHalfEven (x / (2 : ℚ) ^ (binade x - 52)) : Int) : ℚ)
            - x / (2 : ℚ) ^ (binade x - 52)| * (2 : ℚ) ^ (binade x - 52)
        ≤ 1 / 2 * (2 : ℚ) ^ (binade x - 52) := mul_le_mul_of_nonneg_right hr (le_of_lt hu)
      _ = (2 : ℚ) ^ binade x / 9007199254740992 := by rw [e2]; ring
      _ ≤ |x| / 9007199254740992 := by
          apply div_le_div_of_nonneg_right hb
          norm_num

theorem allRxMillis_of_range (obs : gnss_sat) :
    0 ≤ allRxMillis_of obs ∧ allRxMillis_of obs < 18446744073709551616 := by
  unfold allRxMillis_of toU64
  constructor
  · exact Int.emod_nonneg _ (by norm_num)
  · exact Int.emod_lt_of_pos _ (by norm_num)

theorem toU64_sub_eq_zero (a b : Int) (ha0 : 0 ≤ a) (ha1 : a < 18446744073709551616)
    (hb0 : 0 ≤ b) (hb1 : b < 18446744073709551616) : toU64 (a - b) = 0 ↔ a = b := by
  unfold toU64
  omega

theorem process_obs_frame (reg : Registry) (ref obs : gnss_sat) (st : LoopState) :
    (process_obs reg ref obs st).allRxMillis_p = st.allRxMillis_p ∧
    (process_obs reg ref obs st).rnx = st.rnx ∧
    (process_obs reg ref obs st).count = st.count ∧
    (process_obs reg ref obs st).epo_bias = st.epo_bias ∧
    (process_obs reg ref obs st).check_clkdiscp = st.check_clkdiscp := by
  unfold process_obs
  simp only
  split_ifs <;> first
    | exact ⟨rfl, rfl, rfl, rfl, rfl⟩
    | (split <;> exact ⟨rfl, rfl, rfl, rfl, rfl⟩)

theorem available_of_no_system (obs : gnss_sat)
    (h : ¬ (obs.sys = SYS_GPS ∨ obs.sys = SYS_GLO ∨ obs.sys = SYS_GAL ∨ obs.sys = SYS_BDS ∨
      obs.sys = SYS_QZS)) : available obs = false := by
  unfold available
  rw [if_neg (by tauto), if_neg (by tauto), if_neg (by tauto)]

theorem qzs_shift_sys (sat : gnss_sat) :
    (qzs_shift sat).sys = sat.sys ∧ (qzs_shift sat).signal_name = sat.signal_name ∧
    (qzs_shift sat).carrier_frequency_hz = sat.carrier_frequency_hz := by
  unfold qzs_shift
  split_ifs <;> exact ⟨rfl, rfl, rfl⟩

theorem signal_of_table_names (c : Int) (f : ℚ) (s : Int) (x : String) (r : ℚ)
    (h : signal_of c f = some (s, x, r)) : x ∈ table_names (sys_code_function s) := by
  unfold signal_of at h
  split_ifs at h <;> simp at h <;> obtain ⟨rfl, rfl, rfl⟩ := h <;> decide

theorem table_names_length (i : Int) : (table_names i).length ≤ 2 := by
  unfold table_names
  split_ifs <;> simp

theorem classify_pass_row_subset (recs : List gnss_sat) (i : Int) :
    ((classify_pass Registry.init recs).1 i).Nodup ∧
    (classify_pass Registry.init recs).1 i ⊆ table_names i := by
  rw [classify_pass_row]
  constructor
  · exact addAll_nodup _
  · intro x hx
    have hx' : x ∈ addAll [] (row_ids i recs) := hx
    rw [addAll_mem] at hx'
    rcases hx' with h | h
    · simp at h
    · rw [mem_row_ids] at h
      obtain ⟨sat, _, s, res, hs, hi⟩ := h
      rw [← hi]
      exact signal_of_table_names _ _ _ _ _ hs

theorem classify_pass_row_length (recs : List gnss_sat) (i : Int) :
    ((classify_pass Registry.init recs).1 i).length ≤ 2 := by
  obtain ⟨h1, h2⟩ := classify_pass_row_subset recs i
  exact le_trans (List.subperm_of_subset h1 h2).length_le (table_names_length i)

theorem add_signal_arr_new (t t2 : SignalArrays) (sys : Int) (sig : String)
    (hf : find_signal_arr t sys sig = some (-1)) (ha : add_signal_arr t sys sig = some t2) :
    (MAX_FRQ * (sys_code_function sys).toNat + t.nsignals (sys_code_function sys).toNat
        < MAX_SYS * MAX_FRQ ∧ sig.length < 5) ∧
    t2 = { cells := Function.update t.cells
            (MAX_FRQ * (sys_code_function sys).toNat + t.nsignals (sys_code_function sys).toNat)
            sig
           nsignals := Function.update t.nsignals (sys_code_function sys).toNat
            (t.nsignals (sys_code_function sys).toNat + 1) } := by
  unfold add_signal_arr at ha
  rw [hf] at ha
  simp only [ne_eq, not_true_eq_false, if_false] at ha
  by_cases hc : MAX_FRQ * (sys_code_function sys).toNat
      + t.nsignals (sys_code_function sys).toNat < MAX_SYS * MAX_FRQ ∧ sig.length < 5
  · rw [if_pos hc] at ha
    exact ⟨hc, (Option.some.inj ha).symm⟩
  · rw [if_neg hc] at ha
    exact absurd ha (by simp)

theorem arrays_row_after_add (t : SignalArrays) (r : Nat) (sig : String)
    (hb : ∀ q, t.nsignals q ≤ MAX_FRQ) (hr : t.nsignals r < MAX_FRQ) :
    SignalArrays.row
        { cells := Function.update t.cells (MAX_FRQ * r + t.nsignals r) sig
          nsignals := Function.update t.nsignals r (t.nsignals r + 1) } r
      = t.row r ++ [sig] ∧
    ∀ q, q ≠ r →
      SignalArrays.row
          { cells := Function.update t.cells (MAX_FRQ * r + t.nsignals r) sig
            nsignals := Function.update t.nsignals r (t.nsignals r + 1) } q
        = t.row q := by
  constructor
  · unfold SignalArrays.row
    simp only [Function.update_same, List.range_succ, List.map_append, List.map_cons,
      List.map_nil]
    have e1 : (List.range (t.nsignals r)).map
          (fun i => Function.update t.cells (MAX_FRQ * r + t.nsignals r) sig (MAX_FRQ * r + i))
        = (List.range (t.nsignals r)).map (fun i => t.cells (MAX_FRQ * r + i)) := by
      apply List.map_congr_left
      intro i hi
      rw [List.mem_range] at hi
      show Function.update t.cells (MAX_FRQ * r + t.nsignals r) sig (MAX_FRQ * r + i)
        = t.cells (MAX_FRQ * r + i)
      rw [Function.update_noteq (by omega)]
    rw [e1]
  · intro q hq
    unfold SignalArrays.row
    simp only [Function.update_noteq hq]
    apply List.map_congr_left
    intro i hi
    rw [List.mem_range] at hi
    have hq1 := hb q
    show Function.update t.cells (MAX_FRQ * r + t.nsignals r) sig (MAX_FRQ * q + i)
      = t.cells (MAX_FRQ * q + i)
    rw [Function.update_noteq]
    unfold MAX_FRQ at *
    omega

/-- C17 (as stated, refuted). From the zero-initialised arrays, L1C is registered
for GLONASS and five names for GPS. `add_signal` of a sixth GPS name succeeds:
the GPS count becomes 6, the name is written to `signals[0][5]`, which is
`signals[1][0]`, so the first GLONASS name is overwritten and L1C is no longer
found for GLONASS. -/
theorem C17_counterexample_sixth_signal :
    arraysFive.map (fun t => (t.nsignals 0, t.row 0, t.nsignals 1, t.row 1))
      = some (5, ["L1C", "L5Q", "L2X", "L1W", "L2W"], 1, ["L1C"]) ∧
    (arraysFive.bind (fun t => add_signal_arr t SYS_GPS "L7Q")).map
        (fun t => (t.nsignals 0, t.row 0, t.nsignals 1, t.row 1))
      = some (6, ["L1C", "L5Q", "L2X", "L1W", "L2W", "L7Q"], 1, ["L7Q"]) ∧
    (arraysFive.bind (fun t => add_signal_arr t SYS_GPS "L7Q")).bind
        (fun t => find_signal_arr t SYS_GPS "L7Q") = some 5 ∧
    (arraysFive.bind (fun t => find_signal_arr t SYS_GLO "L1C")) = some 0 ∧
    (arraysFive.bind (fun t => add_signal_arr t SYS_GPS "L7Q")).bind
        (fun t => find_signal_arr t SYS_GLO "L1C") = some (-1) := by
  refine ⟨?_, ?_, ?_, ?_, ?_⟩ <;> decide

/-- C17 (amended). `add_signal` has no bound check. On the arrays, a name that
is not found in the row of its constellation is written to the cell
`signals[sys_n][n]`, `n` the count of the row, and the count becomes `n + 1`,
whatever `n` is; no other cell and no other count changes; a name that is found
leaves the arrays unchanged. While every row holds at most `MAX_FRQ` = 5 names
and the row of the constellation fewer than 5, the call appends the name to
that row and leaves every other row as it was, and `add_signal` on lists
describes it; with 5 names in the row the written cell is the first cell of the
next row. The bound holds for the program because of its callers: after the
classification pass over any sequence of records, every row holds at most 2
names. -/
theorem C17_registry_size (recs : List gnss_sat) (i : Int) :
    ((classify_pass Registry.init recs).1 i).length ≤ 2 ∧
    ((classify_pass Registry.init recs).1 i).length ≤ MAX_FRQ ∧
    (∀ (t t2 : SignalArrays) (sys : Int) (sig : String),
      find_signal_arr t sys sig = some (-1) → add_signal_arr t sys sig = some t2 →
      t2.nsignals (sys_code_function sys).toNat
        = t.nsignals (sys_code_function sys).toNat + 1 ∧
      t2.cells (MAX_FRQ * (sys_code_function sys).toNat
        + t.nsignals (sys_code_function sys).toNat) = sig ∧
      (∀ c, c ≠ MAX_FRQ * (sys_code_function sys).toNat
        + t.nsignals (sys_code_function sys).toNat → t2.cells c = t.cells c) ∧
      (∀ q, q ≠ (sys_code_function sys).toNat → t2.nsignals q = t.nsignals q) ∧
      (t.nsignals (sys_code_function sys).toNat = MAX_FRQ →
        t2.cells (MAX_FRQ * ((sys_code_function sys).toNat + 1) + 0) = sig) ∧
      ((∀ q, t.nsignals q ≤ MAX_FRQ) → t.nsignals (sys_code_function sys).toNat < MAX_FRQ →
        t2.row (sys_code_function sys).toNat = t.row (sys_code_function sys).toNat ++ [sig] ∧
        (∀ q, q ≠ (sys_code_function sys).toNat → t2.row q = t.row q) ∧
        t2.toRegistry = add_signal t.toRegistry sys sig)) ∧
    (∀ (t : SignalArrays) (sys : Int) (sig : String) (k : Int),
      find_signal_arr t sys sig = some k → k ≠ -1 → add_signal_arr t sys sig = some t) ∧
    (∀ (reg : Registry) (sys : Int) (sig : String), sig ∈ reg (sys_code_function sys) →
      add_signal reg sys sig = reg) ∧
    SignalArrays.init.toRegistry = Registry.init := by
  have h := classify_pass_row_length recs i
  refine ⟨h, le_trans h (by decide), ?_, ?_, ?_, ?_⟩
  · intro t t2 sys sig hf ha
    obtain ⟨hc, ht2⟩ := add_signal_arr_new t t2 sys sig hf ha
    subst ht2
    refine ⟨?_, ?_, ?_, ?_, ?_, ?_⟩
    · simp only [Function.update_same]
    · simp only [Function.update_same]
    · intro c hcne
      simp only [Function.update_noteq hcne]
    · intro q hq
      simp only [Function.update_noteq hq]
    · intro hn
      have e : MAX_FRQ * ((sys_code_function sys).toNat + 1) + 0
          = MAX_FRQ * (sys_code_function sys).toNat
            + t.nsignals (sys_code_function sys).toNat := by
        rw [hn]
        ring
      rw [e]
      simp only [Function.update_same]
    · intro hb hr
      obtain ⟨r1, r2⟩ := arrays_row_after_add t (sys_code_function sys).toNat sig hb hr
      refine ⟨r1, r2, ?_⟩
      have hs0 : 0 ≤ sys_code_function sys := by
        unfold find_signal_arr at hf
        by_contra hneg
        rw [if_neg (fun hx => hneg hx.1)] at hf
        exact absurd hf (by simp)
      have hfl : find_signal t.toRegistry sys sig = -1 := by
        unfold find_signal_arr at hf
        by_cases hcond : 0 ≤ sys_code_function sys ∧
            MAX_FRQ * (sys_code_function sys).toNat
              + t.nsignals (sys_code_function sys).toNat ≤ MAX_SYS * MAX_FRQ
        · rw [if_pos hcond] at hf
          unfold find_signal SignalArrays.toRegistry
          rw [if_pos hs0]
          exact Option.some.inj hf
        · rw [if_neg hcond] at hf
          exact absurd hf (by simp)
      funext j
      unfold add_signal
      rw [if_neg (by rw [hfl]; simp)]
      by_cases hj : j = sys_code_function sys
      · subst hj
        rw [Function.update_same]
        unfold SignalArrays.toRegistry
        rw [if_pos hs0, if_pos hs0]
        exact r1
      · rw [Function.update_noteq hj]
        unfold SignalArrays.toRegistry
        by_cases hj0 : 0 ≤ j
        · rw [if_pos hj0, if_pos hj0]
          apply r2
          intro hq
          apply hj
          omega
        · rw [if_neg hj0, if_neg hj0]
  · intro t sys sig k hf hk
    unfold add_signal_arr
    rw [hf]
    simp only [ne_eq, hk, not_false_eq_true, if_true]
  · intro reg sys sig hm
    unfold add_signal
    rw [if_pos ((find_signal_ne_iff reg sys sig).mpr hm)]
  · funext j
    unfold SignalArrays.toRegistry SignalArrays.row SignalArrays.init Registry.init
    split_ifs <;> simp

/-! ## C18: the header lines of the observation types -/

theorem nodup_subset_pair (a b : String) (l : List String) (hn : l.Nodup)
    (hs : l ⊆ [a, b]) : l = [] ∨ l = [a] ∨ l = [b] ∨ l = [a, b] ∨ l = [b, a] := by
  match l, hn, hs with
  | [], _, _ => exact Or.inl rfl
  | [x], _, hs =>
    have hx : x ∈ [a, b] := hs (List.mem_singleton_self x)
    simp only [List.mem_cons, List.mem_singleton, List.not_mem_nil, or_false] at hx
    rcases hx with rfl | rfl
    · exact Or.inr (Or.inl rfl)
    · exact Or.inr (Or.inr (Or.inl rfl))
  | [x, y], hn, hs =>
    have hx : x ∈ [a, b] := hs (by simp)
    have hy : y ∈ [a, b] := hs (by simp)
    have hxy : x ≠ y := by
      intro h
      simp [h] at hn
    simp only [List.mem_cons, List.mem_singleton, List.not_mem_nil, or_false] at hx hy
    rcases hx with rfl | rfl <;> rcases hy with rfl | rfl
    · exact absurd rfl hxy
    · exact Or.inr (Or.inr (Or.inr (Or.inl rfl)))
    · exact Or.inr (Or.inr (Or.inr (Or.inr rfl)))
    · exact absurd rfl hxy
  | x :: y :: z :: t, hn, hs =>
    have h1 : (x :: y :: z :: t).length ≤ [a, b].length :=
      (List.subperm_of_subset hn hs).length_le
    simp at h1

theorem header_sys_line_row (reg : Registry) (i : Nat) :
    header_sys_line reg i = header_sys_line (fun _ => reg i) i := rfl

theorem header_sys_line_table (i : Nat) (hi : i < 5) (row : List String)
    (hn : row.Nodup) (hs : row ⊆ table_names i) :
    header_sys_line (fun _ => row) i
      = if row = [] then [] else [spec_sys_line (sys_code.getD i ' ') row] := by
  have hcases : ∃ a b, table_names i ⊆ [a, b] ∧
      ∀ r : List String, (r = [] ∨ r = [a] ∨ r = [b] ∨ r = [a, b] ∨ r = [b, a]) →
        header_sys_line (fun _ => r) i
          = if r = [] then [] else [spec_sys_line (sys_code.getD i ' ') r] := by
    interval_cases i
    · refine ⟨"L1C", "L5Q", by decide, ?_⟩
      rintro r (rfl | rfl | rfl | rfl | rfl) <;> decide
    · refine ⟨"L1C", "L1C", by decide, ?_⟩
      rintro r (rfl | rfl | rfl | rfl | rfl) <;> decide
    · refine ⟨"L1C", "L5X", by decide, ?_⟩
      rintro r (rfl | rfl | rfl | rfl | rfl) <;> decide
    · refine ⟨"L2I", "L5P", by decide, ?_⟩
      rintro r (rfl | rfl | rfl | rfl | rfl) <;> decide
    · refine ⟨"L1C", "L5Q", by decide, ?_⟩
      rintro r (rfl | rfl | rfl | rfl | rfl) <;> decide
  obtain ⟨a, b, hab, h⟩ := hcases
  exact h row (nodup_subset_pair a b row hn (fun x hx => hab (hs hx)))

theorem flatMap_filter_map {α β : Type} (f : α → List β) (g : α → β) (p : α → Bool) :
    ∀ l : List α, (∀ x ∈ l, f x = if p x then [g x] else []) →
      l.flatMap f = (l.filter p).map g := by
  intro l
  induction l with
  | nil => intro _; rfl
  | cons x t ih =>
    intro h
    rw [List.flatMap_cons, h x (List.mem_cons_self x t),
      ih (fun y hy => h y (List.mem_cons_of_mem x hy))]
    by_cases hp : p x = true
    · rw [if_pos hp, List.filter_cons_of_pos hp]; rfl
    · rw [if_neg hp, List.filter_cons_of_neg hp]; rfl

/-- C18. For the registry produced by the classification pass over any sequence
of records, the header consists of the four fixed lines, then one
`SYS / # / OBS TYPES` line for every constellation row that holds at least one
signal and none for an empty row, in the order of the rows 0..4 whose code
characters are G, R, E, C, J, then the END OF HEADER line. The line of a row
gives the constellation character, the count 4 × (number of signals) and, for
every signal in registry order, the codes C, L, D, S each followed by the band
and tracking code of the signal. -/
theorem C18_header_obs_types (recs : List gnss_sat) :
    print_rnx_header (classify_pass Registry.init recs).1
      = spec_header (classify_pass Registry.init recs).1 ∧
    print_rnx_header (classify_pass Registry.init recs).1
      = [RNX_VER, RNX_PGM, RNX_APP, RNX_ANT] ++
        ((List.range 5).filter
            (fun i : Nat => decide ((classify_pass Registry.init recs).1 (i : Int) ≠ []))).map
          (fun i => spec_sys_line (sys_code.getD i ' ')
            ((classify_pass Registry.init recs).1 i)) ++ [RNX_END] ∧
    (List.range 5).map (fun i => sys_code.getD i ' ') = ['G', 'R', 'E', 'C', 'J'] ∧
    spec_obs_types "L1C" = " C1C L1C D1C S1C" ∧
    spec_sys_line 'G' ["L1C", "L5Q"] =
      "G    8 C1C L1C D1C S1C C5Q L5Q D5Q S5Q                      SYS / # / OBS TYPES " := by
  have key : print_rnx_header (classify_pass Registry.init recs).1
      = spec_header (classify_pass Registry.init recs).1 := by
    unfold print_rnx_header spec_header
    congr 2
    apply flatMap_filter_map
    intro i hi
    rw [List.mem_range] at hi
    obtain ⟨hn, hs⟩ := classify_pass_row_subset recs (i : Int)
    rw [header_sys_line_row, header_sys_line_table i hi _ hn hs]
    by_cases he : (classify_pass Registry.init recs).1 (i : Int) = []
    · simp [he]
    · simp [he]
  exact ⟨key, key, by decide, by decide, by decide⟩

/-! ## C20: the guard of the Galileo 4 ms check -/

theorem unchanged_outside_p01_refl (c : rnx_sat) : unchanged_outside_p01 c c :=
  ⟨rfl, rfl, rfl, rfl, rfl, rfl, fun _ _ => rfl⟩

theorem unchanged_outside_p01_trans (a b c : rnx_sat) (h1 : unchanged_outside_p01 a b)
    (h2 : unchanged_outside_p01 b c) : unchanged_outside_p01 a c := by
  obtain ⟨a1, a2, a3, a4, a5, a6, a7⟩ := h1
  obtain ⟨b1, b2, b3, b4, b5, b6, b7⟩ := h2
  exact ⟨b1.trans a1, b2.trans a2, b3.trans a3, b4.trans a4, b5.trans a5, b6.trans a6,
    fun frq hf => (b7 frq hf).trans (a7 frq hf)⟩

theorem gal_fix_slot_frame (frq : Nat) (hf : frq < 2) (cur pre : rnx_sat) :
    unchanged_outside_p01 cur (gal_fix_slot frq cur pre) := by
  unfold gal_fix_slot
  split_ifs
  all_goals first
    | exact unchanged_outside_p01_refl cur
    | (refine ⟨rfl, rfl, rfl, rfl, rfl, rfl, ?_⟩
       intro k hk
       have hne : k ≠ frq := by omega
       simp [Function.update, hne])

theorem gal_fix_sat_frame (pre : List rnx_sat) : ∀ cur : rnx_sat,
    unchanged_outside_p01 cur (gal_fix_sat pre cur) := by
  induction pre with
  | nil => intro cur; exact unchanged_outside_p01_refl cur
  | cons q rest ih =>
    intro cur
    unfold gal_fix_sat
    rw [List.foldl_cons]
    have h := ih (if cur.prn = q.prn then gal_fix_slot 1 (gal_fix_slot 0 cur q) q else cur)
    unfold gal_fix_sat at h
    refine unchanged_outside_p01_trans _ _ _ ?_ h
    split_ifs
    · exact unchanged_outside_p01_trans _ _ _ (gal_fix_slot_frame 0 (by decide) cur q)
        (gal_fix_slot_frame 1 (by decide) _ q)
    · exact unchanged_outside_p01_refl cur

theorem forall₂_map_of {α : Type} (R : α → α → Prop) (f : α → α) (hf : ∀ x, R x (f x)) :
    ∀ l : List α, List.Forall₂ R l (l.map f) := by
  intro l
  induction l with
  | nil => exact List.Forall₂.nil
  | cons x t ih => exact List.Forall₂.cons (hf x) ih

theorem gal_fix_frame (repoch pre : rnx_epoch) :
    (gal_fix repoch pre).sv = repoch.sv ∧ (gal_fix repoch pre).time = repoch.time ∧
    List.Forall₂ (fun c c2 => unchanged_outside_p01 c c2 ∧ (c.sys ≠ SYS_GAL → c2 = c))
      repoch.sats (gal_fix repoch pre).sats := by
  refine ⟨rfl, rfl, ?_⟩
  unfold gal_fix
  show List.Forall₂ _ repoch.sats (_ ++ _)
  conv_lhs => rw [← List.take_append_drop repoch.sv.toNat repoch.sats]
  apply List.rel_append
  · apply forall₂_map_of
    intro c
    split_ifs with h
    · exact ⟨gal_fix_sat_frame _ c, fun hc => absurd h hc⟩
    · exact ⟨unchanged_outside_p01_refl c, fun _ => rfl⟩
  · have h := forall₂_map_of
      (fun c c2 : rnx_sat => unchanged_outside_p01 c c2 ∧ (c.sys ≠ SYS_GAL → c2 = c)) id
      (fun c => ⟨unchanged_outside_p01_refl c, fun _ => rfl⟩)
      (repoch.sats.drop repoch.sv.toNat)
    rwa [List.map_id] at h

/-- C20 (code disagrees). The check changes nothing but the pseudoranges of
slots 0 and 1 of Galileo satellites: `gal_fix` keeps the time and the count of
the epoch, every satellite keeps its constellation, PRN, phases, Dopplers,
strengths, LLI and the pseudoranges of slots 2 and up, and a satellite that is
not Galileo is unchanged. The guard differs from the stated one in two ways.
Time: in `logGapFiveSeconds` the epochs are at 07:06:45, 07:06:50 and 07:06:51;
the Galileo pseudorange of the second epoch, 0.074 × c when that epoch is the
last of the log, is moved to 0.070 × c although the preceding epoch is 5 s
earlier, because the test compares the epoch being closed with the record that
follows it; in `logNextLate` the epochs at 07:06:45 and 07:06:46 are 1 s apart
and the pseudorange of the second stays at 0.074 × c because the next record is
5 s later. Constellation: in `logGpsThenGalileo` the preceding epoch holds only
GPS satellite 5, and the pseudorange of Galileo satellite 5 is moved from
0.074 × c to 0.070 × c. -/
theorem C20_galileo_guard :
    (∀ repoch pre : rnx_epoch,
      (gal_fix repoch pre).sv = repoch.sv ∧ (gal_fix repoch pre).time = repoch.time ∧
      List.Forall₂ (fun c c2 => unchanged_outside_p01 c c2 ∧ (c.sys ≠ SYS_GAL → c2 = c))
        repoch.sats (gal_fix repoch pre).sats) ∧
    ((convert logGapFiveSeconds).2.map (fun e => (e.time, e.sv,
        e.sats.map (fun s => (s.sys, s.prn, s.p 0))))
      = [(⟨2021, 3, 17, 7, 6, 45⟩, 1, [(SYS_GAL, 5, 70 / 1000 * CLIGHT)]),
         (⟨2021, 3, 17, 7, 6, 50⟩, 1, [(SYS_GAL, 5, 70 / 1000 * CLIGHT)]),
         (⟨2021, 3, 17, 7, 6, 51⟩, 1, [(SYS_GPS, 1, 70 / 1000 * CLIGHT)])]) ∧
    ((convert (logGapFiveSeconds.take 2)).2.map (fun e => (e.time, e.sv,
        e.sats.map (fun s => (s.sys, s.prn, s.p 0))))
      = [(⟨2021, 3, 17, 7, 6, 45⟩, 1, [(SYS_GAL, 5, 70 / 1000 * CLIGHT)]),
         (⟨2021, 3, 17, 7, 6, 50⟩, 1, [(SYS_GAL, 5, 74 / 1000 * CLIGHT)])]) ∧
    ((convert logNextLate).2.map (fun e => (e.time, e.sv,
        (e.sats.filter (fun s => decide (s.sys = SYS_GAL))).map
          (fun s => (s.sys, s.prn, s.p 0))))
      = [(⟨2021, 3, 17, 7, 6, 45⟩, 5, [(SYS_GAL, 5, 70 / 1000 * CLIGHT)]),
         (⟨2021, 3, 17, 7, 6, 46⟩, 5, [(SYS_GAL, 5, 74 / 1000 * CLIGHT)]),
         (⟨2021, 3, 17, 7, 6, 51⟩, 1, [])]) ∧
    ((convert logGpsThenGalileo).2.map (fun e => (e.time, e.sv,
        e.sats.map (fun s => (s.sys, s.prn, s.p 0))))
      = [(⟨2021, 3, 17, 7, 6, 45⟩, 1, [(SYS_GPS, 5, 70 / 1000 * CLIGHT)]),
         (⟨2021, 3, 17, 7, 6, 46⟩, 1, [(SYS_GAL, 5, 70 / 1000 * CLIGHT)]),
         (⟨2021, 3, 17, 7, 6, 47⟩, 1, [(SYS_GPS, 1, 70 / 1000 * CLIGHT)])]) ∧
    ((convert (logGpsThenGalileo.take 2)).2.map (fun e => (e.time, e.sv,
        e.sats.map (fun s => (s.sys, s.prn, s.p 0))))
      = [(⟨2021, 3, 17, 7, 6, 45⟩, 1, [(SYS_GPS, 5, 70 / 1000 * CLIGHT)]),
         (⟨2021, 3, 17, 7, 6, 46⟩, 1, [(SYS_GAL, 5, 74 / 1000 * CLIGHT)])]) ∧
    (print_file (convert logGpsThenGalileo).1 (convert logGpsThenGalileo).2).drop 7 =
      ["> 2021 03 17 07 06 45.0000000  0  1",
       "G05  20985472.060       5255.0350      -525.504          40.000  ",
       "> 2021 03 17 07 06 46.0000000  0  1",
       "E05  20985472.060       5255.0350      -525.504          40.000  ",
       "> 2021 03 17 07 06 47.0000000  0  1",
       "G01  20985472.060       5255.0350      -525.504          40.000  "] := by
  refine ⟨gal_fix_frame, ?_, ?_, ?_, ?_, ?_, ?_⟩ <;> decide!

/-! ## C23: range of the seconds field -/

theorem step_eq (reg : Registry) (recs : List gnss_sat) (st : LoopState) (obs : gnss_sat) :
    step reg recs st obs
      = process_obs reg
          (recs.getD (close_epoch { st with count := st.count + 1 } obs).epo_bias.toNat default)
          obs (close_epoch { st with count := st.count + 1 } obs) := rfl

/-- C22. A record whose signal name is not registered for its system, or whose
system is none of the five system codes (in particular a record that the
classification pass left without system and name), or whose pseudorange-rate
uncertainty is above `MAXPRRUNCMPS` = 10, or whose received-time uncertainty is
above `MAXTOWUNCNS` = 500, or that is a GLONASS record with PRN above 80, leaves
the satellite list (hence every observable and LLI slot), the satellite count
and the closed epochs as they were, and the loop goes on with the next record.
A record whose uncertainties are at most the ceilings, equality included, and
that passes the other tests is stored. In `logWithDiscards` the four discarded
records change nothing of the epoch built from the first record. -/
theorem C22_discard_frame (reg : Registry) (recs : List gnss_sat) (ref obs : gnss_sat)
    (st : LoopState) :
    ((find_signal reg obs.sys obs.signal_name = -1 ∨
        ¬ (obs.sys = SYS_GPS ∨ obs.sys = SYS_GLO ∨ obs.sys = SYS_GAL ∨ obs.sys = SYS_BDS ∨
          obs.sys = SYS_QZS) ∨
        obs.pseudorange_rate_uncertainty_meter_per_second > MAXPRRUNCMPS ∨
        obs.received_sv_time_uncertainty_nano > MAXTOWUNCNS ∨
        (obs.sys = SYS_GLO ∧ obs.svid > 80)) →
      ((process_obs reg ref obs st).repoch.sats = st.repoch.sats ∧
        (process_obs reg ref obs st).repoch.sv = st.repoch.sv ∧
        (process_obs reg ref obs st).rnx = st.rnx) ∧
      ((step reg recs st obs).repoch.sats
          = (close_epoch { st with count := st.count + 1 } obs).repoch.sats ∧
        (step reg recs st obs).repoch.sv
          = (close_epoch { st with count := st.count + 1 } obs).repoch.sv ∧
        (step reg recs st obs).rnx
          = (close_epoch { st with count := st.count + 1 } obs).rnx)) ∧
    (∀ (reg0 : Registry) (raw : gnss_sat),
      signal_of raw.constellation_type raw.carrier_frequency_hz = none →
      ¬ (raw.sys = SYS_GPS ∨ raw.sys = SYS_GLO ∨ raw.sys = SYS_GAL ∨ raw.sys = SYS_BDS ∨
        raw.sys = SYS_QZS) →
      (classify (reg0, raw)).1 = reg0 ∧
      (process_obs reg ref (classify (reg0, raw)).2 st).repoch.sats = st.repoch.sats ∧
      (process_obs reg ref (classify (reg0, raw)).2 st).repoch.sv = st.repoch.sv ∧
      (process_obs reg ref (classify (reg0, raw)).2 st).rnx = st.rnx) ∧
    (∀ (pre rest : List gnss_sat) (s0 : LoopState),
      (pre ++ obs :: rest).foldl (step reg recs) s0
        = rest.foldl (step reg recs) (step reg recs (pre.foldl (step reg recs) s0) obs)) ∧
    (MAXPRRUNCMPS = 10 ∧ MAXTOWUNCNS = 500) ∧
    (obs.pseudorange_rate_uncertainty_meter_per_second ≤ MAXPRRUNCMPS →
      obs.received_sv_time_uncertainty_nano ≤ MAXTOWUNCNS →
      available obs = true →
      find_signal reg obs.sys obs.signal_name ≠ -1 →
      0 ≤ (rollover obs.sys (pr_second_raw ref obs)).1 →
      (rollover obs.sys (pr_second_raw ref obs)).1 ≤ 1 / 2 →
      ¬ (obs.sys = SYS_GLO ∧ obs.svid > 80) →
      (process_obs reg ref obs st).repoch.sats = stored_sats reg ref obs st) ∧
    ((convert [uncertainRecord 10 500]).2.map (fun e => (e.sv, e.sats.map sat_summary))
        = [(1, [[1, 1, 70 / 1000 * CLIGHT, 1000 / (CLIGHT / 1575420000),
              -100 / (CLIGHT / 1575420000), 40, 0, 0, 0, 0, 0, 0]])] ∧
      (convert [uncertainRecord (10 + 1 / 1000) 500]).2.map
          (fun e => (e.sv, e.sats.map sat_summary)) = [(0, [])] ∧
      (convert [uncertainRecord 10 501]).2.map
          (fun e => (e.sv, e.sats.map sat_summary)) = [(0, [])]) ∧
    ((convert logWithDiscards).2.map (fun e => (e.sv, e.sats.map sat_summary))
      = (convert (logWithDiscards.take 1)).2.map (fun e => (e.sv, e.sats.map sat_summary)) ∧
      (convert logWithDiscards).2.map (fun e => e.sv) = [1]) := by
  refine ⟨?_, ?_, ?_, ⟨rfl, rfl⟩, ?_, ⟨?_, ?_, ?_⟩, ⟨?_, ?_⟩⟩
  · intro h
    have hr : ∀ (r : gnss_sat) (s : LoopState),
        (process_obs reg r obs s).repoch.sats = s.repoch.sats ∧
        (process_obs reg r obs s).repoch.sv = s.repoch.sv ∧
        (process_obs reg r obs s).rnx = s.rnx := by
      intro r s
      apply process_obs_reject
      rcases h with h | h | h | h | h
      · exact Or.inr (Or.inr (Or.inr (Or.inl h)))
      · exact Or.inl (available_of_no_system obs h)
      · exact Or.inr (Or.inl h)
      · exact Or.inr (Or.inr (Or.inl h))
      · exact Or.inr (Or.inr (Or.inr (Or.inr (Or.inr (Or.inr h)))))
    refine ⟨hr ref st, ?_⟩
    rw [step_eq]
    exact hr _ _
  · intro reg0 raw hs hn
    have hc : classify (reg0, raw) = (reg0, qzs_shift raw) := by
      rw [classify_eq_signal_of, hs]
    rw [hc]
    refine ⟨rfl, ?_⟩
    apply process_obs_reject
    left
    apply available_of_no_system
    show ¬ ((qzs_shift raw).sys = SYS_GPS ∨ (qzs_shift raw).sys = SYS_GLO ∨
      (qzs_shift raw).sys = SYS_GAL ∨ (qzs_shift raw).sys = SYS_BDS ∨
      (qzs_shift raw).sys = SYS_QZS)
    rw [(qzs_shift_sys raw).1]
    exact hn
  · intro pre rest s0
    rw [List.foldl_append, List.foldl_cons]
  · intro hprr htow hav hfrq h0 h1 hglo
    exact process_obs_accept reg ref obs st hav (not_lt.mpr hprr) (not_lt.mpr htow) hfrq h0 h1
      hglo
  all_goals decide!

/-! ## C21: the index of the reference record -/

theorem last_index_le (P : Nat → Bool) : ∀ n, last_index P n ≤ n := by
  intro n
  induction n with
  | zero => exact Nat.le_refl 0
  | succ k ih =>
    unfold last_index
    split_ifs
    · exact Nat.le_refl _
    · exact Nat.le_succ_of_le ih

theorem last_index_spec (P : Nat → Bool) : ∀ n,
    (last_index P n = 0 ∨ P (last_index P n) = true) ∧
    ∀ i, last_index P n < i → i ≤ n → P i = false := by
  intro n
  induction n with
  | zero =>
    refine ⟨Or.inl rfl, ?_⟩
    intro i h1 h2
    have h3 : last_index P 0 = 0 := rfl
    omega
  | succ k ih =>
    by_cases hp : P (k + 1) = true
    · have e : last_index P (k + 1) = k + 1 := by
        rw [last_index, if_pos hp]
      rw [e]
      refine ⟨Or.inr hp, ?_⟩
      intro i h1 h2
      omega
    · have e : last_index P (k + 1) = last_index P k := by
        rw [last_index, if_neg hp]
      rw [e]
      refine ⟨ih.1, ?_⟩
      intro i h1 h2
      by_cases hi : i = k + 1
      · rw [hi]
        exact Bool.eq_false_iff.mpr hp
      · exact ih.2 i h1 (by omega)

theorem loop_upto_succ (reg : Registry) (recs : List gnss_sat) (n : Nat)
    (hn : n < recs.length) :
    loop_upto reg recs (n + 1)
      = step reg recs (loop_upto reg recs n) (recs.getD n default) := by
  unfold loop_upto
  rw [List.take_succ, List.foldl_append, List.getD_eq_getElem _ _ hn,
    List.getElem?_eq_getElem hn]
  rfl

theorem close_epoch_anchor (st : LoopState) (obs : gnss_sat) (h : Int)
    (hp : 0 ≤ st.allRxMillis_p ∧ st.allRxMillis_p < 18446744073709551616)
    (hc : st.check_clkdiscp = (h : ℚ)) :
    (allRxMillis_of obs = st.allRxMillis_p → close_epoch st obs = st) ∧
    (allRxMillis_of obs ≠ st.allRxMillis_p →
      (close_epoch st obs).allRxMillis_p = allRxMillis_of obs ∧
      (close_epoch st obs).count = st.count ∧
      (obs.hardware_clock_discountinuity_count ≠ h →
        (close_epoch st obs).check_clkdiscp = (obs.hardware_clock_discountinuity_count : ℚ) ∧
        (close_epoch st obs).epo_bias = st.count) ∧
      (obs.hardware_clock_discountinuity_count = h →
        (close_epoch st obs).check_clkdiscp = st.check_clkdiscp ∧
        (close_epoch st obs).epo_bias = st.epo_bias)) := by
  have hobs := allRxMillis_of_range obs
  have hz := toU64_sub_eq_zero _ _ hobs.1 hobs.2 hp.1 hp.2
  constructor
  · intro he
    exact close_epoch_same st obs (hz.mpr he)
  · intro hne
    have hb : toU64 (allRxMillis_of obs - st.allRxMillis_p) ≠ 0 := fun h0 => hne (hz.mp h0)
    have hcount := (close_epoch_new st obs hb).2.2.2.1
    have hms := (close_epoch_new st obs hb).2.2.1
    have hd : ∀ c : Prop, [Decidable c] →
        (|(obs.hardware_clock_discountinuity_count : ℚ) - st.check_clkdiscp| > NEAR_ZERO ↔ c) →
        (close_epoch st obs).check_clkdiscp
          = (if c then (obs.hardware_clock_discountinuity_count : ℚ) else st.check_clkdiscp) ∧
        (close_epoch st obs).epo_bias = (if c then st.count else st.epo_bias) := by
      intro c _ hiff
      unfold close_epoch
      simp only
      rw [if_pos ((near_zero_iff _).mpr hb)]
      by_cases hcc : c
      · simp only [if_pos (hiff.mpr hcc), if_pos hcc, and_self]
      · simp only [if_neg (fun hx => hcc (hiff.mp hx)), if_neg hcc, and_self]
    have hiff : |(obs.hardware_clock_discountinuity_count : ℚ) - st.check_clkdiscp| > NEAR_ZERO
        ↔ obs.hardware_clock_discountinuity_count ≠ h := by
      rw [hc, ← Int.cast_sub, near_zero_iff]
      omega
    have hd2 := hd _ hiff
    refine ⟨hms, hcount, ?_, ?_⟩
    · intro hx
      rw [hd2.1, hd2.2, if_pos hx, if_pos hx]
      exact ⟨rfl, rfl⟩
    · intro hx
      rw [hd2.1, hd2.2, if_neg (not_not.mpr hx), if_neg (not_not.mpr hx)]
      exact ⟨rfl, rfl⟩

theorem step_anchor_fields (reg : Registry) (recs : List gnss_sat) (st : LoopState)
    (obs : gnss_sat) :
    (step reg recs st obs).allRxMillis_p
      = (close_epoch { st with count := st.count + 1 } obs).allRxMillis_p ∧
    (step reg recs st obs).count
      = (close_epoch { st with count := st.count + 1 } obs).count ∧
    (step reg recs st obs).epo_bias
      = (close_epoch { st with count := st.count + 1 } obs).epo_bias ∧
    (step reg recs st obs).check_clkdiscp
      = (close_epoch { st with count := st.count + 1 } obs).check_clkdiscp := by
  rw [step_eq]
  have h := process_obs_frame reg
    (recs.getD (close_epoch { st with count := st.count + 1 } obs).epo_bias.toNat default) obs
    (close_epoch { st with count := st.count + 1 } obs)
  exact ⟨h.1, h.2.2.1, h.2.2.2.1, h.2.2.2.2⟩

theorem spec_epoch_start_succ (recs : List gnss_sat) (n : Nat) :
    spec_epoch_start recs (n + 1) = true ↔
      allRxMillis_of (recs.getD (n + 1) default) ≠ allRxMillis_of (recs.getD n default) := by
  unfold spec_epoch_start
  simp

theorem spec_reanchor_succ (recs : List gnss_sat) (n : Nat) :
    spec_reanchor recs (n + 1) = true ↔
      spec_epoch_start recs (n + 1) = true ∧
      (recs.getD (n + 1) default).hardware_clock_discountinuity_count
        ≠ (recs.getD (spec_epoch_first recs n) default).hardware_clock_discountinuity_count := by
  unfold spec_reanchor
  simp

theorem reanchor_inv (reg : Registry) (recs : List gnss_sat) : ∀ n, n < recs.length →
    (loop_upto reg recs (n + 1)).count = n ∧
    (loop_upto reg recs (n + 1)).allRxMillis_p = allRxMillis_of (recs.getD n default) ∧
    (loop_upto reg recs (n + 1)).check_clkdiscp
      = ((recs.getD (spec_epoch_first recs n) default).hardware_clock_discountinuity_count : ℚ) ∧
    (loop_upto reg recs (n + 1)).epo_bias = spec_epo_bias recs n := by
  intro n
  induction n with
  | zero =>
    intro hn
    rw [loop_upto_succ reg recs 0 hn]
    have h0 : loop_upto reg recs 0 = LoopState.init recs := rfl
    rw [h0]
    have hhead : recs.headD default = recs.getD 0 default := by
      cases recs with
      | nil => rfl
      | cons a t => rfl
    obtain ⟨f1, f2, f3, f4⟩ := step_anchor_fields reg recs (LoopState.init recs)
      (recs.getD 0 default)
    have hsame : close_epoch { LoopState.init recs with count := (LoopState.init recs).count + 1 }
        (recs.getD 0 default)
        = { LoopState.init recs with count := (LoopState.init recs).count + 1 } := by
      apply close_epoch_same
      show toU64 (allRxMillis_of (recs.getD 0 default)
        - allRxMillis_of (recs.headD default)) = 0
      rw [hhead, sub_self]
      rfl
    rw [f1, f2, f3, f4, hsame]
    refine ⟨rfl, ?_, ?_, rfl⟩
    · show allRxMillis_of (recs.headD default) = _
      rw [hhead]
    · show ((recs.headD default).hardware_clock_discountinuity_count : ℚ) = _
      rw [hhead]
      rfl
  | succ k ih =>
    intro hn
    obtain ⟨i1, i2, i3, i4⟩ := ih (by omega)
    rw [loop_upto_succ reg recs (k + 1) hn]
    obtain ⟨f1, f2, f3, f4⟩ := step_anchor_fields reg recs (loop_upto reg recs (k + 1))
      (recs.getD (k + 1) default)
    rw [f1, f2, f3, f4]
    have hp : 0 ≤ (loop_upto reg recs (k + 1)).allRxMillis_p ∧
        (loop_upto reg recs (k + 1)).allRxMillis_p < 18446744073709551616 := by
      rw [i2]
      exact allRxMillis_of_range _
    have ha := close_epoch_anchor
      { loop_upto reg recs (k + 1) with count := (loop_upto reg recs (k + 1)).count + 1 }
      (recs.getD (k + 1) default)
      (recs.getD (spec_epoch_first recs k) default).hardware_clock_discountinuity_count hp i3
    by_cases hs : allRxMillis_of (recs.getD (k + 1) default)
        = allRxMillis_of (recs.getD k default)
    · have hstart : ¬ spec_epoch_start recs (k + 1) = true := by
        rw [spec_epoch_start_succ]
        exact not_not.mpr hs
      have hre : ¬ spec_reanchor recs (k + 1) = true := by
        rw [spec_reanchor_succ]
        exact fun hx => hstart hx.1
      have e1 : spec_epoch_first recs (k + 1) = spec_epoch_first recs k := by
        unfold spec_epoch_first
        rw [last_index, if_neg hstart]
      have e2 : spec_epo_bias recs (k + 1) = spec_epo_bias recs k := by
        unfold spec_epo_bias
        rw [last_index, if_neg hre]
      rw [ha.1 (by rw [hs]; exact i2.symm), e1, e2]
      refine ⟨?_, ?_, i3, i4⟩
      · show (loop_upto reg recs (k + 1)).count + 1 = _
        rw [i1]
        push_cast
        rfl
      · show (loop_upto reg recs (k + 1)).allRxMillis_p = _
        rw [i2, hs]
    · have hstart : spec_epoch_start recs (k + 1) = true :=
        (spec_epoch_start_succ recs k).mpr hs
      have e1 : spec_epoch_first recs (k + 1) = k + 1 := by
        unfold spec_epoch_first
        rw [last_index, if_pos hstart]
      have hne : allRxMillis_of (recs.getD (k + 1) default)
          ≠ (loop_upto reg recs (k + 1)).allRxMillis_p := by
        rw [i2]
        exact hs
      obtain ⟨g1, g2, g3, g4⟩ := ha.2 hne
      have hcount : (loop_upto reg recs (k + 1)).count + 1 = ((k + 1 : Nat) : Int) := by
        rw [i1]
        push_cast
        rfl
      rw [g1, g2, e1]
      refine ⟨hcount, rfl, ?_⟩
      by_cases hh : (recs.getD (k + 1) default).hardware_clock_discountinuity_count
          = (recs.getD (spec_epoch_first recs k) default).hardware_clock_discountinuity_count
      · have hre : ¬ spec_reanchor recs (k + 1) = true := by
          rw [spec_reanchor_succ]
          exact fun hx => hx.2 hh
        have e2 : spec_epo_bias recs (k + 1) = spec_epo_bias recs k := by
          unfold spec_epo_bias
          rw [last_index, if_neg hre]
        rw [(g4 hh).1, (g4 hh).2, e2]
        refine ⟨?_, i4⟩
        show (loop_upto reg recs (k + 1)).check_clkdiscp = _
        rw [i3, hh]
      · have hre : spec_reanchor recs (k + 1) = true :=
          (spec_reanchor_succ recs k).mpr ⟨hstart, hh⟩
        have e2 : spec_epo_bias recs (k + 1) = k + 1 := by
          unfold spec_epo_bias
          rw [last_index, if_pos hre]
        rw [(g3 hh).1, (g3 hh).2, e2]
        exact ⟨rfl, hcount⟩

/-- C21. When record `n` of the log has been processed, `count` is `n` and
`epo_bias` is an index of the log with `0 ≤ epo_bias ≤ n`; it is the index that
the specification describes (`spec_epo_bias`): the largest `i ≤ n` such that
record `i` is the first record of an epoch and its hardware-clock-discontinuity
count differs from that of the first record of the preceding epoch, or 0 when
there is no such `i`. The record at that index is the reference with which
record `n` is processed. A record that is not the first of its epoch leaves
`epo_bias` as it was, whatever its count. -/
theorem C21_reference_reanchoring (reg : Registry) (recs : List gnss_sat) (n : Nat)
    (hn : n < recs.length) :
    (loop_upto reg recs (n + 1)).count = n ∧
    0 ≤ (loop_upto reg recs (n + 1)).epo_bias ∧
    (loop_upto reg recs (n + 1)).epo_bias ≤ n ∧
    (loop_upto reg recs (n + 1)).epo_bias < recs.length ∧
    (loop_upto reg recs (n + 1)).epo_bias = spec_epo_bias recs n ∧
    loop_upto reg recs (n + 1)
      = process_obs reg (recs.getD (spec_epo_bias recs n) default) (recs.getD n default)
          (close_epoch
            { loop_upto reg recs n with count := (loop_upto reg recs n).count + 1 }
            (recs.getD n default)) ∧
    ((spec_epo_bias recs n = 0 ∨ spec_reanchor recs (spec_epo_bias recs n) = true) ∧
      ∀ i, spec_epo_bias recs n < i → i ≤ n → spec_reanchor recs i = false) ∧
    (spec_epoch_start recs (spec_epoch_first recs n) = true ∧ spec_epoch_first recs n ≤ n ∧
      ∀ i, spec_epoch_first recs n < i → i ≤ n → spec_epoch_start recs i = false) ∧
    (0 < n →
      allRxMillis_of (recs.getD n default) = allRxMillis_of (recs.getD (n - 1) default) →
      (loop_upto reg recs (n + 1)).epo_bias = (loop_upto reg recs n).epo_bias) ∧
    main_loop reg recs = loop_upto reg recs recs.length := by
  obtain ⟨i1, _, _, i4⟩ := reanchor_inv reg recs n hn
  have hle := last_index_le (spec_reanchor recs) n
  have hle2 : spec_epo_bias recs n ≤ n := hle
  refine ⟨i1, ?_, ?_, ?_, i4, ?_, last_index_spec (spec_reanchor recs) n, ?_, ?_, ?_⟩
  · rw [i4]
    exact Int.natCast_nonneg _
  · rw [i4]
    exact_mod_cast hle2
  · rw [i4]
    have : spec_epo_bias recs n < recs.length := lt_of_le_of_lt hle2 hn
    exact_mod_cast this
  · have hs := loop_upto_succ reg recs n hn
    have hf := (step_anchor_fields reg recs (loop_upto reg recs n) (recs.getD n default)).2.2.1
    rw [← hs, i4] at hf
    rw [hs, step_eq, ← hf, Int.toNat_ofNat]
  · have h := last_index_spec (spec_epoch_start recs) n
    refine ⟨?_, last_index_le (spec_epoch_start recs) n, h.2⟩
    rcases h.1 with h0 | h0
    · show spec_epoch_start recs (last_index (spec_epoch_start recs) n) = true
      rw [h0]
      rfl
    · exact h0
  · intro hpos hms
    obtain ⟨k, rfl⟩ : ∃ k, n = k + 1 := ⟨n - 1, by omega⟩
    rw [Nat.add_sub_cancel] at hms
    have hstart : ¬ spec_epoch_start recs (k + 1) = true := by
      rw [spec_epoch_start_succ]
      exact not_not.mpr hms
    have hre : ¬ spec_reanchor recs (k + 1) = true := by
      rw [spec_reanchor_succ]
      exact fun hx => hstart hx.1
    have e2 : spec_epo_bias recs (k + 1) = spec_epo_bias recs k := by
      unfold spec_epo_bias
      rw [last_index, if_neg hre]
    rw [i4, (reanchor_inv reg recs k (by omega)).2.2.2, e2]
  · unfold main_loop loop_upto
    rw [List.take_length]

theorem C21_reference_reanchoring_witness :
    3 < logClockReset.length ∧
    (loop_upto Registry.init logClockReset 4).epo_bias = spec_epo_bias logClockReset 3 ∧
    (List.range 4).map (spec_epo_bias logClockReset) = [0, 0, 2, 2] ∧
    (List.range 4).map (spec_epoch_first logClockReset) = [0, 0, 2, 3] :=
  ⟨by decide,
   (C21_reference_reanchoring Registry.init logClockReset 3 (by decide)).2.2.2.2.1,
   by decide!, by decide!⟩

/-! ## C3: rollover correction and the rounding of pr_second -/

theorem roundHalfEven_intCast (m : Int) : roundHalfEven (m : ℚ) = m := by
  unfold roundHalfEven
  rw [Int.floor_intCast, if_pos (by simp)]

/-- An integer of magnitude below `2^53` is a `double`. -/
theorem fl_int (n : Int) (h : |n| < 9007199254740992) : fl (n : ℚ) = (n : ℚ) := by
  unfold fl
  by_cases hn : (n : ℚ) = 0
  · rw [if_pos hn, hn]
  · rw [if_neg hn]
    have hb := binade_le (n : ℚ) hn
    have habs : |(n : ℚ)| < (2 : ℚ) ^ (53 : Int) := by
      rw [← Int.cast_abs]
      have : ((|n| : Int) : ℚ) < ((9007199254740992 : Int) : ℚ) := by exact_mod_cast h
      norm_num at this ⊢
      exact this
    have he : binade (n : ℚ) < 53 := by
      by_contra hge
      have h53 : (2 : ℚ) ^ (53 : Int) ≤ (2 : ℚ) ^ binade (n : ℚ) :=
        zpow_le_zpow_right₀ (by norm_num) (by omega)
      linarith
    obtain ⟨k, hk⟩ : ∃ k : Nat, binade (n : ℚ) - 52 = -(k : Int) :=
      ⟨(52 - binade (n : ℚ)).toNat, by omega⟩
    rw [hk, zpow_neg, zpow_natCast]
    have e : (n : ℚ) / ((2 : ℚ) ^ k)⁻¹ = ((n * 2 ^ k : Int) : ℚ) := by
      rw [div_inv_eq_mul]
      push_cast
      ring
    rw [e, roundHalfEven_intCast]
    push_cast
    field_simp

theorem fl_approx (z Z E : ℚ) (h : |z - Z| ≤ E) :
    |fl z - Z| ≤ E + (|Z| + E) / 9007199254740992 := by
  have h1 := fl_err z
  have h2 : |z| ≤ |Z| + E := by
    have : |z| ≤ |Z| + |z - Z| := by
      calc |z| = |Z + (z - Z)| := by ring_nf
        _ ≤ |Z| + |z - Z| := abs_add _ _
    linarith
  have h3 : |fl z - Z| ≤ |fl z - z| + |z - Z| := by
    calc |fl z - Z| = |(fl z - z) + (z - Z)| := by ring_nf
      _ ≤ |fl z - z| + |z - Z| := abs_add _ _
  have h4 : |z| / 9007199254740992 ≤ (|Z| + E) / 9007199254740992 := by
    apply div_le_div_of_nonneg_right h2
    norm_num
  linarith

theorem mul_approx (x y X Y : ℚ) : |x * y - X * Y| ≤ |x - X| * |y| + |X| * |y - Y| := by
  calc |x * y - X * Y| = |(x - X) * y + X * (y - Y)| := by ring_nf
    _ ≤ |(x - X) * y| + |X * (y - Y)| := abs_add _ _
    _ = |x - X| * |y| + |X| * |y - Y| := by rw [abs_mul, abs_mul]

/-- The rounding error of `fl (fl n * fl (1e-9))` for a real number `n`. -/
theorem nano_to_second_err (n : ℚ) :
    |fl (fl n * fl (1 / 1000000000)) - n * (1 / 1000000000)|
      ≤ |n| * (1 / 1000000000) * (4 / 9007199254740992) := by
  have hn0 : 0 ≤ |n| := abs_nonneg n
  have hA := fl_err n
  have hC := fl_err (1 / 1000000000)
  rw [abs_of_pos (by norm_num : (0 : ℚ) < 1 / 1000000000)] at hC
  have hCabs : |fl (1 / 1000000000)| ≤ 11 / 10000000000 := by
    have : |fl (1 / 1000000000)| ≤ |(1 : ℚ) / 1000000000| + |fl (1 / 1000000000) - 1 / 1000000000| := by
      calc |fl (1 / 1000000000)|
          = |1 / 1000000000 + (fl (1 / 1000000000) - 1 / 1000000000)| := by ring_nf
        _ ≤ _ := abs_add _ _
    rw [abs_of_pos (by norm_num : (0 : ℚ) < 1 / 1000000000)] at this
    norm_num at hC this ⊢
    linarith
  have hprod := mul_approx (fl n) (fl (1 / 1000000000)) n (1 / 1000000000)
  have t1 : |fl n - n| * |fl (1 / 1000000000)|
      ≤ |n| / 9007199254740992 * (11 / 10000000000) :=
    mul_le_mul hA hCabs (abs_nonneg _) (by positivity)
  have t2 : |n| * |fl (1 / 1000000000) - 1 / 1000000000|
      ≤ |n| * (1 / 1000000000 / 9007199254740992) :=
    mul_le_mul_of_nonneg_left hC hn0
  have hE : |fl n * fl (1 / 1000000000) - n * (1 / 1000000000)|
      ≤ |n| * (1 / 1000000000) * (21 / 10 / 9007199254740992) := by
    have : |n| / 9007199254740992 * (11 / 10000000000)
        + |n| * (1 / 1000000000 / 9007199254740992)
        = |n| * (1 / 1000000000) * (21 / 10 / 9007199254740992) := by ring
    linarith
  have hfin := fl_approx _ _ _ hE
  have habs : |n * (1 / 1000000000)| = |n| * (1 / 1000000000) := by
    rw [abs_mul, abs_of_pos (by norm_num : (0 : ℚ) < 1 / 1000000000)]
  rw [habs] at hfin
  have hs : (0 : ℚ) ≤ |n| * (1 / 1000000000) := by positivity
  generalize |n| * (1 / 1000000000) = s at *
  nlinarith

/-- The value `pr_second` computed in double precision differs from the exact
value by at most `2^-50` of the magnitude of its terms. -/
theorem pr_second_fl_err (ref obs : gnss_sat)
    (hrs : |receive_second ref obs| < 9007199254740992) :
    |pr_second_fl ref obs - pr_second_raw ref obs|
      ≤ (|((receive_second ref obs - obs.received_sv_time_nano : Int) : ℚ)| + |ref.bias_nano|)
        / 1000000000 / 1125899906842624 := by
  unfold pr_second_fl pr_second_raw
  rw [fl_int _ hrs]
  have hct : cTrunc ((receive_second ref obs : Int) : ℚ) = receive_second ref obs := by
    unfold cTrunc
    split_ifs
    · exact Int.floor_intCast _
    · rw [← Int.cast_neg, Int.floor_intCast]
      omega
  rw [hct]
  generalize ((receive_second ref obs - obs.received_sv_time_nano : Int) : ℚ) = n
  generalize ref.bias_nano = b
  have ha := nano_to_second_err n
  -- the bias term
  have hC := fl_err (1 / 1000000000)
  rw [abs_of_pos (by norm_num : (0 : ℚ) < 1 / 1000000000)] at hC
  have hb0 : 0 ≤ |b| := abs_nonneg b
  have hbp : |b * fl (1 / 1000000000) - b * (1 / 1000000000)|
      ≤ |b| * (1 / 1000000000) * (1 / 9007199254740992) := by
    have e : b * fl (1 / 1000000000) - b * (1 / 1000000000)
        = b * (fl (1 / 1000000000) - 1 / 1000000000) := by ring
    rw [e, abs_mul]
    have := mul_le_mul_of_nonneg_left hC hb0
    have e2 : |b| * (1 / 1000000000 / 9007199254740992)
        = |b| * (1 / 1000000000) * (1 / 9007199254740992) := by ring
    linarith
  have hbf := fl_approx _ _ _ hbp
  have habsb : |b * (1 / 1000000000)| = |b| * (1 / 1000000000) := by
    rw [abs_mul, abs_of_pos (by norm_num : (0 : ℚ) < 1 / 1000000000)]
  rw [habsb] at hbf
  have hn0 : 0 ≤ |n| := abs_nonneg n
  have hsn : (0 : ℚ) ≤ |n| * (1 / 1000000000) := by positivity
  have hsb : (0 : ℚ) ≤ |b| * (1 / 1000000000) := by positivity
  have hb2 : |fl (b * fl (1 / 1000000000)) - b * (1 / 1000000000)|
      ≤ |b| * (1 / 1000000000) * (3 / 9007199254740992) := by
    generalize |b| * (1 / 1000000000) = s at *
    nlinarith
  have hd : |fl (fl n * fl (1 / 1000000000)) - fl (b * fl (1 / 1000000000))
        - (n * (1 / 1000000000) - b * (1 / 1000000000))|
      ≤ |n| * (1 / 1000000000) * (4 / 9007199254740992)
        + |b| * (1 / 1000000000) * (3 / 9007199254740992) := by
    have e : fl (fl n * fl (1 / 1000000000)) - fl (b * fl (1 / 1000000000))
          - (n * (1 / 1000000000) - b * (1 / 1000000000))
        = (fl (fl n * fl (1 / 1000000000)) - n * (1 / 1000000000))
          - (fl (b * fl (1 / 1000000000)) - b * (1 / 1000000000)) := by ring
    rw [e]
    have := abs_sub (fl (fl n * fl (1 / 1000000000)) - n * (1 / 1000000000))
      (fl (b * fl (1 / 1000000000)) - b * (1 / 1000000000))
    linarith
  have hfin := fl_approx _ _ _ hd
  have hT : |n * (1 / 1000000000) - b * (1 / 1000000000)|
      ≤ |n| * (1 / 1000000000) + |b| * (1 / 1000000000) := by
    have := abs_sub (n * (1 / 1000000000)) (b * (1 / 1000000000))
    rw [abs_mul, abs_mul, abs_of_pos (by norm_num : (0 : ℚ) < 1 / 1000000000)] at this
    exact this
  have e3 : (|n| + |b|) / 1000000000 / 1125899906842624
      = (|n| * (1 / 1000000000) + |b| * (1 / 1000000000)) * (8 / 9007199254740992) := by
    ring
  rw [e3]
  generalize |n| * (1 / 1000000000) = sn at *
  generalize |b| * (1 / 1000000000) = sb at *
  generalize |n * (1 / 1000000000) - b * (1 / 1000000000)| = T at *
  nlinarith

/-- C3 (as stated, refuted). The record `rolloverRecord 13 500000000` has the
exact uncorrected pseudorange time `604800 × 13 + 0.5` s, which the rollover
step would bring to 0.5, inside the acceptance window. The program computes
`pr_second` in double precision as `7862400.5 + 2^-30`; the rollover step gives
`0.5 + 2^-30`, above 0.5, and the window test drops the record. For the witness
`604800 + 0.2` (`rolloverRecord 1 200000000`) the computed value after the
rollover step is `0.2 + 3 / 42949672960`, not 0.2. -/
theorem C3_counterexample_rounding :
    (rolloverRecord 13 500000000).sys = SYS_GPS ∧
    pr_second_raw (rolloverRecord 13 500000000) (rolloverRecord 13 500000000)
      = 604800 * 13 + 1 / 2 ∧
    (rollover SYS_GPS (604800 * 13 + 1 / 2)).1 = 1 / 2 ∧
    pr_second_fl (rolloverRecord 13 500000000) (rolloverRecord 13 500000000)
      = 604800 * 13 + 1 / 2 + 1 / 1073741824 ∧
    (rollover SYS_GPS
        (pr_second_fl (rolloverRecord 13 500000000) (rolloverRecord 13 500000000))).1
      = 1 / 2 + 1 / 1073741824 ∧
    ((rollover SYS_GPS
        (pr_second_fl (rolloverRecord 13 500000000) (rolloverRecord 13 500000000))).1 > 1 / 2 ∨
      (rollover SYS_GPS
        (pr_second_fl (rolloverRecord 13 500000000) (rolloverRecord 13 500000000))).1 < 0) ∧
    pr_second_raw (rolloverRecord 1 200000000) (rolloverRecord 1 200000000)
      = 604800 * 1 + 1 / 5 ∧
    (rollover SYS_GPS
        (pr_second_fl (rolloverRecord 1 200000000) (rolloverRecord 1 200000000))).1
      = 1 / 5 + 3 / 42949672960 := by
  refine ⟨?_, ?_, ?_, ?_, ?_, ?_, ?_, ?_⟩ <;> decide!

/-- C3 (amended). Over exact numbers the rollover step maps `604800 k + x`
(`k ≥ 1`, `0 ≤ x ≤ 0.5`) to `x`. The program computes `pr_second` from the
nanosecond difference in double precision (`pr_second_fl`). For a GPS, Galileo,
BeiDou or QZSS record whose exact uncorrected pseudorange time is
`604800 k + x` and whose time of reception is below `2^53` ns, the computed
value differs from `604800 k + x` by at most
`m = (|nanosecond difference| + |bias_nano|) × 1e-9 × 2^-50`; when `m ≤ 1/4`
the rollover step subtracts exactly `604800 k`, so the corrected value differs
from `x` by at most `m` (within 1e-6 when `m ≤ 1e-6`), and it lies in the
acceptance window, so that the record is accepted, whenever
`m ≤ x ≤ 0.5 - m`. -/
theorem C3_rollover_rounded (ref obs : gnss_sat) (k : Int) (x m : ℚ)
    (hsys : obs.sys = SYS_GPS ∨ obs.sys = SYS_GAL ∨ obs.sys = SYS_BDS ∨ obs.sys = SYS_QZS)
    (hk : 1 ≤ k) (hx0 : 0 ≤ x) (hx1 : x ≤ 1 / 2)
    (hrs : |receive_second ref obs| < 9007199254740992)
    (hraw : pr_second_raw ref obs = 604800 * (k : ℚ) + x)
    (hm : (|((receive_second ref obs - obs.received_sv_time_nano : Int) : ℚ)|
        + |ref.bias_nano|) / 1000000000 / 1125899906842624 ≤ m)
    (hm1 : m ≤ 1 / 4) :
    (rollover obs.sys (604800 * (k : ℚ) + x)).1 = x ∧
    |pr_second_fl ref obs - (604800 * (k : ℚ) + x)| ≤ m ∧
    (rollover obs.sys (pr_second_fl ref obs)).1 = pr_second_fl ref obs - 604800 * (k : ℚ) ∧
    |(rollover obs.sys (pr_second_fl ref obs)).1 - x| ≤ m ∧
    (m ≤ 1 / 1000000 → |(rollover obs.sys (pr_second_fl ref obs)).1 - x| ≤ 1 / 1000000) ∧
    (m ≤ x → x ≤ 1 / 2 - m →
      ¬ ((rollover obs.sys (pr_second_fl ref obs)).1 > 1 / 2 ∨
         (rollover obs.sys (pr_second_fl ref obs)).1 < 0)) := by
  have hk1 : (1 : ℚ) ≤ (k : ℚ) := by exact_mod_cast hk
  have hglo : obs.sys ≠ SYS_GLO := by
    rcases hsys with h | h | h | h <;> rw [h] <;> decide
  have round_k : ∀ d : ℚ, |d| ≤ 1 / 4 →
      cRound ((604800 * (k : ℚ) + x + d) / 604800) = k := by
    intro d hd
    rw [abs_le] at hd
    have hq : (604800 * (k : ℚ) + x + d) / 604800 = (k : ℚ) + (x + d) / 604800 := by
      field_simp
      ring
    rw [hq]
    apply cRound_int_add
    · rw [le_div_iff₀ (by norm_num : (0 : ℚ) < 604800)]
      linarith [hd.1]
    · rw [div_lt_iff₀ (by norm_num : (0 : ℚ) < 604800)]
      linarith [hd.2]
    · have : -(1 : ℚ) ≤ (x + d) / 604800 := by
        rw [le_div_iff₀ (by norm_num : (0 : ℚ) < 604800)]
        linarith [hd.1]
      linarith
  have value : ∀ d : ℚ, |d| ≤ 1 / 4 →
      (rollover obs.sys (604800 * (k : ℚ) + x + d)).1 = x + d := by
    intro d hd
    have hbig : 604800 * (k : ℚ) + x + d > 302400 := by
      rw [abs_le] at hd
      linarith [hd.1]
    rw [(rollover_week obs.sys _ hbig hglo).1, round_k d hd]
    ring
  have herr := pr_second_fl_err ref obs hrs
  rw [hraw] at herr
  have hE : |pr_second_fl ref obs - (604800 * (k : ℚ) + x)| ≤ m := le_trans herr hm
  have hd14 : |pr_second_fl ref obs - (604800 * (k : ℚ) + x)| ≤ 1 / 4 := le_trans hE hm1
  have hP : pr_second_fl ref obs
      = 604800 * (k : ℚ) + x + (pr_second_fl ref obs - (604800 * (k : ℚ) + x)) := by ring
  have hval : (rollover obs.sys (pr_second_fl ref obs)).1
      = x + (pr_second_fl ref obs - (604800 * (k : ℚ) + x)) := by
    conv_lhs => rw [hP]
    exact value _ hd14
  have hx : (rollover obs.sys (604800 * (k : ℚ) + x)).1 = x := by
    have := value 0 (by norm_num)
    simpa using this
  have hdiff : (rollover obs.sys (pr_second_fl ref obs)).1 - x
      = pr_second_fl ref obs - (604800 * (k : ℚ) + x) := by
    rw [hval]
    ring
  refine ⟨hx, hE, ?_, ?_, ?_, ?_⟩
  · rw [hval]
    ring
  · rw [hdiff]
    exact hE
  · intro h6
    rw [hdiff]
    exact le_trans hE h6
  · intro hlo hhi
    have hb := hE
    rw [← hdiff, abs_le] at hb
    rintro (h | h)
    · linarith [hb.2]
    · linarith [hb.1]

theorem C3_rollover_rounded_witness :
    |(rollover (rolloverRecord 1 200000000).sys
        (pr_second_fl (rolloverRecord 1 200000000) (rolloverRecord 1 200000000))).1 - 1 / 5|
      ≤ 1 / 1000000 ∧
    ¬ ((rollover (rolloverRecord 1 200000000).sys
          (pr_second_fl (rolloverRecord 1 200000000) (rolloverRecord 1 200000000))).1 > 1 / 2 ∨
       (rollover (rolloverRecord 1 200000000).sys
          (pr_second_fl (rolloverRecord 1 200000000) (rolloverRecord 1 200000000))).1 < 0) :=
  ⟨(C3_rollover_rounded (rolloverRecord 1 200000000) (rolloverRecord 1 200000000) 1 (1 / 5)
      (1 / 1000000) (Or.inl (by decide!)) (by decide) (by norm_num) (by norm_num)
      (by decide!) (by decide!) (by decide!) (by norm_num)).2.2.2.1,
   (C3_rollover_rounded (rolloverRecord 1 200000000) (rolloverRecord 1 200000000) 1 (1 / 5)
      (1 / 1000000) (Or.inl (by decide!)) (by decide) (by norm_num) (by norm_num)
      (by decide!) (by decide!) (by decide!) (by norm_num)).2.2.2.2.2
      (by norm_num) (by norm_num)⟩

end Csv2Rinex
